import Mathlib

/-!
# OpenRCT2 game actions and the path graph

A shallow embedding of `src/openrct2/actions/PeepPickupAction.hpp`,
`src/openrct2/actions/TrackPlaceAction.hpp`,
`src/openrct2/actions/GameActionRegistration.cpp` and
`src/openrct2/world/MapPathing.cpp`, with the properties of the specification
stated and proved over it.

Conventions of the embedding

* A `Peep*` is the index of the entity in the sprite list; the null pointer is
  `none`.  `existing->sprite_index` is therefore that index and pointer
  equality is index equality.
* Machine integers are `Nat`/`Int`; C++ integer division is `Int.tdiv`.
* Every function that can touch the world takes the world and returns the new
  one, together with the list of calls it made to code that lives outside the
  two headers.
-/

namespace OpenRCT2

/-! ## Common data -/

/-- World coordinate triple (`CoordsXYZ`). -/
structure CoordsXYZ where
  x : Int
  y : Int
  z : Int
deriving DecidableEq, Repr

/-- Tile coordinate triple (`TileCoordsXYZ`). -/
structure TileCoordsXYZ where
  x : Int
  y : Int
  z : Int
deriving DecidableEq, Repr

/-- The error kinds (`GA_ERROR`) that the two actions produce. -/
inductive GA_ERROR where
  | OK
  | INVALID_PARAMETERS
  | DISALLOWED
  | NO_FREE_ELEMENTS
  | UNKNOWN
deriving DecidableEq, Repr

/-- String ids (`rct_string_id`) named in the two actions; `STR_OTHER` stands for
any id that a callee left in `gGameCommandErrorText`. -/
inductive rct_string_id where
  | STR_NONE
  | STR_ERR_CANT_PLACE_PERSON_HERE
  | STR_NOT_ALLOWED_TO_MODIFY_STATION
  | STR_CONSTRUCTION_NOT_POSSIBLE_WHILE_GAME_IS_PAUSED
  | STR_ONLY_ONE_ON_RIDE_PHOTO_PER_RIDE
  | STR_ONLY_ONE_CABLE_LIFT_HILL_PER_RIDE
  | STR_TOO_STEEP_FOR_LIFT_HILL
  | STR_LAND_NOT_OWNED_BY_PARK
  | STR_TILE_ELEMENT_LIMIT_REACHED
  | STR_CONSTRUCTION_ERR_UNKNOWN
  | STR_TOO_LOW
  | STR_TOO_HIGH
  | STR_CANT_BUILD_PARTLY_ABOVE_AND_PARTLY_BELOW_GROUND
  | STR_CAN_ONLY_BUILD_THIS_ABOVE_GROUND
  | STR_CAN_ONLY_BUILD_THIS_UNDERWATER
  | STR_RIDE_CANT_BUILD_THIS_UNDERWATER
  | STR_CAN_ONLY_BUILD_THIS_ON_WATER
  | STR_TOO_HIGH_FOR_SUPPORTS
  | STR_OTHER (id : Nat)
deriving DecidableEq, Repr

/-- Modelled from the spec: `GameActionResult` (GameAction.h is not among the
sources).  The spec describes it as a "tagged outcome {Ok, kind-of-error} +
message id + optional structured payload (computed cost, resulting world
position, error-context string)"; the position is optional and absent until an
action sets it. -/
structure GameActionResult where
  Error : GA_ERROR
  ErrorTitle : rct_string_id
  ErrorMessage : rct_string_id
  Position : Option CoordsXYZ
  Cost : Int
  ExpenditureType : Nat
deriving DecidableEq, Repr

/-- Modelled from the spec: `MakeResult()` with no argument, the Ok outcome with
no payload yet. -/
def MakeResult : GameActionResult :=
  { Error := GA_ERROR.OK, ErrorTitle := rct_string_id.STR_NONE,
    ErrorMessage := rct_string_id.STR_NONE, Position := none, Cost := 0,
    ExpenditureType := 0 }

/-- Modelled from the spec: `MakeResult(error, message)`, a failure "with a
specific error kind and message id". -/
def MakeResult2 (error : GA_ERROR) (message : rct_string_id) : GameActionResult :=
  { MakeResult with Error := error, ErrorMessage := message }

/-- Modelled from the spec: `MakeResult(error, title, message)`, a failure with a
title and an auxiliary error-context message. -/
def MakeResult3 (error : GA_ERROR) (title message : rct_string_id) : GameActionResult :=
  { MakeResult with Error := error, ErrorTitle := title, ErrorMessage := message }

/-! ## Peep pickup: data model -/

/-- The fields of a peep that the peep methods read and write. -/
structure Peep where
  x : Int
  y : Int
  z : Int
  state : Nat
deriving DecidableEq, Repr

/-- One slot of the sprite list: the entity-kind tag (`sprite_identifier`) and the
peep data stored there. -/
structure Entity where
  sprite_identifier : Nat
  peep : Peep
deriving DecidableEq, Repr

/-- The constants and the peep methods that `PeepPickupAction.hpp` uses but that
are declared elsewhere (Sprite.h, Peep.h): they are parameters of the model. -/
structure PeepEnv where
  MAX_SPRITES : Nat
  SPRITE_INDEX_NULL : Nat
  SPRITE_IDENTIFIER_PEEP : Nat
  peep_can_be_picked_up : Peep → Bool
  Pickup : Peep → Peep
  PickupAbort : Int → Peep → Peep
  PlaceTest : TileCoordsXYZ → Peep → Bool
  PlaceApply : TileCoordsXYZ → Peep → Peep
  gGameCommandErrorText : rct_string_id

/-- The state the peep pickup action reads and writes: the sprite list, the
per-player pickup record of the network layer (`network_get_pickup_peep`,
`network_get_pickup_peep_old_x`), the id of the local player and the
`INPUT_FLAG_TOOL_ACTIVE` input flag.  The macro `GET_PEEP` is not among the
sources: `sprites id` is what it finds at `id`, for every id, and `none` is the
null pointer. -/
structure World where
  sprites : Nat → Option Entity
  pickup_peep : Int → Option Nat
  pickup_peep_old_x : Int → Int
  current_player_id : Int
  tool_active : Bool

/-- A call made on a peep through one of the methods of `PeepEnv`. -/
inductive PeepCall where
  | can_be_picked_up (peep : Nat)
  | Pickup (peep : Nat)
  | PickupAbort (peep : Nat) (old_x : Int)
  | Place (peep : Nat) (location : TileCoordsXYZ) (apply : Bool)
deriving DecidableEq, Repr

/-- What a `Query` or `Execute` call leaves behind: its result, the world after
it and the peep-method calls it made, in order. -/
structure Outcome where
  result : GameActionResult
  world : World
  calls : List PeepCall

/-- The enum `PeepPickupType` as its `uint8_t` values: `PeepPickupType::Pickup`. -/
def PeepPickupType.Pickup : Nat := 0

/-- The value of `PeepPickupType::Cancel`. -/
def PeepPickupType.Cancel : Nat := 1

/-- The value of `PeepPickupType::Place`. -/
def PeepPickupType.Place : Nat := 2

/-- The value of `PeepPickupType::Count`. -/
def PeepPickupType.Count : Nat := 3

/-- The fields of a `PeepPickupAction`. -/
structure PeepPickupAction where
  _type : Nat
  _spriteId : Nat
  _loc : CoordsXYZ
deriving DecidableEq, Repr

/-- The default-constructed action: type `Count`, sprite id `SPRITE_INDEX_NULL`. -/
def PeepPickupAction.default (env : PeepEnv) (loc : CoordsXYZ) : PeepPickupAction :=
  { _type := PeepPickupType.Count, _spriteId := env.SPRITE_INDEX_NULL, _loc := loc }

/-- The lookup `GET_PEEP(id)` followed by the test
`!peep || peep->sprite_identifier != SPRITE_IDENTIFIER_PEEP`: the peep at `id`,
or `none` when that test rejects it. -/
def getPeep (env : PeepEnv) (w : World) (id : Nat) : Option Peep :=
  match w.sprites id with
  | none => none
  | some e => if e.sprite_identifier ≠ env.SPRITE_IDENTIFIER_PEEP then none else some e.peep

/-- Write back the peep data of the entity at `id`. -/
def setPeep (w : World) (id : Nat) (p : Peep) : World :=
  { w with sprites := fun i =>
      if i = id then (w.sprites id).map (fun e => { e with peep := p }) else w.sprites i }

/-- The setter `network_set_pickup_peep(player, peep)`. -/
def network_set_pickup_peep (w : World) (player : Int) (peep : Option Nat) : World :=
  { w with pickup_peep := fun p => if p = player then peep else w.pickup_peep p }

/-- The setter `network_set_pickup_peep_old_x(player, x)`. -/
def network_set_pickup_peep_old_x (w : World) (player : Int) (x : Int) : World :=
  { w with pickup_peep_old_x := fun p => if p = player then x else w.pickup_peep_old_x p }

/-- Modelled from the spec: `Peep::Place(location, apply)` (Peep.cpp is not among
the sources).  The spec has Query as "pure read-only validation" and Execute as
the stage that "performs the mutation"; the two call sites differ only in the
`apply` argument, so the placement test decides the returned flag and the peep
is moved only when the test passes and `apply` is set. -/
def Peep.Place (env : PeepEnv) (p : Peep) (location : TileCoordsXYZ) (apply : Bool) :
    Bool × Peep :=
  if env.PlaceTest location p then (true, if apply then env.PlaceApply location p else p)
  else (false, p)

/-- The peep data behind a non-null `Peep*`, read in world `w`; `p0` is the value
read earlier through the same pointer and is used only if the slot is gone. -/
def peepData (w : World) (id : Nat) (p0 : Peep) : Peep :=
  match w.sprites id with
  | some e => e.peep
  | none => p0

/-- The `InvalidParameters` failure both stages return for a bad target or type. -/
def invalidPeepResult : GameActionResult :=
  MakeResult2 GA_ERROR.INVALID_PARAMETERS rct_string_id.STR_ERR_CANT_PLACE_PERSON_HERE

/-! ## Peep pickup: `Query` and `Execute` -/

mutual

/-- The method `PeepPickupAction::Query()` for the action `a` issued by `player`
(`GetPlayer()`); `log_error` calls are not modelled. -/
def PeepPickupAction.Query (env : PeepEnv) (player : Int) (a : PeepPickupAction) (w : World) :
    Outcome :=
  if a._spriteId ≥ env.MAX_SPRITES ∨ a._spriteId = env.SPRITE_INDEX_NULL then
    ⟨invalidPeepResult, w, []⟩
  else
    match getPeep env w a._spriteId with
    | none => ⟨invalidPeepResult, w, []⟩
    | some peep =>
      if _h : a._type = PeepPickupType.Pickup then
        let res := { MakeResult with Position := some ⟨peep.x, peep.y, peep.z⟩ }
        if ¬ env.peep_can_be_picked_up peep then
          ⟨MakeResult2 GA_ERROR.DISALLOWED rct_string_id.STR_ERR_CANT_PLACE_PERSON_HERE, w,
            [PeepCall.can_be_picked_up a._spriteId]⟩
        else
          match w.pickup_peep player with
          | some existing =>
            -- already picking up a peep
            let result := GameActions.QueryNested env player
              { _type := PeepPickupType.Cancel, _spriteId := existing,
                _loc := ⟨w.pickup_peep_old_x player, 0, 0⟩ } w
            if existing = a._spriteId then
              ⟨result.result, result.world, PeepCall.can_be_picked_up a._spriteId :: result.calls⟩
            else
              ⟨res, result.world, PeepCall.can_be_picked_up a._spriteId :: result.calls⟩
          | none => ⟨res, w, [PeepCall.can_be_picked_up a._spriteId]⟩
      else if a._type = PeepPickupType.Cancel then
        ⟨{ MakeResult with Position := some ⟨peep.x, peep.y, peep.z⟩ }, w, []⟩
      else if a._type = PeepPickupType.Place then
        let res := { MakeResult with Position := some a._loc }
        if w.pickup_peep player ≠ some a._spriteId then
          ⟨MakeResult2 GA_ERROR.UNKNOWN rct_string_id.STR_ERR_CANT_PLACE_PERSON_HERE, w, []⟩
        else
          let location : TileCoordsXYZ := ⟨a._loc.x.tdiv 32, a._loc.y.tdiv 32, a._loc.z⟩
          let placed := Peep.Place env peep location false
          let w1 := setPeep w a._spriteId placed.2
          if ¬ placed.1 then
            ⟨MakeResult3 GA_ERROR.UNKNOWN rct_string_id.STR_ERR_CANT_PLACE_PERSON_HERE
                env.gGameCommandErrorText, w1, [PeepCall.Place a._spriteId location false]⟩
          else
            ⟨res, w1, [PeepCall.Place a._spriteId location false]⟩
      else
        ⟨invalidPeepResult, w, []⟩
termination_by (if a._type = PeepPickupType.Pickup then 2 else 0)
decreasing_by
  simp [_h, PeepPickupType.Cancel, PeepPickupType.Pickup]

/-- Modelled from the spec: `GameActions::QueryNested` (GameAction.cpp is not among
the sources), the entry point "used by an action's own Execute/Query to invoke
another action without re-entering network broadcast or permission prompts;
returns the inner ActionResult directly to the outer caller".  Nested calls
"share the top-level network/permission context", so the nested action runs for
the same player. -/
def GameActions.QueryNested (env : PeepEnv) (player : Int) (a : PeepPickupAction) (w : World) :
    Outcome :=
  PeepPickupAction.Query env player a w
termination_by (if a._type = PeepPickupType.Pickup then 3 else 1)
decreasing_by
  split <;> simp

end

mutual

/-- The method `PeepPickupAction::Execute()` for the action `a` issued by `player`
(`GetPlayer()`); `log_error` calls are not modelled. -/
def PeepPickupAction.Execute (env : PeepEnv) (player : Int) (a : PeepPickupAction) (w : World) :
    Outcome :=
  match getPeep env w a._spriteId with
  | none => ⟨invalidPeepResult, w, []⟩
  | some peep =>
    if _h : a._type = PeepPickupType.Pickup then
      let res := { MakeResult with Position := some ⟨peep.x, peep.y, peep.z⟩ }
      match w.pickup_peep player with
      | some existing =>
        -- already picking up a peep
        let result := GameActions.ExecuteNested env player
          { _type := PeepPickupType.Cancel, _spriteId := existing,
            _loc := ⟨w.pickup_peep_old_x player, 0, 0⟩ } w
        if existing = a._spriteId then
          result
        else
          -- prevent tool_cancel()
          let w1 : World :=
            if player = result.world.current_player_id then
              { result.world with tool_active := false }
            else result.world
          let w2 := network_set_pickup_peep w1 player (some a._spriteId)
          let w3 := network_set_pickup_peep_old_x w2 player (peepData w2 a._spriteId peep).x
          let w4 := setPeep w3 a._spriteId (env.Pickup (peepData w3 a._spriteId peep))
          ⟨res, w4, result.calls ++ [PeepCall.Pickup a._spriteId]⟩
      | none =>
        let w2 := network_set_pickup_peep w player (some a._spriteId)
        let w3 := network_set_pickup_peep_old_x w2 player (peepData w2 a._spriteId peep).x
        let w4 := setPeep w3 a._spriteId (env.Pickup (peepData w3 a._spriteId peep))
        ⟨res, w4, [PeepCall.Pickup a._spriteId]⟩
    else if a._type = PeepPickupType.Cancel then
      let res := { MakeResult with Position := some ⟨peep.x, peep.y, peep.z⟩ }
      match w.pickup_peep player with
      | some pickedUpPeep =>
        let w1 := setPeep w pickedUpPeep
          (env.PickupAbort a._loc.x (peepData w pickedUpPeep peep))
        ⟨res, network_set_pickup_peep w1 player none,
          [PeepCall.PickupAbort pickedUpPeep a._loc.x]⟩
      | none => ⟨res, network_set_pickup_peep w player none, []⟩
    else if a._type = PeepPickupType.Place then
      let res := { MakeResult with Position := some a._loc }
      let location : TileCoordsXYZ := ⟨a._loc.x.tdiv 32, a._loc.y.tdiv 32, a._loc.z⟩
      let placed := Peep.Place env peep location true
      let w1 := setPeep w a._spriteId placed.2
      if ¬ placed.1 then
        ⟨MakeResult3 GA_ERROR.UNKNOWN rct_string_id.STR_ERR_CANT_PLACE_PERSON_HERE
            env.gGameCommandErrorText, w1, [PeepCall.Place a._spriteId location true]⟩
      else
        ⟨res, w1, [PeepCall.Place a._spriteId location true]⟩
    else
      ⟨invalidPeepResult, w, []⟩
termination_by (if a._type = PeepPickupType.Pickup then 2 else 0)
decreasing_by
  simp [_h, PeepPickupType.Cancel, PeepPickupType.Pickup]

/-- Modelled from the spec: `GameActions::ExecuteNested` (GameAction.cpp is not
among the sources); see `GameActions.QueryNested`.  The nested action is executed
for the same player and its result is handed back to the caller. -/
def GameActions.ExecuteNested (env : PeepEnv) (player : Int) (a : PeepPickupAction) (w : World) :
    Outcome :=
  PeepPickupAction.Execute env player a w
termination_by (if a._type = PeepPickupType.Pickup then 3 else 1)
decreasing_by
  split <;> simp

end

/-! ### Sample data used to evaluate the model -/

/-- Sample constants and peep methods: picking up moves the peep to x = -32768 and
sets state 1, aborting restores the given x and sets state 2, placing is allowed
on tiles with non-negative coordinates and moves the peep to the tile centre. -/
def sampleEnv : PeepEnv :=
  { MAX_SPRITES := 10000, SPRITE_INDEX_NULL := 65535, SPRITE_IDENTIFIER_PEEP := 1,
    peep_can_be_picked_up := fun p => p.state ≠ 1,
    Pickup := fun p => { p with x := -32768, state := 1 },
    PickupAbort := fun old_x p => { p with x := old_x, state := 2 },
    PlaceTest := fun l _ => decide (0 ≤ l.x ∧ 0 ≤ l.y),
    PlaceApply := fun l p => { p with x := l.x * 32 + 16, y := l.y * 32 + 16, z := l.z, state := 2 },
    gGameCommandErrorText := rct_string_id.STR_NONE }

/-- Sample world: peeps at slots 1 and 2, a non-peep entity at slot 3, nothing
elsewhere; nobody holds a peep. -/
def sampleWorld : World :=
  { sprites := fun i =>
      if i = 1 then some ⟨1, ⟨100, 200, 16, 0⟩⟩
      else if i = 2 then some ⟨1, ⟨300, 400, 32, 0⟩⟩
      else if i = 3 then some ⟨0, ⟨0, 0, 0, 0⟩⟩
      else none,
    pickup_peep := fun _ => none,
    pickup_peep_old_x := fun _ => 0,
    current_player_id := 0,
    tool_active := true }

/-- The sample world after player 0 has picked up the peep at slot 2. -/
def sampleHolding2 : World :=
  (PeepPickupAction.Execute sampleEnv 0 ⟨PeepPickupType.Pickup, 2, ⟨0, 0, 0⟩⟩ sampleWorld).world

/-! ### Sequences of `Execute` calls -/

/-- The world together with the record of every peep-method call made so far,
each tagged with the player whose action made it. -/
structure Sys where
  world : World
  log : List (Int × PeepCall)

/-- One `Execute` call of player `pa.1` with action `pa.2`. -/
def execStep (env : PeepEnv) (s : Sys) (pa : Int × PeepPickupAction) : Sys :=
  let o := PeepPickupAction.Execute env pa.1 pa.2 s.world
  ⟨o.world, s.log ++ o.calls.map (fun c => (pa.1, c))⟩

/-- A sequence of `Execute` calls, in order. -/
def execRun (env : PeepEnv) (s : Sys) (actions : List (Int × PeepPickupAction)) : Sys :=
  actions.foldl (execStep env) s

/-- How one logged call changes whether peep `i` is in picked-up state on behalf of
player `p`: a `Pickup` of `i` made by `p` starts it, a `PickupAbort` of `i` ends
it, every other call leaves it as it was. -/
def pickedStep (p : Int) (i : Nat) (b : Bool) (e : Int × PeepCall) : Bool :=
  match e.2 with
  | PeepCall.Pickup j => if e.1 = p ∧ j = i then true else b
  | PeepCall.PickupAbort j _ => if j = i then false else b
  | _ => b

/-- Peep `i` is in picked-up state on behalf of player `p` after the logged calls:
`p` picked it up and its pickup has not been aborted since. -/
def pickedFor (p : Int) (i : Nat) (log : List (Int × PeepCall)) : Bool :=
  log.foldl (pickedStep p i) false

/-- The invariant behind exclusive pickup: a peep that is in picked-up state on
behalf of a player is the peep recorded as held by that player, and it is a
peep of the sprite list. -/
def PickupInv (env : PeepEnv) (s : Sys) : Prop :=
  ∀ p i, pickedFor p i s.log = true →
    s.world.pickup_peep p = some i ∧ (getPeep env s.world i).isSome = true

/-- The sample run: player 0 picks up peep 2 and then peep 1. -/
def sampleActions : List (Int × PeepPickupAction) :=
  [(0, ⟨PeepPickupType.Pickup, 2, ⟨0, 0, 0⟩⟩), (0, ⟨PeepPickupType.Pickup, 1, ⟨0, 0, 0⟩⟩)]

/-! ## Track placement: data model -/

/-- World coordinate with a direction (`CoordsXYZD`). -/
structure CoordsXYZD where
  x : Int
  y : Int
  z : Int
  direction : Int
deriving DecidableEq, Repr

/-- The fields of a `TrackPlaceAction`. -/
structure TrackPlaceAction where
  _rideIndex : Int
  _trackType : Int
  _origin : CoordsXYZD
  _brakeSpeed : Int
  _colour : Int
  _seatRotation : Int
  _trackPlaceFlags : Nat
deriving DecidableEq, Repr

/-- One sub-element of a track piece (`rct_preview_track`). -/
structure rct_preview_track where
  index : Nat
  x : Int
  y : Int
  z : Int
  var_07 : Int
  var_08 : Nat
  var_09 : Nat
deriving DecidableEq, Repr

/-- The fields of a ride record that track placement reads and writes;
`overall_view_x = overall_view_y = 255` is `RCT_XY8_UNDEFINED`. -/
structure Ride where
  type : Nat
  subtype : Nat
  lifecycle_flags : Nat
  num_block_brakes : Nat
  mode : Nat
  window_invalidate_flags : Nat
  cable_lift_x : Int
  cable_lift_y : Int
  cable_lift_z : Int
  overall_view_x : Int
  overall_view_y : Int
deriving DecidableEq, Repr

/-- The field of a ride entry (`rct_ride_entry`) that track placement reads. -/
structure rct_ride_entry where
  max_height : Int
deriving DecidableEq, Repr

/-- What track placement reads of a surface tile element. -/
structure SurfaceElement where
  base_height : Int
  water_height : Nat
  slope : Nat
deriving DecidableEq, Repr

/-- The track tile element built by `tile_element_insert` and the setters applied
to it before the next call. -/
structure TrackElement where
  x : Int
  y : Int
  base_height : Int
  quadrants : Nat
  clearance_height : Int
  type : Nat
  direction : Int
  has_chain : Bool
  sequence_index : Nat
  ride_index : Int
  track_type : Int
  ghost : Bool
  brake_booster_speed : Option Int
  seat_rotation : Option Int
  inverted : Bool
  colour_scheme : Int
deriving DecidableEq, Repr

/-- A call from `TrackPlaceAction::Query` into code outside the header that can
change the map, the ride's stations or the network state. -/
inductive TrackCall where
  | map_check_free_elements_and_reorganise (num_elements : Nat)
  | map_can_construct_with_clear_at (x y zLow zHigh : Int) (bl flags crossingMode : Nat)
  | footpath_remove_litter (x y z : Int)
  | wall_remove_at (x y z0 z1 : Int)
  | wall_remove_intersecting_walls (x y z0 z1 : Int) (direction : Int)
  | track_add_station_element (x y z : Int) (direction : Int) (rideIndex : Int) (flags : Nat)
  | invalidate_test_results (rideIndex : Int)
  | tile_element_insert (element : TrackElement)
  | map_animation_create (type : Nat) (x y z : Int)
  | sub_6CB945 (rideIndex : Int)
  | ride_update_max_vehicles (rideIndex : Int)
  | SetHasTrackThatNeedsWater (x y : Int)
  | footpath_connect_edges (x y : Int) (flags : Nat)
  | map_invalidate_tile_full (x y : Int)
  | network_set_player_last_action_coord (x y z : Int)
deriving DecidableEq, Repr

/-- A `TrackCall` that takes a tile element off the map. -/
def TrackCall.removesElement : TrackCall → Bool
  | TrackCall.footpath_remove_litter _ _ _ => true
  | TrackCall.wall_remove_at _ _ _ _ => true
  | TrackCall.wall_remove_intersecting_walls _ _ _ _ _ => true
  | _ => false

/-- A `TrackCall` that puts a tile element on the map. -/
def TrackCall.insertsElement : TrackCall → Bool
  | TrackCall.tile_element_insert _ => true
  | _ => false

/-- The globals and the ride list that the action reads and writes, and the calls
made so far into the map code (`calls`, oldest first): together with the map
the action started from they determine the map. -/
structure TrackState where
  rides : Int → Option Ride
  gCommandExpenditureType : Nat
  gCommandPosition : CoordsXYZ
  gTrackGroundFlags : Nat
  gMapGroundFlags : Nat
  gGameCommandErrorText : rct_string_id
  _currentTrackEndX : Int
  _currentTrackEndY : Int
  calls : List TrackCall

/-- What `map_can_construct_with_clear_at` leaves behind: its verdict, the value it
left in `cost` (passed by pointer), and the values it left in `gMapGroundFlags`
and `gGameCommandErrorText`. -/
structure ClearResult where
  ok : Bool
  cost : Int
  gMapGroundFlags : Nat
  gGameCommandErrorText : rct_string_id

/-- The constants of the headers that `TrackPlaceAction.hpp` includes but that are
not among the sources. -/
structure TrackConsts where
  RIDE_TYPE_NULL : Nat
  RCT_EXPENDITURE_TYPE_RIDE_CONSTRUCTION : Nat
  RIDE_LIFECYCLE_INDESTRUCTIBLE_TRACK : Nat
  RIDE_LIFECYCLE_ON_RIDE_PHOTO : Nat
  RIDE_LIFECYCLE_CABLE_LIFT_HILL_COMPONENT_USED : Nat
  GA_FLAGS_ALLOW_WHILE_PAUSED : Nat
  RIDE_TYPE_FLAG_FLAT_RIDE : Nat
  RIDE_TYPE_FLAG_TRACK_NO_WALLS : Nat
  RIDE_TYPE_FLAG_TRACK_MUST_BE_ON_WATER : Nat
  TRACK_ELEM_FLAT : Int
  TRACK_ELEM_END_STATION : Int
  TRACK_ELEM_ON_RIDE_PHOTO : Int
  TRACK_ELEM_CABLE_LIFT_HILL : Int
  TRACK_ELEM_BLOCK_BRAKES : Int
  TRACK_ELEM_25_DEG_UP_TO_FLAT : Int
  TRACK_ELEM_60_DEG_UP_TO_FLAT : Int
  TRACK_ELEM_DIAG_25_DEG_UP_TO_FLAT : Int
  TRACK_ELEM_DIAG_60_DEG_UP_TO_FLAT : Int
  TRACK_ELEM_WATERFALL : Int
  TRACK_ELEM_RAPIDS : Int
  TRACK_ELEM_WHIRLPOOL : Int
  TRACK_ELEM_SPINNING_TUNNEL : Int
  CONSTRUCTION_LIFT_HILL_SELECTED : Nat
  RIDE_TYPE_ALTERNATIVE_TRACK_TYPE : Nat
  TRACK_LIFT_HILL_STEEP : Nat
  TRACK_ELEM_FLAG_IS_STEEP_UP : Nat
  TRACK_ELEM_FLAG_STARTS_AT_HALF_HEIGHT : Nat
  TRACK_ELEM_FLAG_ONLY_ABOVE_GROUND : Nat
  TRACK_ELEM_FLAG_ONLY_UNDERWATER : Nat
  GAME_COMMAND_FLAG_APPLY : Nat
  GAME_COMMAND_FLAG_5 : Nat
  GAME_COMMAND_FLAG_GHOST : Nat
  RIDE_TYPE_MINIATURE_RAILWAY : Nat
  RIDE_TYPE_LIM_LAUNCHED_ROLLER_COASTER : Nat
  CREATE_CROSSING_MODE_NONE : Nat
  CREATE_CROSSING_MODE_TRACK_OVER_PATH : Nat
  ELEMENT_IS_ABOVE_GROUND : Nat
  ELEMENT_IS_UNDERGROUND : Nat
  ELEMENT_IS_UNDERWATER : Nat
  TRACK_ELEMENT_LOCATION_IS_UNDERGROUND : Nat
  TILE_ELEMENT_SLOPE_ALL_CORNERS_UP : Nat
  TILE_ELEMENT_SLOPE_W_CORNER_DN : Nat
  TILE_ELEMENT_SLOPE_S_CORNER_DN : Nat
  TILE_ELEMENT_SLOPE_E_CORNER_DN : Nat
  TILE_ELEMENT_SLOPE_N_CORNER_DN : Nat
  TRACK_SEQUENCE_FLAG_ORIGIN : Nat
  TRACK_SEQUENCE_FLAG_CONNECTS_TO_PATH : Nat
  RIDE_INVALIDATE_RIDE_OPERATING : Nat
  RIDE_MODE_CONTINUOUS_CIRCUIT_BLOCK_SECTIONED : Nat
  RIDE_MODE_POWERED_LAUNCH_BLOCK_SECTIONED : Nat
  TILE_ELEMENT_TYPE_TRACK : Nat
  MAP_ANIMATION_TYPE_TRACK_WATERFALL : Nat
  MAP_ANIMATION_TYPE_TRACK_RAPIDS : Nat
  MAP_ANIMATION_TYPE_TRACK_WHIRLPOOL : Nat
  MAP_ANIMATION_TYPE_TRACK_SPINNINGTUNNEL : Nat
  PARK_FLAGS_NO_MONEY : Nat
  MONEY32_UNDEFINED : Int

/-- The tables, cheats, globals that are only read, and map queries that
`TrackPlaceAction::Query` uses but that are defined outside the header.  A map
query takes the calls made so far, since they may have changed the map. -/
structure TrackEnv extends TrackConsts where
  get_ride_entry : Nat → Option rct_ride_entry
  GetActionFlags : Nat
  game_is_paused : Bool
  gCheatsBuildInPauseMode : Bool
  gCheatsEnableChainLiftOnAllTrack : Bool
  gCheatsSandboxMode : Bool
  gCheatsDisableClearanceChecks : Bool
  gCheatsDisableSupportLimits : Bool
  byte_9D8150 : Bool
  gParkFlags : Nat
  gGameCommandNestLevel : Nat
  RideProperties_flags : Nat → Nat
  RideTypePossibleTrackConfigurations : Nat → Nat
  TrackFlags : Int → Nat
  FlatTrackFlags : Int → Nat
  TrackSequenceElementAllowedWallEdges : Int → Nat → Nat
  FlatRideTrackSequenceElementAllowedWallEdges : Int → Nat → Nat
  TrackSequenceProperties : Int → Nat
  FlatRideTrackSequenceProperties : Int → Nat
  get_track_def_from_ride : Ride → Int → List rct_preview_track
  RideData5_clearance_height : Nat → Int
  RideData5_max_height : Nat → Int
  RideTrackCosts_track_price : Nat → Int
  RideTrackCosts_support_price : Nat → Int
  TrackPricing : Int → Int
  FlatRideTrackPricing : Int → Int
  RideTypeIsIndependent : Nat → Bool
  RideTypeHasRideGroups : Nat → Bool
  RideGroup_MaximumHeight : Nat → rct_ride_entry → Int
  track_element_has_speed_setting : Int → Bool
  CoordsDirectionDelta : Int → Int × Int
  direction_reverse : Int → Int
  ride_type_has_flag : Nat → Nat → Bool
  map_is_location_owned : List TrackCall → Int → Int → Int → Bool
  map_check_free_elements_and_reorganise : List TrackCall → Nat → Bool
  map_can_construct_with_clear_at :
    List TrackCall → Int → Int → Int → Int → Nat → Nat → Int → Nat → ClearResult
  map_get_surface_element_at : List TrackCall → Int → Int → SurfaceElement
  track_add_station_element :
    List TrackCall → Int → Int → Int → Int → Int → Nat → Bool × rct_string_id

/-- What `TrackPlaceAction::Query` returns: the body returns a `GameActionResult`
in its first part and a `money32` (`MONEY32_UNDEFINED`, `0` or the price) in
the rest. -/
inductive QueryReturn where
  | result (r : GameActionResult)
  | money (m : Int)
deriving DecidableEq, Repr

/-! ## Track placement: helpers -/

/-- Modelled from the spec: `direction_valid` (Location.hpp is not among the
sources); the spec speaks of "malformed direction values (not one of the four
cardinal directions)", which are the directions 0 to 3. -/
def direction_valid (direction : Int) : Bool :=
  decide (0 ≤ direction ∧ direction < 4)

/-- Rotate a byte left within 8 bits (`rol8` of the utility header). -/
def rol8 (x shift : Nat) : Nat :=
  ((x <<< shift) ||| (x >>> (8 - shift))) % 256

/-- Rotate a byte right within 8 bits (`ror8` of the utility header). -/
def ror8 (x shift : Nat) : Nat :=
  ((x >>> shift) ||| (x <<< (8 - shift))) % 256

/-- Wrap a value to a signed 32-bit integer (`money32`, `int32_t`). -/
def wrap32 (x : Int) : Int :=
  (x + 2147483648) % 4294967296 - 2147483648

/-- Narrow a value to a signed 16-bit integer (`int16_t`, the coordinates of
`LocationXYZ16`). -/
def wrap16 (x : Int) : Int :=
  (x + 32768) % 65536 - 32768

/-- Bit test `(a & b) != 0` on flag words. -/
def hasFlag (a b : Nat) : Bool :=
  (a &&& b) != 0

/-- The `switch (_origin.direction)` that offsets the origin by a sub-element's
`(x, y)` rotated by the direction; other directions leave the origin as it is. -/
def rotateOffset (direction x y bx by_ : Int) : Int × Int :=
  if direction = 0 then (x + bx, y + by_)
  else if direction = 1 then (x + by_, y - bx)
  else if direction = 2 then (x - bx, y - by_)
  else if direction = 3 then (x - by_, y + bx)
  else (x, y)

/-- The `rol8` / `ror8` / mask sequence of the second walk that rotates the
quadrant byte `var_08` of a sub-element with the piece. -/
def rotateQuadrants (direction : Int) (var_08 : Nat) : Nat :=
  if direction = 1 then
    let bl := rol8 var_08 1
    let bh := ror8 bl 4
    (bl &&& 0xEE) ||| (bh &&& 0x11)
  else if direction = 2 then
    let bl := rol8 var_08 2
    let bh := ror8 bl 4
    (bl &&& 0xCC) ||| (bh &&& 0x33)
  else if direction = 3 then
    let bl := rol8 var_08 3
    let bh := ror8 bl 4
    (bl &&& 0x88) ||| (bh &&& 0x77)
  else var_08

/-- Append a call to the record of calls. -/
def TrackState.call (s : TrackState) (c : TrackCall) : TrackState :=
  { s with calls := s.calls ++ [c] }

/-- Write the ride record behind the `ride` pointer. -/
def TrackState.setRide (s : TrackState) (rideIndex : Int) (ride : Ride) : TrackState :=
  { s with rides := fun i => if i = rideIndex then some ride else s.rides i }

/-- The early exit `gGameCommandErrorText = text; return MONEY32_UNDEFINED;`. -/
def failMoney (c : TrackConsts) (s : TrackState) (text : rct_string_id) :
    QueryReturn × TrackState :=
  (QueryReturn.money c.MONEY32_UNDEFINED, { s with gGameCommandErrorText := text })

/-- The early exit `return std::make_unique<GameActionResult>(error, message);`. -/
def failResult (s : TrackState) (error : GA_ERROR) (message : rct_string_id) :
    QueryReturn × TrackState :=
  (QueryReturn.result (MakeResult2 error message), s)

/-- The first walk over the sub-elements ("First check if any of the track pieces
are outside the park"): it stops at the first tile that is not owned unless
sandbox mode is on, and otherwise counts the sub-elements. -/
def ownershipPass (env : TrackEnv) (a : TrackPlaceAction) (s : TrackState) :
    List rct_preview_track → Nat → Except (QueryReturn × TrackState) Nat
  | [], num_elements => Except.ok num_elements
  | trackBlock :: rest, num_elements =>
    let xy := rotateOffset a._origin.direction a._origin.x a._origin.y trackBlock.x trackBlock.y
    if ¬ env.map_is_location_owned s.calls xy.1 xy.2 a._origin.z ∧ ¬ env.gCheatsSandboxMode then
      Except.error (failResult s GA_ERROR.DISALLOWED rct_string_id.STR_LAND_NOT_OWNED_BY_PARK)
    else
      ownershipPass env a s rest (num_elements + 1)

/-- The inner loop over `i = 0 .. 3` that removes the walls in the directions the
track intersects. -/
def removeIntersectingWalls (s : TrackState) (x y baseZ clearanceZ : Int)
    (intersectingDirections : Nat) : TrackState :=
  [0, 1, 2, 3].foldl
    (fun st i =>
      if hasFlag intersectingDirections (1 <<< i) then
        st.call (TrackCall.wall_remove_intersecting_walls x y baseZ clearanceZ i)
      else st) s

/-- The `bitscanforward` loop over the entrance directions of a piece that
connects to a path: `bitscanforward` gives the lowest set bit and the body
clears it, so the set bits of the byte are visited in increasing order. -/
def removeEntranceWalls (env : TrackEnv) (s : TrackState) (x y baseZ clearanceZ : Int)
    (direction : Int) (entranceDirections : Nat) : TrackState :=
  [0, 1, 2, 3, 4, 5, 6, 7].foldl
    (fun st dl =>
      if hasFlag (entranceDirections % 256) (1 <<< dl) then
        let temp_direction := (direction + dl) % 4
        let temp_x := x + (env.CoordsDirectionDelta temp_direction).1
        let temp_y := y + (env.CoordsDirectionDelta temp_direction).2
        let temp_direction := env.direction_reverse temp_direction
        st.call (TrackCall.wall_remove_intersecting_walls temp_x temp_y baseZ clearanceZ
          (temp_direction % 4))
      else st) s

/-- The variables the second walk carries from one sub-element to the next. -/
structure LoopState where
  cost : Int
  trackpieceZ : Int
  ride : Ride
  state : TrackState

/-- The part of the second walk's body that runs only with
`GAME_COMMAND_FLAG_APPLY` (after `if (!(flags & GAME_COMMAND_FLAG_APPLY)) continue;`):
it updates the ride record, inserts the track element and connects it. -/
def applyBlock (env : TrackEnv) (flags : Nat) (a : TrackPlaceAction) (rideTypeFlags : Nat)
    (trackBlock : rct_preview_track) (x y baseZ clearanceZ : Int) (bl : Nat)
    (ride : Ride) (s : TrackState) : Ride × TrackState :=
  let s := s.call (TrackCall.invalidate_test_results a._rideIndex)
  -- switch (_trackType)
  let ride : Ride :=
    if a._trackType = env.TRACK_ELEM_ON_RIDE_PHOTO then
      { ride with lifecycle_flags := ride.lifecycle_flags ||| env.RIDE_LIFECYCLE_ON_RIDE_PHOTO }
    else if a._trackType = env.TRACK_ELEM_CABLE_LIFT_HILL then
      if trackBlock.index ≠ 0 then ride
      else
        { ride with
          lifecycle_flags :=
            ride.lifecycle_flags ||| env.RIDE_LIFECYCLE_CABLE_LIFT_HILL_COMPONENT_USED,
          cable_lift_x := x, cable_lift_y := y, cable_lift_z := baseZ }
    else if a._trackType = env.TRACK_ELEM_BLOCK_BRAKES then
      { ride with
        num_block_brakes := ride.num_block_brakes + 1,
        window_invalidate_flags :=
          ride.window_invalidate_flags ||| env.RIDE_INVALIDATE_RIDE_OPERATING,
        mode :=
          if ride.type = env.RIDE_TYPE_LIM_LAUNCHED_ROLLER_COASTER then
            env.RIDE_MODE_POWERED_LAUNCH_BLOCK_SECTIONED
          else env.RIDE_MODE_CONTINUOUS_CIRCUIT_BLOCK_SECTIONED }
    else ride
  -- if (trackBlock->index == 0) switch (_trackType)
  let ride : Ride :=
    if trackBlock.index = 0 then
      if a._trackType = env.TRACK_ELEM_25_DEG_UP_TO_FLAT
          ∨ a._trackType = env.TRACK_ELEM_60_DEG_UP_TO_FLAT
          ∨ a._trackType = env.TRACK_ELEM_DIAG_25_DEG_UP_TO_FLAT
          ∨ a._trackType = env.TRACK_ELEM_DIAG_60_DEG_UP_TO_FLAT then
        if ¬ hasFlag a._trackPlaceFlags env.CONSTRUCTION_LIFT_HILL_SELECTED then ride
        else { ride with num_block_brakes := ride.num_block_brakes + 1 }
      else if a._trackType = env.TRACK_ELEM_CABLE_LIFT_HILL then
        { ride with num_block_brakes := ride.num_block_brakes + 1 }
      else ride
    else ride
  let undefinedView : Bool := ride.overall_view_x = 255 ∧ ride.overall_view_y = 255
  let flat := env.ride_type_has_flag ride.type env.RIDE_TYPE_FLAG_FLAT_RIDE
  let properties :=
    if flat then env.FlatRideTrackSequenceProperties a._trackType
    else env.TrackSequenceProperties a._trackType
  let entranceDirections : Nat :=
    if ¬ undefinedView ∧ ¬ hasFlag flags env.GAME_COMMAND_FLAG_5 then properties else 0
  let ride : Ride :=
    if hasFlag entranceDirections env.TRACK_SEQUENCE_FLAG_ORIGIN ∨ undefinedView then
      { ride with overall_view_x := (x.tdiv 32) % 256, overall_view_y := (y.tdiv 32) % 256 }
    else ride
  let s := s.setRide a._rideIndex ride
  -- tile_element_insert and the setters on the new element
  let speed := env.track_element_has_speed_setting a._trackType
  let element : TrackElement :=
    { x := x.tdiv 32, y := y.tdiv 32, base_height := baseZ, quadrants := bl &&& 0xF,
      clearance_height := clearanceZ, type := env.TILE_ELEMENT_TYPE_TRACK,
      direction := a._origin.direction,
      has_chain := hasFlag a._trackPlaceFlags env.CONSTRUCTION_LIFT_HILL_SELECTED,
      sequence_index := trackBlock.index, ride_index := a._rideIndex,
      track_type := a._trackType, ghost := hasFlag flags env.GAME_COMMAND_FLAG_GHOST,
      brake_booster_speed := if speed then some a._brakeSpeed else none,
      seat_rotation := if speed then none else some a._seatRotation,
      inverted := hasFlag a._trackPlaceFlags env.RIDE_TYPE_ALTERNATIVE_TRACK_TYPE,
      colour_scheme := a._colour }
  let s := s.call (TrackCall.tile_element_insert element)
  let s :=
    if a._trackType = env.TRACK_ELEM_WATERFALL then
      s.call (TrackCall.map_animation_create env.MAP_ANIMATION_TYPE_TRACK_WATERFALL x y baseZ)
    else if a._trackType = env.TRACK_ELEM_RAPIDS then
      s.call (TrackCall.map_animation_create env.MAP_ANIMATION_TYPE_TRACK_RAPIDS x y baseZ)
    else if a._trackType = env.TRACK_ELEM_WHIRLPOOL then
      s.call (TrackCall.map_animation_create env.MAP_ANIMATION_TYPE_TRACK_WHIRLPOOL x y baseZ)
    else if a._trackType = env.TRACK_ELEM_SPINNING_TUNNEL then
      s.call (TrackCall.map_animation_create env.MAP_ANIMATION_TYPE_TRACK_SPINNINGTUNNEL x y
        baseZ)
    else s
  let s :=
    if hasFlag properties env.TRACK_SEQUENCE_FLAG_ORIGIN then
      let s :=
        if trackBlock.index = 0 then
          s.call (TrackCall.track_add_station_element x y baseZ a._origin.direction
            a._rideIndex env.GAME_COMMAND_FLAG_APPLY)
        else s
      (s.call (TrackCall.sub_6CB945 a._rideIndex)).call
        (TrackCall.ride_update_max_vehicles a._rideIndex)
    else s
  let s :=
    if hasFlag rideTypeFlags env.RIDE_TYPE_FLAG_TRACK_MUST_BE_ON_WATER then
      s.call (TrackCall.SetHasTrackThatNeedsWater x y)
    else s
  let s :=
    if ¬ env.gCheatsDisableClearanceChecks ∨ ¬ hasFlag flags env.GAME_COMMAND_FLAG_GHOST then
      s.call (TrackCall.footpath_connect_edges x y flags)
    else s
  (ride, s.call (TrackCall.map_invalidate_tile_full x y))

/-- The body of the second walk for one sub-element (`trackBlock`, the
`blockIndex`-th of the piece).  The undeclared names of the body are read as the
fields they were before the routine became an action: `direction` is
`_origin.direction`, `rideIndex` is `_rideIndex`, `x` and `y` are the tile
coordinates, `liftHillAndAlternativeState` is `_trackPlaceFlags`, and `flags`
is the command-flag word, a parameter of the model. -/
def blockStep (env : TrackEnv) (flags : Nat) (a : TrackPlaceAction) (rideEntry : rct_ride_entry)
    (rideTypeFlags : Nat) (wallEdges : Nat → Nat) (trackBlock : rct_preview_track)
    (blockIndex : Nat) (st : LoopState) : Except (QueryReturn × TrackState) LoopState :=
  let ride := st.ride
  let xy := rotateOffset a._origin.direction a._origin.x a._origin.y trackBlock.x trackBlock.y
  let x := xy.1
  let y := xy.2
  let bl := rotateQuadrants a._origin.direction trackBlock.var_08
  let z := a._origin.z + trackBlock.z
  let s := st.state
  if z < 16 then
    Except.error (failMoney env.toTrackConsts s rct_string_id.STR_TOO_LOW)
  else
  let baseZ := z.tdiv 8
  let clearanceZ : Int :=
    if hasFlag trackBlock.var_09 (1 <<< 2) ∧ env.RideData5_clearance_height ride.type > 24 then
      trackBlock.var_07 + 24
    else trackBlock.var_07 + env.RideData5_clearance_height ride.type
  let clearanceZ := clearanceZ.tdiv 8 + baseZ
  if clearanceZ ≥ 255 then
    Except.error (failMoney env.toTrackConsts s rct_string_id.STR_TOO_HIGH)
  else
  let s := { s with _currentTrackEndX := x, _currentTrackEndY := y }
  let crossingMode :=
    if ride.type = env.RIDE_TYPE_MINIATURE_RAILWAY ∧ a._trackType = env.TRACK_ELEM_FLAT then
      env.CREATE_CROSSING_MODE_TRACK_OVER_PATH
    else env.CREATE_CROSSING_MODE_NONE
  let doClear : Bool := ¬ env.gCheatsDisableClearanceChecks ∨ hasFlag flags env.GAME_COMMAND_FLAG_GHOST
  let clear := env.map_can_construct_with_clear_at s.calls x y baseZ clearanceZ bl flags st.cost
    crossingMode
  let sClear : TrackState :=
    { s.call (TrackCall.map_can_construct_with_clear_at x y baseZ clearanceZ bl flags
        crossingMode) with
      gMapGroundFlags := clear.gMapGroundFlags,
      gGameCommandErrorText := clear.gGameCommandErrorText }
  if doClear ∧ ¬ clear.ok then
    Except.error (QueryReturn.money env.MONEY32_UNDEFINED, sClear)
  else
  let s := if doClear then sClear else s
  let cost := if doClear then clear.cost else st.cost
  -- 6c53dc
  let s :=
    if hasFlag flags env.GAME_COMMAND_FLAG_APPLY ∧ ¬ hasFlag flags env.GAME_COMMAND_FLAG_GHOST
        ∧ ¬ env.gCheatsDisableClearanceChecks then
      let s := s.call (TrackCall.footpath_remove_litter x y z)
      if hasFlag rideTypeFlags env.RIDE_TYPE_FLAG_TRACK_NO_WALLS then
        s.call (TrackCall.wall_remove_at x y (baseZ * 8) (clearanceZ * 8))
      else
        -- Remove walls in the directions this track intersects
        removeIntersectingWalls s x y baseZ clearanceZ ((wallEdges blockIndex ^^^ 0x0F) % 256)
    else s
  let bh := s.gMapGroundFlags &&& (env.ELEMENT_IS_ABOVE_GROUND ||| env.ELEMENT_IS_UNDERGROUND)
  if s.gTrackGroundFlags ≠ 0 ∧ (s.gTrackGroundFlags &&& bh) = 0 then
    Except.error (failMoney env.toTrackConsts s
      rct_string_id.STR_CANT_BUILD_PARTLY_ABOVE_AND_PARTLY_BELOW_GROUND)
  else
  let s := { s with gTrackGroundFlags := bh }
  let flatRide := hasFlag rideTypeFlags env.RIDE_TYPE_FLAG_FLAT_RIDE
  let trackFlags := if flatRide then env.FlatTrackFlags a._trackType else env.TrackFlags a._trackType
  if hasFlag trackFlags env.TRACK_ELEM_FLAG_ONLY_ABOVE_GROUND
      ∧ hasFlag s.gTrackGroundFlags env.TRACK_ELEMENT_LOCATION_IS_UNDERGROUND then
    Except.error (failMoney env.toTrackConsts s rct_string_id.STR_CAN_ONLY_BUILD_THIS_ABOVE_GROUND)
  else
  if hasFlag trackFlags env.TRACK_ELEM_FLAG_ONLY_UNDERWATER
      ∧ (if flatRide then ¬ hasFlag s.gMapGroundFlags env.ELEMENT_IS_UNDERWATER
         else hasFlag s.gMapGroundFlags env.ELEMENT_IS_UNDERWATER) then
    Except.error (failMoney env.toTrackConsts s rct_string_id.STR_CAN_ONLY_BUILD_THIS_UNDERWATER)
  else
  if hasFlag s.gMapGroundFlags env.ELEMENT_IS_UNDERWATER ∧ ¬ env.gCheatsDisableClearanceChecks then
    Except.error (failMoney env.toTrackConsts s rct_string_id.STR_RIDE_CANT_BUILD_THIS_UNDERWATER)
  else
  let surfaceW := env.map_get_surface_element_at s.calls x y
  let water_height := (surfaceW.water_height * 2) % 256
  let cornerSlope := surfaceW.slope &&& env.TILE_ELEMENT_SLOPE_ALL_CORNERS_UP
  if hasFlag rideTypeFlags env.RIDE_TYPE_FLAG_TRACK_MUST_BE_ON_WATER ∧ ¬ env.byte_9D8150
      ∧ (water_height = 0 ∨ (water_height : Int) ≠ baseZ
          ∨ (((water_height : Int) - 2) % 256 = surfaceW.base_height
              ∧ (cornerSlope = env.TILE_ELEMENT_SLOPE_W_CORNER_DN
                  ∨ cornerSlope = env.TILE_ELEMENT_SLOPE_S_CORNER_DN
                  ∨ cornerSlope = env.TILE_ELEMENT_SLOPE_E_CORNER_DN
                  ∨ cornerSlope = env.TILE_ELEMENT_SLOPE_N_CORNER_DN))) then
    Except.error (failMoney env.toTrackConsts s rct_string_id.STR_CAN_ONLY_BUILD_THIS_ON_WATER)
  else
  let entranceDirections :=
    if env.ride_type_has_flag ride.type env.RIDE_TYPE_FLAG_FLAT_RIDE then
      env.FlatRideTrackSequenceProperties a._trackType
    else env.TrackSequenceProperties a._trackType
  let addStation : Bool :=
    hasFlag entranceDirections env.TRACK_SEQUENCE_FLAG_ORIGIN ∧ trackBlock.index = 0
  let station := env.track_add_station_element s.calls x y baseZ a._origin.direction
    a._rideIndex 0
  let sStation : TrackState :=
    { s.call (TrackCall.track_add_station_element x y baseZ a._origin.direction a._rideIndex 0)
      with gGameCommandErrorText := station.2 }
  if addStation ∧ ¬ station.1 then
    Except.error (QueryReturn.money env.MONEY32_UNDEFINED, sStation)
  else
  let s := if addStation then sStation else s
  -- 6c55be
  let s :=
    if hasFlag entranceDirections env.TRACK_SEQUENCE_FLAG_CONNECTS_TO_PATH
        ∧ (entranceDirections &&& 0x0F) ≠ 0
        ∧ ¬ hasFlag flags env.GAME_COMMAND_FLAG_APPLY
        ∧ ¬ hasFlag flags env.GAME_COMMAND_FLAG_GHOST
        ∧ ¬ env.gCheatsDisableClearanceChecks then
      removeEntranceWalls env s x y baseZ clearanceZ a._origin.direction
        (entranceDirections &&& 0x0F)
    else s
  -- 6c5648 12 push
  let surface := env.map_get_surface_element_at s.calls x y
  let ride_height := clearanceZ - surface.base_height
  let maxHeight : Int :=
    if env.RideTypeIsIndependent ride.type ∧ rideEntry.max_height ≠ 0 then rideEntry.max_height
    else if env.RideTypeHasRideGroups ride.type then env.RideGroup_MaximumHeight ride.type rideEntry
    else env.RideData5_max_height ride.type
  if ¬ env.gCheatsDisableSupportLimits ∧ ride_height ≥ 0 ∧ ride_height.tdiv 2 > maxHeight
      ∧ ¬ env.byte_9D8150 then
    Except.error (failMoney env.toTrackConsts s rct_string_id.STR_TOO_HIGH_FOR_SUPPORTS)
  else
  let _support_height := baseZ - surface.base_height
  let _support_height := if _support_height < 0 then 10 else _support_height
  let cost := wrap32 (cost
    + wrap32 (wrap32 (_support_height.tdiv 2 * env.RideTrackCosts_support_price ride.type) * 5))
  -- 6c56d3
  if ¬ hasFlag flags env.GAME_COMMAND_FLAG_APPLY then
    Except.ok { cost := cost, trackpieceZ := z, ride := ride, state := s }
  else
    let applied := applyBlock env flags a rideTypeFlags trackBlock x y baseZ clearanceZ bl ride s
    Except.ok { cost := cost, trackpieceZ := z, ride := applied.1, state := applied.2 }

/-- The second walk over the sub-elements of the piece. -/
def blocksPass (env : TrackEnv) (flags : Nat) (a : TrackPlaceAction) (rideEntry : rct_ride_entry)
    (rideTypeFlags : Nat) (wallEdges : Nat → Nat) :
    List rct_preview_track → Nat → LoopState → Except (QueryReturn × TrackState) LoopState
  | [], _, st => Except.ok st
  | trackBlock :: rest, blockIndex, st =>
    match blockStep env flags a rideEntry rideTypeFlags wallEdges trackBlock blockIndex st with
    | Except.error e => Except.error e
    | Except.ok st1 =>
      blocksPass env flags a rideEntry rideTypeFlags wallEdges rest (blockIndex + 1) st1

/-- The end of `TrackPlaceAction::Query()`, after the second walk: the last-action
marker of the player and the price (`money32` arithmetic, `>>= 16` as the
arithmetic shift).  The marker is a `LocationXYZ16` and `trackpieceZ` an
`int16_t`, so the three coordinates are narrowed to 16 bits. -/
def TrackPlaceAction.QueryPrice (env : TrackEnv) (a : TrackPlaceAction) (flatRide : Bool)
    (position : CoordsXYZ) (st : LoopState) : QueryReturn × TrackState :=
  let s := st.state
  let s :=
    if env.gGameCommandNestLevel = 1 then
      s.call (TrackCall.network_set_player_last_action_coord (wrap16 position.x)
        (wrap16 position.y) (wrap16 st.trackpieceZ))
    else s
  let price := env.RideTrackCosts_track_price st.ride.type
  let price := wrap32 (price *
    (if flatRide then env.FlatRideTrackPricing a._trackType
     else env.TrackPricing a._trackType))
  let price := price / 65536
  let price := wrap32 (st.cost + wrap32 (price.tdiv 2 * 10))
  if hasFlag env.gParkFlags env.PARK_FLAGS_NO_MONEY then
    (QueryReturn.money 0, s)
  else
    (QueryReturn.money price, s)

/-- The middle of `TrackPlaceAction::Query()`: the ownership walk, the free-element
check, the height-alignment check and the second walk, followed by the price. -/
def TrackPlaceAction.QueryWalks (env : TrackEnv) (flags : Nat) (a : TrackPlaceAction)
    (ride : Ride) (rideEntry : rct_ride_entry) (rideTypeFlags : Nat) (position : CoordsXYZ)
    (s : TrackState) : Except (QueryReturn × TrackState) (QueryReturn × TrackState) :=
  let flatRide := hasFlag rideTypeFlags env.RIDE_TYPE_FLAG_FLAT_RIDE
  let wallEdges : Nat → Nat :=
    if flatRide then env.FlatRideTrackSequenceElementAllowedWallEdges a._trackType
    else env.TrackSequenceElementAllowedWallEdges a._trackType
  let trackBlocks := env.get_track_def_from_ride ride a._trackType
  -- First check if any of the track pieces are outside the park
  match ownershipPass env a s trackBlocks 0 with
  | Except.error e => Except.error e
  | Except.ok num_elements =>
    let free := env.map_check_free_elements_and_reorganise s.calls num_elements
    let s := s.call (TrackCall.map_check_free_elements_and_reorganise num_elements)
    if ¬ free then
      Except.error (failResult s GA_ERROR.NO_FREE_ELEMENTS
        rct_string_id.STR_TILE_ELEMENT_LIMIT_REACHED)
    else
    let trackFlags :=
      if flatRide then env.FlatTrackFlags a._trackType else env.TrackFlags a._trackType
    let zLow := a._origin.z % 16
    if (if hasFlag trackFlags env.TRACK_ELEM_FLAG_STARTS_AT_HALF_HEIGHT then zLow ≠ 8
        else zLow ≠ 0) then
      Except.error (failResult s GA_ERROR.INVALID_PARAMETERS
        rct_string_id.STR_CONSTRUCTION_ERR_UNKNOWN)
    else
    -- If that is not the case, then perform the remaining checks
    match blocksPass env flags a rideEntry rideTypeFlags wallEdges trackBlocks 0
        { cost := 0, trackpieceZ := a._origin.z, ride := ride, state := s } with
    | Except.error e => Except.error e
    | Except.ok st => Except.ok (TrackPlaceAction.QueryPrice env a flatRide position st)

/-- The part of `TrackPlaceAction::Query()` after the parameter checks: the writes
to the command globals and the rule checks (indestructible station, pause, one
on-ride photo, one cable lift hill, steep lift hill), followed by the walks. -/
def TrackPlaceAction.QueryRules (env : TrackEnv) (flags : Nat) (a : TrackPlaceAction)
    (ride : Ride) (rideEntry : rct_ride_entry) (s : TrackState) :
    Except (QueryReturn × TrackState) (QueryReturn × TrackState) :=
  let position : CoordsXYZ := ⟨a._origin.x + 16, a._origin.y + 16, a._origin.z⟩
  let s : TrackState :=
    { s with
      gCommandExpenditureType := env.RCT_EXPENDITURE_TYPE_RIDE_CONSTRUCTION,
      gCommandPosition := position,
      gTrackGroundFlags := 0 }
  let rideTypeFlags := env.RideProperties_flags ride.type
  if hasFlag ride.lifecycle_flags env.RIDE_LIFECYCLE_INDESTRUCTIBLE_TRACK
      ∧ a._trackType = env.TRACK_ELEM_END_STATION then
    Except.error (failResult s GA_ERROR.DISALLOWED
      rct_string_id.STR_NOT_ALLOWED_TO_MODIFY_STATION)
  else
  if ¬ hasFlag env.GetActionFlags env.GA_FLAGS_ALLOW_WHILE_PAUSED
      ∧ env.game_is_paused ∧ ¬ env.gCheatsBuildInPauseMode then
    Except.error (failResult s GA_ERROR.DISALLOWED
      rct_string_id.STR_CONSTRUCTION_NOT_POSSIBLE_WHILE_GAME_IS_PAUSED)
  else
  let flatRide := hasFlag rideTypeFlags env.RIDE_TYPE_FLAG_FLAT_RIDE
  if ¬ flatRide ∧ a._trackType = env.TRACK_ELEM_ON_RIDE_PHOTO
      ∧ hasFlag ride.lifecycle_flags env.RIDE_LIFECYCLE_ON_RIDE_PHOTO then
    Except.error (failResult s GA_ERROR.DISALLOWED
      rct_string_id.STR_ONLY_ONE_ON_RIDE_PHOTO_PER_RIDE)
  else
  if ¬ flatRide ∧ a._trackType ≠ env.TRACK_ELEM_ON_RIDE_PHOTO
      ∧ a._trackType = env.TRACK_ELEM_CABLE_LIFT_HILL
      ∧ hasFlag ride.lifecycle_flags env.RIDE_LIFECYCLE_CABLE_LIFT_HILL_COMPONENT_USED then
    Except.error (failResult s GA_ERROR.DISALLOWED
      rct_string_id.STR_ONLY_ONE_CABLE_LIFT_HILL_PER_RIDE)
  else
  -- Backwards steep lift hills are allowed, even on roller coasters that do not
  -- support forwards steep lift hills.
  if ¬ flatRide ∧ hasFlag a._trackPlaceFlags env.CONSTRUCTION_LIFT_HILL_SELECTED
      ∧ ¬ hasFlag (env.RideTypePossibleTrackConfigurations ride.type)
          (1 <<< env.TRACK_LIFT_HILL_STEEP)
      ∧ ¬ env.gCheatsEnableChainLiftOnAllTrack
      ∧ hasFlag (env.TrackFlags a._trackType) env.TRACK_ELEM_FLAG_IS_STEEP_UP then
    Except.error (failResult s GA_ERROR.DISALLOWED rct_string_id.STR_TOO_STEEP_FOR_LIFT_HILL)
  else
    TrackPlaceAction.QueryWalks env flags a ride rideEntry rideTypeFlags position s

/-- The method `TrackPlaceAction::Query()` as an exception-style computation: `Except.error` is
an early `return`, `Except.ok` the `return` at the end of the body.  `flags` is
the command-flag word the body tests (see `blockStep`); `log_warning` calls are
not modelled. -/
def TrackPlaceAction.QueryBody (env : TrackEnv) (flags : Nat) (a : TrackPlaceAction)
    (s : TrackState) : Except (QueryReturn × TrackState) (QueryReturn × TrackState) :=
  match s.rides a._rideIndex with
  | none => Except.error (failResult s GA_ERROR.INVALID_PARAMETERS rct_string_id.STR_NONE)
  | some ride =>
    if ride.type = env.RIDE_TYPE_NULL then
      Except.error (failResult s GA_ERROR.INVALID_PARAMETERS rct_string_id.STR_NONE)
    else
    match env.get_ride_entry ride.subtype with
    | none => Except.error (failResult s GA_ERROR.INVALID_PARAMETERS rct_string_id.STR_NONE)
    | some rideEntry =>
      if ¬ direction_valid a._origin.direction then
        Except.error (failResult s GA_ERROR.INVALID_PARAMETERS rct_string_id.STR_NONE)
      else
        TrackPlaceAction.QueryRules env flags a ride rideEntry s

/-- The method `TrackPlaceAction::Query()`: what it returns and the state it leaves. -/
def TrackPlaceAction.Query (env : TrackEnv) (flags : Nat) (a : TrackPlaceAction)
    (s : TrackState) : QueryReturn × TrackState :=
  match TrackPlaceAction.QueryBody env flags a s with
  | Except.error r => r
  | Except.ok r => r

/-! ### Sample data used to evaluate the track placement model -/

/-- Sample values for the constants; the flag constants are distinct single bits
and the track types distinct numbers. -/
def sampleTrackConsts : TrackConsts :=
  { RIDE_TYPE_NULL := 255,
    RCT_EXPENDITURE_TYPE_RIDE_CONSTRUCTION := 0,
    RIDE_LIFECYCLE_INDESTRUCTIBLE_TRACK := 0x8000,
    RIDE_LIFECYCLE_ON_RIDE_PHOTO := 0x20,
    RIDE_LIFECYCLE_CABLE_LIFT_HILL_COMPONENT_USED := 0x10000,
    GA_FLAGS_ALLOW_WHILE_PAUSED := 1,
    RIDE_TYPE_FLAG_FLAT_RIDE := 0x20000000,
    RIDE_TYPE_FLAG_TRACK_NO_WALLS := 0x1000,
    RIDE_TYPE_FLAG_TRACK_MUST_BE_ON_WATER := 0x40,
    TRACK_ELEM_FLAT := 0,
    TRACK_ELEM_END_STATION := 1,
    TRACK_ELEM_ON_RIDE_PHOTO := 114,
    TRACK_ELEM_CABLE_LIFT_HILL := 182,
    TRACK_ELEM_BLOCK_BRAKES := 216,
    TRACK_ELEM_25_DEG_UP_TO_FLAT := 6,
    TRACK_ELEM_60_DEG_UP_TO_FLAT := 62,
    TRACK_ELEM_DIAG_25_DEG_UP_TO_FLAT := 144,
    TRACK_ELEM_DIAG_60_DEG_UP_TO_FLAT := 254,
    TRACK_ELEM_WATERFALL := 112,
    TRACK_ELEM_RAPIDS := 113,
    TRACK_ELEM_WHIRLPOOL := 115,
    TRACK_ELEM_SPINNING_TUNNEL := 211,
    CONSTRUCTION_LIFT_HILL_SELECTED := 1,
    RIDE_TYPE_ALTERNATIVE_TRACK_TYPE := 2,
    TRACK_LIFT_HILL_STEEP := 14,
    TRACK_ELEM_FLAG_IS_STEEP_UP := 0x800,
    TRACK_ELEM_FLAG_STARTS_AT_HALF_HEIGHT := 0x400,
    TRACK_ELEM_FLAG_ONLY_ABOVE_GROUND := 2,
    TRACK_ELEM_FLAG_ONLY_UNDERWATER := 1,
    GAME_COMMAND_FLAG_APPLY := 1,
    GAME_COMMAND_FLAG_5 := 0x20,
    GAME_COMMAND_FLAG_GHOST := 0x40,
    RIDE_TYPE_MINIATURE_RAILWAY := 6,
    RIDE_TYPE_LIM_LAUNCHED_ROLLER_COASTER := 90,
    CREATE_CROSSING_MODE_NONE := 0,
    CREATE_CROSSING_MODE_TRACK_OVER_PATH := 1,
    ELEMENT_IS_ABOVE_GROUND := 1,
    ELEMENT_IS_UNDERGROUND := 2,
    ELEMENT_IS_UNDERWATER := 4,
    TRACK_ELEMENT_LOCATION_IS_UNDERGROUND := 2,
    TILE_ELEMENT_SLOPE_ALL_CORNERS_UP := 0x0F,
    TILE_ELEMENT_SLOPE_W_CORNER_DN := 0x07,
    TILE_ELEMENT_SLOPE_S_CORNER_DN := 0x0B,
    TILE_ELEMENT_SLOPE_E_CORNER_DN := 0x0D,
    TILE_ELEMENT_SLOPE_N_CORNER_DN := 0x0E,
    TRACK_SEQUENCE_FLAG_ORIGIN := 0x10,
    TRACK_SEQUENCE_FLAG_CONNECTS_TO_PATH := 0x20,
    RIDE_INVALIDATE_RIDE_OPERATING := 4,
    RIDE_MODE_CONTINUOUS_CIRCUIT_BLOCK_SECTIONED := 34,
    RIDE_MODE_POWERED_LAUNCH_BLOCK_SECTIONED := 36,
    TILE_ELEMENT_TYPE_TRACK := 8,
    MAP_ANIMATION_TYPE_TRACK_WATERFALL := 5,
    MAP_ANIMATION_TYPE_TRACK_RAPIDS := 6,
    MAP_ANIMATION_TYPE_TRACK_WHIRLPOOL := 8,
    MAP_ANIMATION_TYPE_TRACK_SPINNINGTUNNEL := 9,
    PARK_FLAGS_NO_MONEY := 0x800,
    MONEY32_UNDEFINED := -2147483648 }

/-- Sample environment: every tile is owned and clear, the surface is at height 2,
every piece is a single sub-element at the origin, the station piece (track type
1) is an origin piece that connects to a path in directions 1 and 3, and the game
is not paused. -/
def sampleTrackEnv : TrackEnv :=
  { sampleTrackConsts with
    get_ride_entry := fun _ => some ⟨0⟩,
    GetActionFlags := 0,
    game_is_paused := false,
    gCheatsBuildInPauseMode := false,
    gCheatsEnableChainLiftOnAllTrack := false,
    gCheatsSandboxMode := false,
    gCheatsDisableClearanceChecks := false,
    gCheatsDisableSupportLimits := false,
    byte_9D8150 := false,
    gParkFlags := 0,
    gGameCommandNestLevel := 1,
    RideProperties_flags := fun _ => 0,
    RideTypePossibleTrackConfigurations := fun _ => 0,
    TrackFlags := fun _ => 0,
    FlatTrackFlags := fun _ => 0,
    TrackSequenceElementAllowedWallEdges := fun _ _ => 0x0A,
    FlatRideTrackSequenceElementAllowedWallEdges := fun _ _ => 0x0F,
    TrackSequenceProperties := fun t => if t = 1 then 0x3A else 0,
    FlatRideTrackSequenceProperties := fun _ => 0,
    get_track_def_from_ride := fun _ _ => [⟨0, 0, 0, 0, 0, 0x0F, 0⟩],
    RideData5_clearance_height := fun _ => 24,
    RideData5_max_height := fun _ => 40,
    RideTrackCosts_track_price := fun _ => 70,
    RideTrackCosts_support_price := fun _ => 20,
    TrackPricing := fun _ => 65536,
    FlatRideTrackPricing := fun _ => 65536,
    RideTypeIsIndependent := fun _ => false,
    RideTypeHasRideGroups := fun _ => false,
    RideGroup_MaximumHeight := fun _ _ => 0,
    track_element_has_speed_setting := fun _ => false,
    CoordsDirectionDelta := fun d =>
      if d = 0 then (-32, 0) else if d = 1 then (0, 32) else if d = 2 then (32, 0) else (0, -32),
    direction_reverse := fun d => (d + 2) % 4,
    ride_type_has_flag := fun _ _ => false,
    map_is_location_owned := fun _ _ _ _ => true,
    map_check_free_elements_and_reorganise := fun _ _ => true,
    map_can_construct_with_clear_at := fun _ _ _ _ _ _ _ cost _ => ⟨true, cost, 1, rct_string_id.STR_NONE⟩,
    map_get_surface_element_at := fun _ _ _ => ⟨2, 0, 0⟩,
    track_add_station_element := fun _ _ _ _ _ _ _ => (true, rct_string_id.STR_NONE) }

/-- Sample state: one roller coaster (ride 0, type 1) with no lifecycle flag set and
no call made yet. -/
def sampleTrackState : TrackState :=
  { rides := fun i => if i = 0 then some ⟨1, 0, 0, 0, 0, 0, 0, 0, 0, 255, 255⟩ else none,
    gCommandExpenditureType := 7,
    gCommandPosition := ⟨0, 0, 0⟩,
    gTrackGroundFlags := 3,
    gMapGroundFlags := 0,
    gGameCommandErrorText := rct_string_id.STR_NONE,
    _currentTrackEndX := 0,
    _currentTrackEndY := 0,
    calls := [] }

/-- Placing an on-ride photo section for ride 0 at (64, 64, 16), direction 0. -/
def samplePhotoAction : TrackPlaceAction :=
  { _rideIndex := 0, _trackType := 114, _origin := ⟨64, 64, 16, 0⟩, _brakeSpeed := 0,
    _colour := 0, _seatRotation := 4, _trackPlaceFlags := 0 }

/-- Placing a station piece for ride 0 at (64, 64, 16), direction 0. -/
def sampleStationAction : TrackPlaceAction :=
  { samplePhotoAction with _trackType := 1 }

/-! ## Track placement: the cost of a placement, stated from the specification -/

/-- The state and the value of `cost` that the body of the second walk has reached
at the support-height computation (`6c5648`) for one sub-element, when no check
before it has returned: the clearance test has run (when it is not skipped),
litter and walls are removed in apply mode, the ground flags are stored, the
station element is tested and the walls at the entrances are removed. -/
def blockMid (env : TrackEnv) (flags : Nat) (a : TrackPlaceAction) (rideTypeFlags : Nat)
    (wallEdges : Nat → Nat) (trackBlock : rct_preview_track) (blockIndex : Nat)
    (st : LoopState) : TrackState × Int :=
  let ride := st.ride
  let xy := rotateOffset a._origin.direction a._origin.x a._origin.y trackBlock.x trackBlock.y
  let x := xy.1
  let y := xy.2
  let bl := rotateQuadrants a._origin.direction trackBlock.var_08
  let z := a._origin.z + trackBlock.z
  let s := st.state
  let baseZ := z.tdiv 8
  let clearanceZ : Int :=
    if hasFlag trackBlock.var_09 (1 <<< 2) ∧ env.RideData5_clearance_height ride.type > 24 then
      trackBlock.var_07 + 24
    else trackBlock.var_07 + env.RideData5_clearance_height ride.type
  let clearanceZ := clearanceZ.tdiv 8 + baseZ
  let s := { s with _currentTrackEndX := x, _currentTrackEndY := y }
  let crossingMode :=
    if ride.type = env.RIDE_TYPE_MINIATURE_RAILWAY ∧ a._trackType = env.TRACK_ELEM_FLAT then
      env.CREATE_CROSSING_MODE_TRACK_OVER_PATH
    else env.CREATE_CROSSING_MODE_NONE
  let doClear : Bool :=
    ¬ env.gCheatsDisableClearanceChecks ∨ hasFlag flags env.GAME_COMMAND_FLAG_GHOST
  let clear := env.map_can_construct_with_clear_at s.calls x y baseZ clearanceZ bl flags st.cost
    crossingMode
  let sClear : TrackState :=
    { s.call (TrackCall.map_can_construct_with_clear_at x y baseZ clearanceZ bl flags
        crossingMode) with
      gMapGroundFlags := clear.gMapGroundFlags,
      gGameCommandErrorText := clear.gGameCommandErrorText }
  let s := if doClear then sClear else s
  let cost := if doClear then clear.cost else st.cost
  let s :=
    if hasFlag flags env.GAME_COMMAND_FLAG_APPLY ∧ ¬ hasFlag flags env.GAME_COMMAND_FLAG_GHOST
        ∧ ¬ env.gCheatsDisableClearanceChecks then
      let s := s.call (TrackCall.footpath_remove_litter x y z)
      if hasFlag rideTypeFlags env.RIDE_TYPE_FLAG_TRACK_NO_WALLS then
        s.call (TrackCall.wall_remove_at x y (baseZ * 8) (clearanceZ * 8))
      else
        removeIntersectingWalls s x y baseZ clearanceZ ((wallEdges blockIndex ^^^ 0x0F) % 256)
    else s
  let bh := s.gMapGroundFlags &&& (env.ELEMENT_IS_ABOVE_GROUND ||| env.ELEMENT_IS_UNDERGROUND)
  let s := { s with gTrackGroundFlags := bh }
  let entranceDirections :=
    if env.ride_type_has_flag ride.type env.RIDE_TYPE_FLAG_FLAT_RIDE then
      env.FlatRideTrackSequenceProperties a._trackType
    else env.TrackSequenceProperties a._trackType
  let addStation : Bool :=
    hasFlag entranceDirections env.TRACK_SEQUENCE_FLAG_ORIGIN ∧ trackBlock.index = 0
  let station := env.track_add_station_element s.calls x y baseZ a._origin.direction
    a._rideIndex 0
  let sStation : TrackState :=
    { s.call (TrackCall.track_add_station_element x y baseZ a._origin.direction a._rideIndex 0)
      with gGameCommandErrorText := station.2 }
  let s := if addStation then sStation else s
  let s :=
    if hasFlag entranceDirections env.TRACK_SEQUENCE_FLAG_CONNECTS_TO_PATH
        ∧ (entranceDirections &&& 0x0F) ≠ 0
        ∧ ¬ hasFlag flags env.GAME_COMMAND_FLAG_APPLY
        ∧ ¬ hasFlag flags env.GAME_COMMAND_FLAG_GHOST
        ∧ ¬ env.gCheatsDisableClearanceChecks then
      removeEntranceWalls env s x y baseZ clearanceZ a._origin.direction
        (entranceDirections &&& 0x0F)
    else s
  (s, cost)

/-- The cost the clearance test of one sub-element added to `cost`: what the test
left in `cost` minus what it found there (zero when the test is skipped). -/
def clearanceAdded (env : TrackEnv) (flags : Nat) (a : TrackPlaceAction) (rideTypeFlags : Nat)
    (wallEdges : Nat → Nat) (trackBlock : rct_preview_track) (blockIndex : Nat)
    (st : LoopState) : Int :=
  (blockMid env flags a rideTypeFlags wallEdges trackBlock blockIndex st).2 - st.cost

/-- The height `h` of the claim for one sub-element: its base height minus the base
height of the surface element of its tile. -/
def supportHeight (env : TrackEnv) (flags : Nat) (a : TrackPlaceAction) (rideTypeFlags : Nat)
    (wallEdges : Nat → Nat) (trackBlock : rct_preview_track) (blockIndex : Nat)
    (st : LoopState) : Int :=
  let xy := rotateOffset a._origin.direction a._origin.x a._origin.y trackBlock.x trackBlock.y
  let mid := blockMid env flags a rideTypeFlags wallEdges trackBlock blockIndex st
  (a._origin.z + trackBlock.z).tdiv 8
    - (env.map_get_surface_element_at mid.1.calls xy.1 xy.2).base_height

/-- The support cost of the specification for a sub-element of height `h`:
`((h / 2) * support_price) * 5`, with `h` replaced by 10 when it is negative. -/
def specSupportCost (h support_price : Int) : Int :=
  (((if h < 0 then 10 else h).tdiv 2) * support_price) * 5

/-- The price term of the specification:
`(((track_price * pricing) >> 16) / 2) * 10`, the product taken in 32 bits. -/
def specPriceTerm (track_price pricing : Int) : Int :=
  ((wrap32 (track_price * pricing) / 65536).tdiv 2) * 10

/-- The cost of the specification for the sub-elements from `blockIndex` on: for
each one the cost its clearance test added plus its support cost. -/
def specBlocksCost (env : TrackEnv) (flags : Nat) (a : TrackPlaceAction)
    (rideEntry : rct_ride_entry) (rideTypeFlags : Nat) (wallEdges : Nat → Nat) :
    List rct_preview_track → Nat → LoopState → Int
  | [], _, _ => 0
  | trackBlock :: rest, blockIndex, st =>
    clearanceAdded env flags a rideTypeFlags wallEdges trackBlock blockIndex st
    + specSupportCost
        (supportHeight env flags a rideTypeFlags wallEdges trackBlock blockIndex st)
        (env.RideTrackCosts_support_price st.ride.type)
    + (match blockStep env flags a rideEntry rideTypeFlags wallEdges trackBlock blockIndex st with
       | Except.error _ => 0
       | Except.ok st1 =>
         specBlocksCost env flags a rideEntry rideTypeFlags wallEdges rest (blockIndex + 1) st1)

/-- The loop state with which `TrackPlaceAction::Query()` enters the second walk:
`cost = 0`, `trackpieceZ = _origin.z`, and the state after the writes to the
command globals and after `map_check_free_elements_and_reorganise`. -/
def walkStart (env : TrackEnv) (a : TrackPlaceAction) (ride : Ride) (num_elements : Nat)
    (s : TrackState) : LoopState :=
  { cost := 0, trackpieceZ := a._origin.z, ride := ride,
    state :=
      ({ s with
          gCommandExpenditureType := env.RCT_EXPENDITURE_TYPE_RIDE_CONSTRUCTION,
          gCommandPosition := ⟨a._origin.x + 16, a._origin.y + 16, a._origin.z⟩,
          gTrackGroundFlags := 0 } : TrackState).call
        (TrackCall.map_check_free_elements_and_reorganise num_elements) }

/-- The method `TrackPlaceAction::Execute()`.  Its body is empty (`{ }`): control
reaches the end of the function without a `return`, so the call produces no
result (`none`) and writes nothing. -/
def TrackPlaceAction.Execute (_env : TrackEnv) (_flags : Nat) (_a : TrackPlaceAction)
    (s : TrackState) : Option QueryReturn × TrackState :=
  (none, s)

/-- The constructor `TrackPlaceAction(rideIndex, trackType, origin, brakeSpeed,
colour, seatRotation, liftHillAndAlternativeState)`.  Its initialiser list reads
`_rideIndex(_rideIndex)`, `_trackType(_trackType)`, `_brakeSpeed(_brakeSpeed)`
and `_seatRotation(_seatRotation)`: these four members are initialised from
themselves, that is from whatever the storage of the new object holds
(`uninitialised`), and only `_origin`, `_colour` and `_trackPlaceFlags` are
taken from the arguments. -/
def TrackPlaceAction.construct (uninitialised : TrackPlaceAction) (_rideIndex : Int)
    (_trackType : Int) (origin : CoordsXYZD) (_brakeSpeed : Int) (colour : Int)
    (_seatRotation : Int) (liftHillAndAlternativeState : Nat) : TrackPlaceAction :=
  { _rideIndex := uninitialised._rideIndex,
    _trackType := uninitialised._trackType,
    _origin := origin,
    _brakeSpeed := uninitialised._brakeSpeed,
    _colour := colour,
    _seatRotation := uninitialised._seatRotation,
    _trackPlaceFlags := liftHillAndAlternativeState }

/-! ## Serialisation -/

/-- The bytes of the `width`-byte unsigned encoding of `value`, most significant
byte first. -/
def encodeBytes : Nat → Nat → List Nat
  | 0, _ => []
  | width + 1, value => (value / 256 ^ width) % 256 :: encodeBytes width value

/-- The unsigned value of a list of bytes, most significant byte first. -/
def decodeBytes : List Nat → Nat
  | [] => 0
  | b :: bs => b * 256 ^ bs.length + decodeBytes bs

/-- The two's complement reading of an unsigned `width`-byte value. -/
def toSigned (width : Nat) (u : Nat) : Int :=
  if 2 * u < 256 ^ width then (u : Int) else (u : Int) - (256 ^ width : Nat)

/-- The unsigned `width`-byte value that stands for a signed value. -/
def ofSigned (width : Nat) (v : Int) : Nat :=
  (v % ((256 ^ width : Nat) : Int)).toNat

/-- Modelled from the spec: `DataSerialiser` (DataSerialiser.h is not among the
sources).  The spec has `Serialize(stream)` "append/read a canonical byte
encoding of all verb parameters in a fixed field order", the same routine
serving the issuing side (`isSaving`, bytes are appended) and the receiving
side (bytes are read from the front).  The byte order is not fixed by the spec;
the most significant byte comes first here. -/
structure DataSerialiser where
  isSaving : Bool
  stream : List Nat
deriving DecidableEq, Repr

/-- Modelled from the spec: `stream << DS_TAG(field)` for an unsigned field of
`width` bytes.  When saving, the field is appended and keeps its value; when
loading, the next `width` bytes become the value of the field, and the call
fails when the stream is too short. -/
def DataSerialiser.unsignedField (ds : DataSerialiser) (width : Nat) (field : Nat) :
    Option (Nat × DataSerialiser) :=
  if ds.isSaving then
    some (field, { ds with stream := ds.stream ++ encodeBytes width field })
  else if ds.stream.length < width then none
  else some (decodeBytes (ds.stream.take width), { ds with stream := ds.stream.drop width })

/-- Modelled from the spec: `stream << DS_TAG(field)` for a signed field of `width`
bytes, in two's complement. -/
def DataSerialiser.signedField (ds : DataSerialiser) (width : Nat) (field : Int) :
    Option (Int × DataSerialiser) :=
  if ds.isSaving then
    some (field, { ds with stream := ds.stream ++ encodeBytes width (ofSigned width field) })
  else if ds.stream.length < width then none
  else
    some (toSigned width (decodeBytes (ds.stream.take width)),
      { ds with stream := ds.stream.drop width })

/-- Modelled from the spec: the fields of the base class `GameAction` that take
part in serialisation, "base-class fields (none shown beyond flags)". -/
structure GameActionBase where
  _flags : Nat
deriving DecidableEq, Repr

/-- Modelled from the spec: `GameAction::Serialise(stream)`, which serialises the
base-class fields (the 32-bit flags) before the fields of the derived action. -/
def GameAction.Serialise (base : GameActionBase) (ds : DataSerialiser) :
    Option (GameActionBase × DataSerialiser) :=
  match ds.unsignedField 4 base._flags with
  | none => none
  | some (flags, ds) => some ({ _flags := flags }, ds)

/-- The method `PeepPickupAction::Serialise(stream)`:
`GameAction::Serialise(stream); stream << DS_TAG(_type) << DS_TAG(_spriteId) << DS_TAG(_loc);`
with `_type` a `uint8_t`, `_spriteId` a `uint32_t` and `_loc` three 32-bit
coordinates.  It returns the action as the stream leaves it and the stream. -/
def PeepPickupAction.Serialise (base : GameActionBase) (a : PeepPickupAction)
    (ds : DataSerialiser) : Option ((GameActionBase × PeepPickupAction) × DataSerialiser) :=
  match GameAction.Serialise base ds with
  | none => none
  | some (base, ds) =>
    match ds.unsignedField 1 a._type with
    | none => none
    | some (_type, ds) =>
      match ds.unsignedField 4 a._spriteId with
      | none => none
      | some (_spriteId, ds) =>
        match ds.signedField 4 a._loc.x with
        | none => none
        | some (x, ds) =>
          match ds.signedField 4 a._loc.y with
          | none => none
          | some (y, ds) =>
            match ds.signedField 4 a._loc.z with
            | none => none
            | some (z, ds) =>
              some ((base, { _type := _type, _spriteId := _spriteId, _loc := ⟨x, y, z⟩ }), ds)

/-- The bytes the claim expects for a peep pickup action: the base-class flags,
the type byte, the sprite id and the location triple, in that order. -/
def PeepPickupAction.wireBytes (base : GameActionBase) (a : PeepPickupAction) : List Nat :=
  encodeBytes 4 base._flags ++ (encodeBytes 1 a._type ++ (encodeBytes 4 a._spriteId ++
    (encodeBytes 4 (ofSigned 4 a._loc.x) ++ (encodeBytes 4 (ofSigned 4 a._loc.y) ++
      encodeBytes 4 (ofSigned 4 a._loc.z)))))

/-! ## Registration of the game actions -/

/-- The action types named in `GameActionRegistration.cpp`, and the two actions
defined in the headers of this repository. -/
inductive ActionType where
  | BannerSetNameAction
  | ClimateSetAction
  | FootpathRemoveAction
  | GuestSetNameAction
  | MazeSetTrackAction
  | ParkMarketingAction
  | ParkSetLoanAction
  | ParkSetNameAction
  | ParkSetResearchFundingAction
  | PlaceParkEntranceAction
  | PlacePeepSpawnAction
  | RideCreateAction
  | RideDemolishAction
  | RideSetColourSchemeAction
  | RideSetNameAction
  | RideSetStatusAction
  | SetParkEntranceFeeAction
  | SignSetNameAction
  | StaffSetColourAction
  | StaffSetNameAction
  | StaffSetOrderAction
  | StaffSetCostumeAction
  | WallRemoveAction
  | SmallSceneryRemoveAction
  | LargeSceneryRemoveAction
  | ClearAction
  | PeepPickupAction
  | TrackPlaceAction
deriving DecidableEq, Repr

/-- The calls `Register<T>()` that `GameActions::Register()` makes, in order. -/
def GameActions.Register : List ActionType :=
  [ ActionType.BannerSetNameAction, ActionType.ClimateSetAction,
    ActionType.FootpathRemoveAction, ActionType.GuestSetNameAction,
    ActionType.MazeSetTrackAction, ActionType.ParkMarketingAction,
    ActionType.ParkSetLoanAction, ActionType.ParkSetNameAction,
    ActionType.ParkSetResearchFundingAction, ActionType.PlaceParkEntranceAction,
    ActionType.PlacePeepSpawnAction, ActionType.RideCreateAction,
    ActionType.RideDemolishAction, ActionType.RideSetColourSchemeAction,
    ActionType.RideSetNameAction, ActionType.RideSetStatusAction,
    ActionType.SetParkEntranceFeeAction, ActionType.SignSetNameAction,
    ActionType.StaffSetColourAction, ActionType.StaffSetNameAction,
    ActionType.StaffSetOrderAction, ActionType.StaffSetCostumeAction,
    ActionType.WallRemoveAction, ActionType.SmallSceneryRemoveAction,
    ActionType.LargeSceneryRemoveAction, ActionType.ClearAction ]

/-! ## Path graph: data model -/

/-- What the path graph builder reads of a tile element: `GetType()`,
`GetBaseZ()`, `IsGhost()`, and of a path element `IsSloped()`,
`GetSlopeDirection()`, `GetEdges()`, `IsQueue()`, `GetRideIndex()` and
`GetStationIndex()`. -/
structure TileElement where
  type : Nat
  baseZ : Int
  ghost : Bool
  sloped : Bool
  slopeDirection : Int
  edges : Nat
  queue : Bool
  rideIndex : Nat
  stationIndex : Nat
deriving DecidableEq, Repr

/-- One tile of the map: its tile coordinates and its elements, first to last. -/
structure Tile where
  x : Int
  y : Int
  elements : List TileElement
deriving DecidableEq, Repr

/-- The exit of a station (`ride->stations[i].Exit`): whether it is null, the
value of `ToCoordsXYZ()` and the direction. -/
structure StationExit where
  isNull : Bool
  coords : CoordsXYZ
  direction : Int
deriving DecidableEq, Repr

/-- What the builder reads of a ride: its type and the exits of its stations. -/
structure PathRide where
  type : Nat
  stationExit : Nat → StationExit

/-- The constants and tables of other headers that `MapPathing.cpp` uses. -/
structure PathEnv where
  COORDS_Z_STEP : Int
  TILE_ELEMENT_TYPE_PATH : Nat
  RIDE_ID_NULL : Nat
  MAX_STATIONS : Nat
  RIDE_TYPE_FLAG_TRANSPORT_RIDE : Nat
  RideTypeDescriptors_Flags : Nat → Nat
  CoordsDirectionDelta : Int → Int × Int
  direction_reverse : Int → Int

/-- The world the builder scans: the tiles in the order in which
`tile_element_iterator` visits them, and the ride list (`get_ride`). -/
structure PathWorld where
  tiles : List Tile
  get_ride : Nat → Option PathRide

/-- A connection of a node; `node` is the `Node*`, the index of the target in
`nodes`, and `none` is the null pointer. -/
structure NodeConnection where
  cost : Int
  node : Option Nat
deriving DecidableEq, Repr

/-- A node of the path graph (`struct Node`). -/
structure Node where
  loc : CoordsXYZ
  directConnections : List NodeConnection
  indirectConnections : List NodeConnection
  type : Nat
  element : TileElement
deriving DecidableEq, Repr

/-- The two globals of `MapPathing.cpp`: the vector `nodes` and the map
`nodesMap` from position hash to `Node*` (an index into `nodes`), as the list
of its entries. -/
structure PathGraph where
  nodes : List Node
  nodesMap : List (Nat × Nat)
deriving DecidableEq, Repr

/-! ## Path graph: the builder -/

/-- The function `GetHash`:
`(loc.x / 32) * COORDS_Z_STEP * 32 + (loc.y / 32) * COORDS_Z_STEP + loc.z / COORDS_Z_STEP`,
converted to `uint32_t`. -/
def GetHash (env : PathEnv) (loc : CoordsXYZ) : Nat :=
  (((loc.x.tdiv 32) * env.COORDS_Z_STEP * 32 + (loc.y.tdiv 32) * env.COORDS_Z_STEP
      + loc.z.tdiv env.COORDS_Z_STEP) % 4294967296).toNat

/-- The assignment `nodesMap[hash] = node`: the entry of an existing key is
overwritten, a new key gets a new entry. -/
def mapAssign : List (Nat × Nat) → Nat → Nat → List (Nat × Nat)
  | [], hash, node => [(hash, node)]
  | (k, v) :: rest, hash, node =>
    if k = hash then (k, node) :: rest else (k, v) :: mapAssign rest hash node

/-- The lookup `nodesMap.find(hash)`: the node stored under the key, if any. -/
def mapFind : List (Nat × Nat) → Nat → Option Nat
  | [], _ => none
  | (k, v) :: rest, hash => if k = hash then some v else mapFind rest hash

/-- The first loop of `ResetNodes`: one node per element of type
`TILE_ELEMENT_TYPE_PATH`, in the order of the tile iterator. -/
def scanNodes (env : PathEnv) (tiles : List Tile) : List Node :=
  tiles.flatMap fun tile =>
    (tile.elements.filter fun e => e.type = env.TILE_ELEMENT_TYPE_PATH).map fun e =>
      { loc := ⟨tile.x * 32, tile.y * 32, e.baseZ⟩, directConnections := [],
        indirectConnections := [], type := e.type, element := e }

/-- The second loop of `ResetNodes`, from the node with index `index` on:
`nodesMap[GetHash(i.loc)] = &i` for every node. -/
def fillNodesMap (env : PathEnv) : List Node → Nat → List (Nat × Nat) → List (Nat × Nat)
  | [], _, nodesMap => nodesMap
  | node :: rest, index, nodesMap =>
    fillNodesMap env rest (index + 1) (mapAssign nodesMap (GetHash env node.loc) index)

/-- The function `ResetNodes`: both globals are cleared, whatever they held, and
rebuilt from the tile elements. -/
def ResetNodes (env : PathEnv) (w : PathWorld) (_old : PathGraph) : PathGraph :=
  let nodes := scanNodes env w.tiles
  { nodes := nodes, nodesMap := fillNodesMap env nodes 0 [] }

/-- The function `is_valid_path_z_and_direction`. -/
def is_valid_path_z_and_direction (env : PathEnv) (tileElement : TileElement)
    (currentZ : Int) (currentDirection : Int) : Bool :=
  if tileElement.sloped then
    let slopeDirection := tileElement.slopeDirection
    if slopeDirection = currentDirection then
      if currentZ ≠ tileElement.baseZ then false else true
    else
      let slopeDirection := env.direction_reverse slopeDirection
      if slopeDirection ≠ currentDirection then false
      else if currentZ ≠ tileElement.baseZ + 2 * env.COORDS_Z_STEP then false
      else true
  else
    if currentZ ≠ tileElement.baseZ then false else true

/-- The lookup `map_get_first_element_at(loc)`: the elements of the tile that
holds the location, or `none` (the null pointer) when there is no such tile. -/
def map_get_first_element_at (w : PathWorld) (x y : Int) : Option (List TileElement) :=
  (w.tiles.find? fun tile => tile.x = x.tdiv 32 ∧ tile.y = y.tdiv 32).map fun tile =>
    tile.elements

/-- The function `footpath_element_next_in_direction`: `none` is `std::nullopt`,
`some p` the returned pointer `nodesMap[GetHash(...)]`, which is null (`none`)
when the key has no entry. -/
def footpath_element_next_in_direction (env : PathEnv) (w : PathWorld) (g : PathGraph)
    (node : Node) (chosenDirection : Int) : Option (Option Nat) :=
  let targetZ :=
    if node.element.sloped ∧ node.element.slopeDirection = chosenDirection then
      node.loc.z + 2 * env.COORDS_Z_STEP
    else node.loc.z
  let targetX := node.loc.x + (env.CoordsDirectionDelta chosenDirection).1
  let targetY := node.loc.y + (env.CoordsDirectionDelta chosenDirection).2
  match map_get_first_element_at w targetX targetY with
  | none => none
  | some elements =>
    match elements.find? fun e =>
        ¬ e.ghost ∧ e.type = env.TILE_ELEMENT_TYPE_PATH
          ∧ is_valid_path_z_and_direction env e targetZ chosenDirection with
    | none => none
    | some nextTileElement =>
      some (mapFind g.nodesMap (GetHash env ⟨targetX, targetY, nextTileElement.baseZ⟩))

/-- The inner loop of `ConnectNodes` for one node: `bitscanforward` yields the
lowest set bit of `edges` and the body clears it, so the set bits of the byte
are tried in increasing order, and every direction with a result adds a
connection of cost 1. -/
def directConnectionsOf (env : PathEnv) (w : PathWorld) (g : PathGraph) (node : Node) :
    List NodeConnection :=
  ([0, 1, 2, 3, 4, 5, 6, 7].filter fun test_edge =>
      hasFlag (node.element.edges % 256) (1 <<< test_edge)).filterMap fun test_edge =>
    (footpath_element_next_in_direction env w g node test_edge).map fun res =>
      { cost := 1, node := res }

/-- Append connections to the lists of the node with index `index`. -/
def pushConnections (nodes : List Node) (index : Nat) (direct indirect : List NodeConnection) :
    List Node :=
  nodes.modify
    (fun n =>
      { n with directConnections := n.directConnections ++ direct,
               indirectConnections := n.indirectConnections ++ indirect })
    index

/-- The function `ConnectNodes`: the loop over the entries of `nodesMap`.  The
order in which an `unordered_map` is walked is not specified; the entries are
taken in list order here, and each step writes only the connections of its own
node. -/
def ConnectNodes (env : PathEnv) (w : PathWorld) (g : PathGraph) : PathGraph :=
  { g with
    nodes := g.nodesMap.foldl
      (fun nodes nd =>
        match g.nodes.get? nd.2 with
        | none => nodes
        | some node => pushConnections nodes nd.2 (directConnectionsOf env w g node) [])
      g.nodes }

/-- The body of the loop of `ConnectRides` for one node: the indirect connections
it adds.  For a queue element with a ride index other than `RIDE_ID_NULL` the
ride is dereferenced; `none` stands for the dereference of a null `get_ride`
result. -/
def indirectConnectionsOf (env : PathEnv) (w : PathWorld) (g : PathGraph) (node : Node) :
    Option (List NodeConnection) :=
  if ¬ node.element.queue then some []
  else if node.element.rideIndex = env.RIDE_ID_NULL then some []
  else
    match w.get_ride node.element.rideIndex with
    | none => none
    | some ride =>
      if ¬ hasFlag (env.RideTypeDescriptors_Flags ride.type) env.RIDE_TYPE_FLAG_TRANSPORT_RIDE then
        some []
      else
        some ((List.range env.MAX_STATIONS).filterMap fun i =>
          if i = node.element.stationIndex then none
          else
            let stationExit := ride.stationExit i
            if stationExit.isNull then none
            else
              let delta := env.CoordsDirectionDelta (env.direction_reverse stationExit.direction)
              let stationExitPath : CoordsXYZ :=
                ⟨stationExit.coords.x + delta.1, stationExit.coords.y + delta.2,
                  stationExit.coords.z⟩
              let cost := |stationExitPath.x - node.loc.x| + |stationExitPath.y - node.loc.y|
                + |stationExitPath.z - node.loc.z|
              let cost := cost.tdiv 50 -- Arbitary amount
              match mapFind g.nodesMap (GetHash env stationExitPath) with
              | none => none
              | some target => some { cost := cost, node := some target })

/-- The function `ConnectRides`: the loop over the entries of `nodesMap`, in list
order. -/
def ConnectRides (env : PathEnv) (w : PathWorld) (g : PathGraph) : Option PathGraph :=
  (g.nodesMap.foldl
    (fun acc nd =>
      match acc with
      | none => none
      | some nodes =>
        match g.nodes.get? nd.2 with
        | none => some nodes
        | some node =>
          match indirectConnectionsOf env w g node with
          | none => none
          | some indirect => some (pushConnections nodes nd.2 [] indirect))
    (some g.nodes)).map fun nodes => { g with nodes := nodes }

/-- The function `ConnectTwoEdges`: the body of its inner loop is a comment, so it
changes nothing. -/
def ConnectTwoEdges (g : PathGraph) : PathGraph :=
  g

/-- The function `InitMapPathing`, run on the globals `old`; `none` when
`ConnectRides` dereferences a null ride. -/
def InitMapPathing (env : PathEnv) (w : PathWorld) (old : PathGraph) : Option PathGraph :=
  (ConnectRides env w (ConnectNodes env w (ResetNodes env w old))).map ConnectTwoEdges

/-! ### Sample data used to evaluate the path graph builder -/

/-- Sample constants: `COORDS_Z_STEP = 8`, path elements have type 1, and the
direction deltas are (-32, 0), (0, 32), (32, 0), (0, -32). -/
def samplePathEnv : PathEnv :=
  { COORDS_Z_STEP := 8, TILE_ELEMENT_TYPE_PATH := 1, RIDE_ID_NULL := 255, MAX_STATIONS := 4,
    RIDE_TYPE_FLAG_TRANSPORT_RIDE := 1,
    RideTypeDescriptors_Flags := fun _ => 0,
    CoordsDirectionDelta := fun d =>
      if d = 0 then (-32, 0) else if d = 1 then (0, 32) else if d = 2 then (32, 0) else (0, -32),
    direction_reverse := fun d => (d + 2) % 4 }

/-- A flat, non-ghost path element at base height 16 with the given edges. -/
def samplePath (edges : Nat) : TileElement :=
  { type := 1, baseZ := 16, ghost := false, sloped := false, slopeDirection := 0,
    edges := edges, queue := false, rideIndex := 255, stationIndex := 0 }

/-- Sample world: path A on tile (1, 0) with its edge towards tile (2, 0) open
(direction 2), path B on tile (2, 0) with its edge towards tile (1, 0) open
(direction 0), and a third path C with no open edge on tile (0, 32), visited
after them by the tile iterator. -/
def samplePathWorld : PathWorld :=
  { tiles := [⟨1, 0, [samplePath 4]⟩, ⟨2, 0, [samplePath 1]⟩, ⟨0, 32, [samplePath 0]⟩],
    get_ride := fun _ => none }

/-- The empty globals before the first build. -/
def emptyGraph : PathGraph :=
  { nodes := [], nodesMap := [] }

/-- The graph `InitMapPathing` builds for the sample world. -/
def sampleBuiltGraph : PathGraph :=
  { nodes :=
      [ { loc := ⟨32, 0, 16⟩, directConnections := [], indirectConnections := [], type := 1,
          element := samplePath 4 },
        { loc := ⟨64, 0, 16⟩, directConnections := [⟨1, some 2⟩], indirectConnections := [],
          type := 1, element := samplePath 1 },
        { loc := ⟨0, 1024, 16⟩, directConnections := [], indirectConnections := [], type := 1,
          element := samplePath 0 } ],
    nodesMap := [(258, 2), (514, 1)] }

/-- The cost of the specification for a whole placement that `Query` runs to its
end: the costs added by the clearance tests and the support costs of all
sub-elements plus the price term, with the pricing table chosen by the
flat-ride flag of the ride type, in 32-bit arithmetic. -/
def specQueryCost (env : TrackEnv) (flags : Nat) (a : TrackPlaceAction) (ride : Ride)
    (rideEntry : rct_ride_entry) (s : TrackState) : Int :=
  let rideTypeFlags := env.RideProperties_flags ride.type
  let flatRide := hasFlag rideTypeFlags env.RIDE_TYPE_FLAG_FLAT_RIDE
  let wallEdges : Nat → Nat :=
    if flatRide then env.FlatRideTrackSequenceElementAllowedWallEdges a._trackType
    else env.TrackSequenceElementAllowedWallEdges a._trackType
  let trackBlocks := env.get_track_def_from_ride ride a._trackType
  wrap32
    (specBlocksCost env flags a rideEntry rideTypeFlags wallEdges trackBlocks 0
        (walkStart env a ride trackBlocks.length s)
      + specPriceTerm (env.RideTrackCosts_track_price ride.type)
          (if flatRide then env.FlatRideTrackPricing a._trackType
           else env.TrackPricing a._trackType))

/-- The sample environment with the park's no-money flag set. -/
def sampleTrackEnvNoMoney : TrackEnv :=
  { sampleTrackEnv with gParkFlags := 0x800 }

/-- The sample environment with no tile owned by the park. -/
def sampleTrackEnvNotOwned : TrackEnv :=
  { sampleTrackEnv with map_is_location_owned := fun _ _ _ _ => false }

/-! ## Path graph: the loops of the builder and the claims about them -/

/-- Modelled from the spec: `bitscanforward` (util/Util.h is not among the
sources).  The spec has the builder visit "each open edge direction recorded on
its path element"; the helper yields the index of the lowest set bit of its
argument, and -1 when no bit is set. -/
def bitscanforward (source : Nat) : Int :=
  match (List.range 32).find? fun i => hasFlag source (1 <<< i) with
  | some i => i
  | none => -1

/-- What the edge-scanning loop of `ConnectNodes` has done for one node: the
connections pushed, the number of iterations of the loop body, and whether the
loop ended because `bitscanforward` returned -1. -/
structure EdgeScan where
  connections : List NodeConnection
  iterations : Nat
  finished : Bool
deriving DecidableEq, Repr

/-- The inner loop of `ConnectNodes` for one node,
`for (test_edge = bitscanforward(edges); test_edge != -1; test_edge = bitscanforward(edges))`,
with the body `edges &= ~(1 << test_edge)` on the `uint8_t` variable `edges`
followed by the `push_back` when `footpath_element_next_in_direction` has a
result.  The first argument bounds the number of iterations. -/
def edgeScanLoop (env : PathEnv) (w : PathWorld) (g : PathGraph) (node : Node) :
    Nat → Nat → List NodeConnection → EdgeScan
  | 0, edges, directConnections =>
    ⟨directConnections, 0, decide (bitscanforward edges = -1)⟩
  | fuel + 1, edges, directConnections =>
    let test_edge := bitscanforward edges
    if test_edge = -1 then ⟨directConnections, 0, true⟩
    else
      let edges := (edges &&& (4294967295 ^^^ (1 <<< test_edge.toNat))) % 256
      let directConnections :=
        match footpath_element_next_in_direction env w g node test_edge with
        | some res => directConnections ++ [{ cost := 1, node := res }]
        | none => directConnections
      let rest := edgeScanLoop env w g node fuel edges directConnections
      ⟨rest.connections, rest.iterations + 1, rest.finished⟩

/-- The values `test_edge` takes in the edge-scanning loop, in order, and whether
the loop has ended within the given number of iterations. -/
def scanOrder : Nat → Nat → List Int × Bool
  | 0, edges => ([], decide (bitscanforward edges = -1))
  | fuel + 1, edges =>
    let test_edge := bitscanforward edges
    if test_edge = -1 then ([], true)
    else
      let rest := scanOrder fuel ((edges &&& (4294967295 ^^^ (1 <<< test_edge.toNat))) % 256)
      (test_edge :: rest.1, rest.2)

/-- The number of set bits of a byte. -/
def popcount8 (edges : Nat) : Nat :=
  ([0, 1, 2, 3, 4, 5, 6, 7].filter fun i => hasFlag (edges % 256) (1 <<< i)).length

/-- The position `stationExitPath` of `ConnectRides`: the exit moved one step
against its direction,
`stationExit.ToCoordsXYZ() + CoordsDirectionDelta[direction_reverse(stationExit.direction)]`. -/
def stationExitPathOf (env : PathEnv) (stationExit : StationExit) : CoordsXYZ :=
  let delta := env.CoordsDirectionDelta (env.direction_reverse stationExit.direction)
  ⟨stationExit.coords.x + delta.1, stationExit.coords.y + delta.2, stationExit.coords.z⟩

/-- The Manhattan distance `|dx| + |dy| + |dz|` of two positions. -/
def manhattanDistance (a b : CoordsXYZ) : Int :=
  |a.x - b.x| + |a.y - b.y| + |a.z - b.z|

/-- The body of the station loop of `ConnectRides` for the node `node`, its ride
and the station `i`: the indirect connection it pushes, if any. -/
def stationConnection (env : PathEnv) (g : PathGraph) (node : Node) (ride : PathRide)
    (i : Nat) : Option NodeConnection :=
  if i = node.element.stationIndex then none
  else
    let stationExit := ride.stationExit i
    if stationExit.isNull then none
    else
      let delta := env.CoordsDirectionDelta (env.direction_reverse stationExit.direction)
      let stationExitPath : CoordsXYZ :=
        ⟨stationExit.coords.x + delta.1, stationExit.coords.y + delta.2,
          stationExit.coords.z⟩
      let cost := |stationExitPath.x - node.loc.x| + |stationExitPath.y - node.loc.y|
        + |stationExitPath.z - node.loc.z|
      let cost := cost.tdiv 50 -- Arbitary amount
      match mapFind g.nodesMap (GetHash env stationExitPath) with
      | none => none
      | some target => some { cost := cost, node := some target }

/-- The validity test as the specification words it: a sloped neighbour is valid
when its slope direction is the travel direction and the target height differs
from its base height by exactly one step (`step`), or when its slope direction
is the reverse of the travel direction and the target height is its base
height; a flat neighbour is valid when the target height is its base height. -/
def claimedValidPath (env : PathEnv) (step : Int) (tileElement : TileElement)
    (currentZ : Int) (currentDirection : Int) : Bool :=
  if tileElement.sloped then
    decide ((tileElement.slopeDirection = currentDirection
        ∧ |currentZ - tileElement.baseZ| = step)
      ∨ (env.direction_reverse tileElement.slopeDirection = currentDirection
        ∧ currentZ = tileElement.baseZ))
  else decide (currentZ = tileElement.baseZ)

/-- Sample constants with every ride type a transport ride. -/
def sampleTransportEnv : PathEnv :=
  { samplePathEnv with RideTypeDescriptors_Flags := fun _ => 1 }

/-- A flat, non-ghost queue element of ride 0, station 0, at base height 16, with
no open edge. -/
def sampleQueue : TileElement :=
  { type := 1, baseZ := 16, ghost := false, sloped := false, slopeDirection := 0,
    edges := 0, queue := true, rideIndex := 0, stationIndex := 0 }

/-- A ride whose station 1 has its exit on tile (1, 1) at height 16, facing
direction 1, so that the path position in front of it is tile (1, 0); the
other stations have no exit. -/
def sampleTransportRide : PathRide :=
  { type := 0,
    stationExit := fun i =>
      if i = 1 then ⟨false, ⟨32, 32, 16⟩, 1⟩ else ⟨true, ⟨0, 0, 0⟩, 0⟩ }

/-- Sample world with a transport ride: path A on tile (1, 0), in front of the
exit of station 1, the queue of station 0 on tile (5, 0), and a path C on tile
(0, 32). -/
def sampleRideWorld : PathWorld :=
  { tiles := [⟨1, 0, [samplePath 0]⟩, ⟨5, 0, [sampleQueue]⟩, ⟨0, 32, [samplePath 0]⟩],
    get_ride := fun i => if i = 0 then some sampleTransportRide else none }

/-- The same world without the path A: no path element lies in front of the exit
of station 1. -/
def sampleRideWorldNoPath : PathWorld :=
  { tiles := [⟨5, 0, [sampleQueue]⟩, ⟨0, 32, [samplePath 0]⟩],
    get_ride := fun i => if i = 0 then some sampleTransportRide else none }

/-- Sample world with a sloped path: A on tile (1, 0) slopes in direction 1 and
has its edge towards tile (2, 0) open (direction 2); the flat path B on tile
(2, 0) has its edge towards tile (1, 0) open (direction 0). -/
def sampleSlopeWorld : PathWorld :=
  { tiles :=
      [⟨1, 0, [{ samplePath 4 with sloped := true, slopeDirection := 1 }]⟩,
       ⟨2, 0, [samplePath 1]⟩],
    get_ride := fun _ => none }

/-- A world whose only path element is a queue of ride 7, which does not exist. -/
def sampleStaleQueueWorld : PathWorld :=
  { tiles := [⟨5, 0, [{ sampleQueue with rideIndex := 7 }]⟩],
    get_ride := fun _ => none }

/-- Sample constants with `direction_reverse` an involution on all integers: the
four directions are reversed, every other value is left as it is. -/
def sampleReverseEnv : PathEnv :=
  { samplePathEnv with
    direction_reverse := fun d =>
      if d = 0 then 2 else if d = 1 then 3 else if d = 2 then 0 else if d = 3 then 1 else d }

/-- Sample world with two flat paths: A on tile (1, 0) with its edge towards tile
(2, 0) open, B on tile (2, 0) with its edge towards tile (1, 0) open. -/
def sampleStraightWorld : PathWorld :=
  { tiles := [⟨1, 0, [samplePath 4]⟩, ⟨2, 0, [samplePath 1]⟩],
    get_ride := fun _ => none }

/-! ## Track placement: the quadrant byte and the rule conflicts -/

/-- Rotate a nibble left within 4 bits. -/
def rotl4 (n shift : Nat) : Nat :=
  ((n <<< shift) ||| (n >>> (4 - shift))) % 16

/-- The number of set bits of a nibble. -/
def popcount4 (n : Nat) : Nat :=
  ([0, 1, 2, 3].filter fun i => hasFlag (n % 16) (1 <<< i)).length

/-- Sample state in which ride 0 already has an on-ride photo section and a cable
lift hill. -/
def sampleTrackStateUsed : TrackState :=
  { sampleTrackState with
    rides := fun i =>
      if i = 0 then some ⟨1, 0, 0x10020, 0, 0, 0, 0, 0, 0, 255, 255⟩ else none }

/-- Placing a cable lift hill for ride 0 at (64, 64, 16), direction 0. -/
def sampleCableAction : TrackPlaceAction :=
  { samplePhotoAction with _trackType := 182 }

/-! ## Peep pickup: basic facts -/

theorem ExecuteNested_eq (env : PeepEnv) (player : Int) (a : PeepPickupAction) (w : World) :
    GameActions.ExecuteNested env player a w = PeepPickupAction.Execute env player a w := by
  rw [GameActions.ExecuteNested]

theorem QueryNested_eq (env : PeepEnv) (player : Int) (a : PeepPickupAction) (w : World) :
    GameActions.QueryNested env player a w = PeepPickupAction.Query env player a w := by
  rw [GameActions.QueryNested]

/-- The outcome of `Execute` on an id that holds no peep. -/
theorem Execute_no_peep (env : PeepEnv) (player : Int) (a : PeepPickupAction) (w : World)
    (h : getPeep env w a._spriteId = none) :
    PeepPickupAction.Execute env player a w = ⟨invalidPeepResult, w, []⟩ := by
  rw [PeepPickupAction.Execute, h]

/-- The outcome of `Execute` of a Cancel action while `b` is held. -/
theorem Execute_cancel_some (env : PeepEnv) (player : Int) (id b : Nat) (loc : CoordsXYZ)
    (w : World) (peep : Peep) (h : getPeep env w id = some peep)
    (hb : w.pickup_peep player = some b) :
    PeepPickupAction.Execute env player ⟨PeepPickupType.Cancel, id, loc⟩ w =
      ⟨{ MakeResult with Position := some ⟨peep.x, peep.y, peep.z⟩ },
        network_set_pickup_peep
          (setPeep w b (env.PickupAbort loc.x (peepData w b peep))) player none,
        [PeepCall.PickupAbort b loc.x]⟩ := by
  rw [PeepPickupAction.Execute]
  simp [h, hb, PeepPickupType.Cancel, PeepPickupType.Pickup]

/-- The outcome of `Execute` of a Cancel action while nothing is held. -/
theorem Execute_cancel_none (env : PeepEnv) (player : Int) (id : Nat) (loc : CoordsXYZ)
    (w : World) (peep : Peep) (h : getPeep env w id = some peep)
    (hb : w.pickup_peep player = none) :
    PeepPickupAction.Execute env player ⟨PeepPickupType.Cancel, id, loc⟩ w =
      ⟨{ MakeResult with Position := some ⟨peep.x, peep.y, peep.z⟩ },
        network_set_pickup_peep w player none, []⟩ := by
  rw [PeepPickupAction.Execute]
  simp [h, hb, PeepPickupType.Cancel, PeepPickupType.Pickup]

theorem peepData_of_getPeep (env : PeepEnv) (w : World) (id : Nat) (p p0 : Peep)
    (h : getPeep env w id = some p) : peepData w id p0 = p := by
  unfold getPeep at h
  unfold peepData
  cases hs : w.sprites id with
  | none => simp [hs] at h
  | some e =>
    simp only [hs] at h
    split at h
    · simp at h
    · simpa using h

theorem getPeep_setPeep_same (env : PeepEnv) (w : World) (id : Nat) (p q : Peep)
    (h : getPeep env w id = some p) : getPeep env (setPeep w id q) id = some q := by
  unfold getPeep at h ⊢
  cases hs : w.sprites id with
  | none => simp [hs] at h
  | some e =>
    simp only [hs] at h
    by_cases hk : e.sprite_identifier = env.SPRITE_IDENTIFIER_PEEP
    · simp [setPeep, hs, hk]
    · simp [hk] at h

theorem getPeep_setPeep_other (env : PeepEnv) (w : World) (id j : Nat) (q : Peep)
    (h : j ≠ id) : getPeep env (setPeep w id q) j = getPeep env w j := by
  simp [getPeep, setPeep, h]

theorem getPeep_set_pickup (env : PeepEnv) (w : World) (player : Int) (v : Option Nat) (j : Nat) :
    getPeep env (network_set_pickup_peep w player v) j = getPeep env w j := rfl

theorem getPeep_set_old_x (env : PeepEnv) (w : World) (player : Int) (v : Int) (j : Nat) :
    getPeep env (network_set_pickup_peep_old_x w player v) j = getPeep env w j := rfl

/-- The outcome of `Execute` of a Pickup action for `a` while a different peep `b` is held. -/
theorem Execute_pickup_other (env : PeepEnv) (player : Int) (w : World) (a b : Nat)
    (loc : CoordsXYZ) (pa : Peep) (hA : getPeep env w a = some pa)
    (hB : w.pickup_peep player = some b) (hAB : a ≠ b) :
    PeepPickupAction.Execute env player ⟨PeepPickupType.Pickup, a, loc⟩ w =
      (let result := PeepPickupAction.Execute env player
          ⟨PeepPickupType.Cancel, b, ⟨w.pickup_peep_old_x player, 0, 0⟩⟩ w
       let w1 : World :=
          if player = result.world.current_player_id then
            { result.world with tool_active := false }
          else result.world
       let w2 := network_set_pickup_peep w1 player (some a)
       let w3 := network_set_pickup_peep_old_x w2 player (peepData w2 a pa).x
       let w4 := setPeep w3 a (env.Pickup (peepData w3 a pa))
       ⟨{ MakeResult with Position := some ⟨pa.x, pa.y, pa.z⟩ }, w4,
          result.calls ++ [PeepCall.Pickup a]⟩) := by
  rw [PeepPickupAction.Execute]
  simp [hA, hB, PeepPickupType.Pickup, ExecuteNested_eq, Ne.symm hAB]

/-- The outcome of `Execute` of a Pickup action for the peep `a` that is already held. -/
theorem Execute_pickup_same (env : PeepEnv) (player : Int) (w : World) (a : Nat)
    (loc : CoordsXYZ) (pa : Peep) (hA : getPeep env w a = some pa)
    (hB : w.pickup_peep player = some a) :
    PeepPickupAction.Execute env player ⟨PeepPickupType.Pickup, a, loc⟩ w =
      PeepPickupAction.Execute env player
        ⟨PeepPickupType.Cancel, a, ⟨w.pickup_peep_old_x player, 0, 0⟩⟩ w := by
  rw [PeepPickupAction.Execute]
  simp [hA, hB, PeepPickupType.Pickup, ExecuteNested_eq]

/-- The outcome of `Execute` of a Pickup action while nothing is held. -/
theorem Execute_pickup_none (env : PeepEnv) (player : Int) (w : World) (a : Nat)
    (loc : CoordsXYZ) (pa : Peep) (hA : getPeep env w a = some pa)
    (hB : w.pickup_peep player = none) :
    PeepPickupAction.Execute env player ⟨PeepPickupType.Pickup, a, loc⟩ w =
      (let w2 := network_set_pickup_peep w player (some a)
       let w3 := network_set_pickup_peep_old_x w2 player (peepData w2 a pa).x
       let w4 := setPeep w3 a (env.Pickup (peepData w3 a pa))
       ⟨{ MakeResult with Position := some ⟨pa.x, pa.y, pa.z⟩ }, w4, [PeepCall.Pickup a]⟩) := by
  rw [PeepPickupAction.Execute]
  simp [hA, hB, PeepPickupType.Pickup]

/-! ## Peep pickup: the claims -/

/-- C1: when the acting player holds peep `b` and `a` is a different existing
peep, `Execute` with type Pickup and target `a` releases `b` (it receives
`PickupAbort` with the previously recorded old-x) and ends with `a` held: the
held-peep record is `a`, the recorded old-x is the x of `a` before the pickup,
`a` has received `Pickup`, and the result is Ok with the position `a` had
before the pickup. -/
theorem C1_pickup_replaces_held_peep (env : PeepEnv) (player : Int) (w : World) (a b : Nat)
    (loc : CoordsXYZ) (pa pb : Peep)
    (hHeld : w.pickup_peep player = some b) (hAB : a ≠ b)
    (hA : getPeep env w a = some pa) (hB : getPeep env w b = some pb) :
    let o := PeepPickupAction.Execute env player ⟨PeepPickupType.Pickup, a, loc⟩ w
    o.result.Error = GA_ERROR.OK ∧
    o.result.Position = some ⟨pa.x, pa.y, pa.z⟩ ∧
    o.world.pickup_peep player = some a ∧
    o.world.pickup_peep_old_x player = pa.x ∧
    getPeep env o.world a = some (env.Pickup pa) ∧
    getPeep env o.world b = some (env.PickupAbort (w.pickup_peep_old_x player) pb) ∧
    o.calls = [PeepCall.PickupAbort b (w.pickup_peep_old_x player), PeepCall.Pickup a] := by
  intro o
  have ho : o = _ := Execute_pickup_other env player w a b loc pa hA hHeld hAB
  rw [Execute_cancel_some env player b b _ w pb hB hHeld] at ho
  simp only at ho
  have hpb : peepData w b pb = pb := peepData_of_getPeep env w b pb pb hB
  rw [hpb] at ho
  -- the world after the nested Cancel
  set wc : World := network_set_pickup_peep
      (setPeep w b (env.PickupAbort (w.pickup_peep_old_x player) pb)) player none with hwc
  set w1 : World := if player = wc.current_player_id then { wc with tool_active := false } else wc
    with hw1
  have hw1s : w1.sprites = wc.sprites := by
    rw [hw1]; split <;> rfl
  have hA1 : getPeep env w1 a = some pa := by
    have : getPeep env w1 a = getPeep env wc a := by
      unfold getPeep; rw [hw1s]
    rw [this, hwc, getPeep_set_pickup, getPeep_setPeep_other env w b a _ hAB]
    exact hA
  have hB1 : getPeep env w1 b = some (env.PickupAbort (w.pickup_peep_old_x player) pb) := by
    have : getPeep env w1 b = getPeep env wc b := by
      unfold getPeep; rw [hw1s]
    rw [this, hwc, getPeep_set_pickup]
    exact getPeep_setPeep_same env w b pb _ hB
  have hd2 : peepData (network_set_pickup_peep w1 player (some a)) a pa = pa :=
    peepData_of_getPeep env _ a pa pa (by rw [getPeep_set_pickup]; exact hA1)
  rw [hd2] at ho
  have hd3 : peepData (network_set_pickup_peep_old_x
      (network_set_pickup_peep w1 player (some a)) player pa.x) a pa = pa :=
    peepData_of_getPeep env _ a pa pa (by rw [getPeep_set_old_x, getPeep_set_pickup]; exact hA1)
  rw [hd3] at ho
  rw [ho]
  refine ⟨rfl, rfl, ?_, ?_, ?_, ?_, rfl⟩
  · simp [setPeep, network_set_pickup_peep_old_x, network_set_pickup_peep]
  · simp [setPeep, network_set_pickup_peep_old_x, network_set_pickup_peep]
  · apply getPeep_setPeep_same env _ a pa
    rw [getPeep_set_old_x, getPeep_set_pickup]; exact hA1
  · rw [getPeep_setPeep_other env _ a b _ (Ne.symm hAB), getPeep_set_old_x, getPeep_set_pickup]
    exact hB1

/-! ### Facts about the sample world -/

theorem sampleHolding2_eq :
    sampleHolding2 =
      setPeep (network_set_pickup_peep_old_x
        (network_set_pickup_peep sampleWorld 0 (some 2)) 0 300) 2 ⟨-32768, 400, 32, 1⟩ := by
  have h : getPeep sampleEnv sampleWorld 2 = some ⟨300, 400, 32, 0⟩ := by
    simp [getPeep, sampleWorld, sampleEnv]
  unfold sampleHolding2
  rw [Execute_pickup_none sampleEnv 0 sampleWorld 2 _ _ h rfl]
  simp [peepData, network_set_pickup_peep, network_set_pickup_peep_old_x, sampleWorld, sampleEnv]

theorem sampleHolding2_held : sampleHolding2.pickup_peep 0 = some 2 := by
  rw [sampleHolding2_eq]; rfl

theorem sampleHolding2_old_x : sampleHolding2.pickup_peep_old_x 0 = 300 := by
  rw [sampleHolding2_eq]; rfl

theorem sampleHolding2_peep1 :
    getPeep sampleEnv sampleHolding2 1 = some ⟨100, 200, 16, 0⟩ := by
  rw [sampleHolding2_eq]; rfl

theorem sampleHolding2_peep2 :
    getPeep sampleEnv sampleHolding2 2 = some ⟨-32768, 400, 32, 1⟩ := by
  rw [sampleHolding2_eq]; rfl

theorem sampleWorld_peep1 : getPeep sampleEnv sampleWorld 1 = some ⟨100, 200, 16, 0⟩ := rfl

/-- C1 at the sample world: player 0 holds peep 2 and picks up peep 1. -/
theorem C1_pickup_replaces_held_peep_witness :
    (PeepPickupAction.Execute sampleEnv 0 ⟨PeepPickupType.Pickup, 1, ⟨0, 0, 0⟩⟩
        sampleHolding2).world.pickup_peep 0 = some 1 ∧
    getPeep sampleEnv (PeepPickupAction.Execute sampleEnv 0 ⟨PeepPickupType.Pickup, 1, ⟨0, 0, 0⟩⟩
        sampleHolding2).world 2 = some ⟨300, 400, 32, 2⟩ :=
  have h := C1_pickup_replaces_held_peep sampleEnv 0 sampleHolding2 1 2 ⟨0, 0, 0⟩
    ⟨100, 200, 16, 0⟩ ⟨-32768, 400, 32, 1⟩ sampleHolding2_held (by decide)
    sampleHolding2_peep1 sampleHolding2_peep2
  ⟨h.2.2.1, by rw [h.2.2.2.2.2.1, sampleHolding2_old_x]; rfl⟩

/-- C2 as stated fails: in the sample world where player 0 holds peep 2, `Execute`
with type Pickup and target 2 leaves player 0 holding nothing and changes peep
2, so the call is not a no-op. -/
theorem C2_counterexample :
    sampleHolding2.pickup_peep 0 = some 2 ∧
    getPeep sampleEnv sampleHolding2 2 = some ⟨-32768, 400, 32, 1⟩ ∧
    (PeepPickupAction.Execute sampleEnv 0 ⟨PeepPickupType.Pickup, 2, ⟨0, 0, 0⟩⟩
        sampleHolding2).world.pickup_peep 0 = none ∧
    getPeep sampleEnv (PeepPickupAction.Execute sampleEnv 0 ⟨PeepPickupType.Pickup, 2, ⟨0, 0, 0⟩⟩
        sampleHolding2).world 2 = some ⟨300, 400, 32, 2⟩ := by
  refine ⟨sampleHolding2_held, sampleHolding2_peep2, ?_, ?_⟩
  · rw [Execute_pickup_same sampleEnv 0 sampleHolding2 2 _ _ sampleHolding2_peep2
      sampleHolding2_held,
      Execute_cancel_some sampleEnv 0 2 2 _ sampleHolding2 _ sampleHolding2_peep2
        sampleHolding2_held]
    simp [network_set_pickup_peep]
  · rw [Execute_pickup_same sampleEnv 0 sampleHolding2 2 _ _ sampleHolding2_peep2
      sampleHolding2_held,
      Execute_cancel_some sampleEnv 0 2 2 _ sampleHolding2 _ sampleHolding2_peep2
        sampleHolding2_held, getPeep_set_pickup,
      getPeep_setPeep_same sampleEnv sampleHolding2 2 _ _ sampleHolding2_peep2,
      peepData_of_getPeep sampleEnv sampleHolding2 2 _ _ sampleHolding2_peep2,
      sampleHolding2_old_x]
    rfl

/-- C2 (amended): when the acting player already holds the existing peep `a`,
`Execute` with type Pickup and target `a` returns the outcome of the nested
Cancel action: the result is Ok with the position `a` had before the call, `a`
has received `PickupAbort` with the recorded old-x, and the player holds
nothing afterwards. -/
theorem C2_pickup_of_held_peep_cancels (env : PeepEnv) (player : Int) (w : World) (a : Nat)
    (loc : CoordsXYZ) (pa : Peep)
    (hHeld : w.pickup_peep player = some a) (hA : getPeep env w a = some pa) :
    let o := PeepPickupAction.Execute env player ⟨PeepPickupType.Pickup, a, loc⟩ w
    o = PeepPickupAction.Execute env player
          ⟨PeepPickupType.Cancel, a, ⟨w.pickup_peep_old_x player, 0, 0⟩⟩ w ∧
    o.result.Error = GA_ERROR.OK ∧
    o.result.Position = some ⟨pa.x, pa.y, pa.z⟩ ∧
    o.world.pickup_peep player = none ∧
    getPeep env o.world a = some (env.PickupAbort (w.pickup_peep_old_x player) pa) ∧
    o.calls = [PeepCall.PickupAbort a (w.pickup_peep_old_x player)] := by
  intro o
  have ho : o = _ := Execute_pickup_same env player w a loc pa hA hHeld
  refine ⟨ho, ?_⟩
  rw [ho, Execute_cancel_some env player a a _ w pa hA hHeld,
    peepData_of_getPeep env w a pa pa hA]
  refine ⟨rfl, rfl, ?_, ?_, rfl⟩
  · simp [network_set_pickup_peep]
  · rw [getPeep_set_pickup]
    exact getPeep_setPeep_same env w a pa _ hA

/-- C2 (amended) at the sample world: player 0 holds peep 2 and asks to pick it up
again. -/
theorem C2_pickup_of_held_peep_cancels_witness :
    (PeepPickupAction.Execute sampleEnv 0 ⟨PeepPickupType.Pickup, 2, ⟨0, 0, 0⟩⟩
        sampleHolding2).calls = [PeepCall.PickupAbort 2 300] :=
  have h := C2_pickup_of_held_peep_cancels sampleEnv 0 sampleHolding2 2 ⟨0, 0, 0⟩
    ⟨-32768, 400, 32, 1⟩ sampleHolding2_held sampleHolding2_peep2
  by rw [h.2.2.2.2.2, sampleHolding2_old_x]

theorem setPeep_same (env : PeepEnv) (w : World) (id : Nat) (p : Peep)
    (h : getPeep env w id = some p) : setPeep w id p = w := by
  have hs : (fun i => if i = id then (w.sprites id).map (fun e => { e with peep := p })
      else w.sprites i) = w.sprites := by
    funext i
    by_cases hi : i = id
    · subst hi
      unfold getPeep at h
      cases hs : w.sprites i with
      | none => simp
      | some e =>
        simp only [hs] at h
        split at h
        · simp at h
        · simp only [Option.some.injEq] at h
          simp [← h]
    · simp [hi]
  unfold setPeep
  rw [hs]

/-- C3: for an existing peep `P` (a valid sprite id holding a peep) that the
acting player does not hold, `Query` with type Place returns the failure
`Unknown` with message `STR_ERR_CANT_PLACE_PERSON_HERE`, makes no call to
`Peep::Place` and leaves the world, and so the position of `P`, unchanged. -/
theorem C3_query_place_not_held (env : PeepEnv) (player : Int) (w : World) (P : Nat)
    (loc : CoordsXYZ) (pp : Peep)
    (hRange : P < env.MAX_SPRITES) (hNull : P ≠ env.SPRITE_INDEX_NULL)
    (hP : getPeep env w P = some pp) (hNotHeld : w.pickup_peep player ≠ some P) :
    let o := PeepPickupAction.Query env player ⟨PeepPickupType.Place, P, loc⟩ w
    o.result = MakeResult2 GA_ERROR.UNKNOWN rct_string_id.STR_ERR_CANT_PLACE_PERSON_HERE ∧
    o.result.Error = GA_ERROR.UNKNOWN ∧
    o.result.ErrorMessage = rct_string_id.STR_ERR_CANT_PLACE_PERSON_HERE ∧
    o.calls = [] ∧ o.world = w ∧ getPeep env o.world P = some pp := by
  intro o
  have ho : o = ⟨MakeResult2 GA_ERROR.UNKNOWN rct_string_id.STR_ERR_CANT_PLACE_PERSON_HERE,
      w, []⟩ := by
    show PeepPickupAction.Query env player ⟨PeepPickupType.Place, P, loc⟩ w = _
    rw [PeepPickupAction.Query]
    simp [hP, hNotHeld, hNull, hRange, PeepPickupType.Place, PeepPickupType.Pickup,
      PeepPickupType.Cancel]
  rw [ho]
  exact ⟨rfl, rfl, rfl, rfl, rfl, hP⟩

/-- C3 at the sample world: player 0 holds peep 2 and queries placing peep 1. -/
theorem C3_query_place_not_held_witness :
    (PeepPickupAction.Query sampleEnv 0 ⟨PeepPickupType.Place, 1, ⟨64, 96, 16⟩⟩
        sampleHolding2).result.Error = GA_ERROR.UNKNOWN ∧
    (PeepPickupAction.Query sampleEnv 0 ⟨PeepPickupType.Place, 1, ⟨64, 96, 16⟩⟩
        sampleHolding2).calls = [] :=
  have h := C3_query_place_not_held sampleEnv 0 sampleHolding2 1 ⟨64, 96, 16⟩ ⟨100, 200, 16, 0⟩
    (by decide) (by decide) sampleHolding2_peep1 (by rw [sampleHolding2_held]; decide)
  ⟨h.2.1, h.2.2.2.1⟩

/-- The outcome of `Execute` of a Place action on an existing peep. -/
theorem Execute_place (env : PeepEnv) (player : Int) (w : World) (P : Nat) (loc : CoordsXYZ)
    (pp : Peep) (hP : getPeep env w P = some pp) :
    PeepPickupAction.Execute env player ⟨PeepPickupType.Place, P, loc⟩ w =
      (let location : TileCoordsXYZ := ⟨loc.x.tdiv 32, loc.y.tdiv 32, loc.z⟩
       let placed := Peep.Place env pp location true
       if ¬ placed.1 then
         ⟨MakeResult3 GA_ERROR.UNKNOWN rct_string_id.STR_ERR_CANT_PLACE_PERSON_HERE
            env.gGameCommandErrorText, setPeep w P placed.2,
            [PeepCall.Place P location true]⟩
       else
         ⟨{ MakeResult with Position := some loc }, setPeep w P placed.2,
            [PeepCall.Place P location true]⟩) := by
  rw [PeepPickupAction.Execute]
  simp [hP, PeepPickupType.Place, PeepPickupType.Pickup, PeepPickupType.Cancel]

/-- C4 as stated fails: in the sample world player 0 holds nothing, yet `Execute`
with type Place and target peep 1 returns Ok and moves the peep to the centre of
tile (2, 3). -/
theorem C4_counterexample :
    sampleWorld.pickup_peep 0 ≠ some 1 ∧
    getPeep sampleEnv sampleWorld 1 = some ⟨100, 200, 16, 0⟩ ∧
    (PeepPickupAction.Execute sampleEnv 0 ⟨PeepPickupType.Place, 1, ⟨64, 96, 16⟩⟩
        sampleWorld).result.Error = GA_ERROR.OK ∧
    getPeep sampleEnv (PeepPickupAction.Execute sampleEnv 0
        ⟨PeepPickupType.Place, 1, ⟨64, 96, 16⟩⟩ sampleWorld).world 1
      = some ⟨80, 112, 16, 2⟩ := by
  have hx : (64 : Int).tdiv 32 = 2 := by decide
  have hy : (96 : Int).tdiv 32 = 3 := by decide
  refine ⟨by simp [sampleWorld], sampleWorld_peep1, ?_, ?_⟩
  · rw [Execute_place sampleEnv 0 sampleWorld 1 _ _ sampleWorld_peep1]
    simp [Peep.Place, sampleEnv, hx, hy, MakeResult]
  · rw [Execute_place sampleEnv 0 sampleWorld 1 _ _ sampleWorld_peep1]
    simp [Peep.Place, sampleEnv, hx, hy, getPeep, setPeep, sampleWorld]

/-- C4 (amended): `Execute` with type Place does not look at who holds the target.
For every existing peep `P`, held by the acting player or not, it calls
`Peep::Place` with `apply = true`; when the placement test rejects the tile it
returns the failure `Unknown` and leaves the world, and so the position of `P`,
unchanged; when the test accepts the tile it returns Ok with the requested
position and `P` is the placed peep. -/
theorem C4_execute_place_ignores_holder (env : PeepEnv) (player : Int) (w : World) (P : Nat)
    (loc : CoordsXYZ) (pp : Peep) (hP : getPeep env w P = some pp) :
    let o := PeepPickupAction.Execute env player ⟨PeepPickupType.Place, P, loc⟩ w
    let location : TileCoordsXYZ := ⟨loc.x.tdiv 32, loc.y.tdiv 32, loc.z⟩
    o.calls = [PeepCall.Place P location true] ∧
    (env.PlaceTest location pp = false →
      o.result = MakeResult3 GA_ERROR.UNKNOWN rct_string_id.STR_ERR_CANT_PLACE_PERSON_HERE
        env.gGameCommandErrorText ∧ o.world = w ∧ getPeep env o.world P = some pp) ∧
    (env.PlaceTest location pp = true →
      o.result.Error = GA_ERROR.OK ∧ o.result.Position = some loc ∧
      getPeep env o.world P = some (env.PlaceApply location pp)) := by
  intro o location
  have ho : o = _ := Execute_place env player w P loc pp hP
  rw [ho]
  refine ⟨?_, ?_, ?_⟩
  · simp only []
    split <;> rfl
  · intro ht
    simp [Peep.Place, ht, location, setPeep_same env w P pp hP, hP]
  · intro ht
    simp [Peep.Place, ht, location, MakeResult, getPeep_setPeep_same env w P pp _ hP]

/-- C4 (amended) at the sample world: placing peep 1 on a tile with a negative
coordinate fails and leaves it where it was. -/
theorem C4_execute_place_ignores_holder_witness :
    getPeep sampleEnv (PeepPickupAction.Execute sampleEnv 0
        ⟨PeepPickupType.Place, 1, ⟨-64, 96, 16⟩⟩ sampleWorld).world 1
      = some ⟨100, 200, 16, 0⟩ :=
  ((C4_execute_place_ignores_holder sampleEnv 0 sampleWorld 1 ⟨-64, 96, 16⟩ ⟨100, 200, 16, 0⟩
    sampleWorld_peep1).2.1 (by decide)).2.2

/-- C6: `Query` returns the failure `InvalidParameters` whenever the sprite id is
out of range (`>= MAX_SPRITES`) or `SPRITE_INDEX_NULL`, whenever no entity exists
at that id or the entity is not a peep, and whenever the type is none of Pickup,
Cancel and Place; in particular the default-constructed action always fails
`Query` with `InvalidParameters`. -/
theorem C6_query_invalid_parameters (env : PeepEnv) (player : Int) (w : World) :
    (∀ a : PeepPickupAction,
      (a._spriteId ≥ env.MAX_SPRITES ∨ a._spriteId = env.SPRITE_INDEX_NULL ∨
        getPeep env w a._spriteId = none ∨
        (a._type ≠ PeepPickupType.Pickup ∧ a._type ≠ PeepPickupType.Cancel ∧
          a._type ≠ PeepPickupType.Place)) →
      (PeepPickupAction.Query env player a w).result.Error = GA_ERROR.INVALID_PARAMETERS ∧
      (PeepPickupAction.Query env player a w).result.ErrorMessage
        = rct_string_id.STR_ERR_CANT_PLACE_PERSON_HERE) ∧
    (∀ loc : CoordsXYZ,
      (PeepPickupAction.Query env player (PeepPickupAction.default env loc) w).result.Error
        = GA_ERROR.INVALID_PARAMETERS) := by
  constructor
  · intro a h
    rw [PeepPickupAction.Query]
    by_cases h1 : a._spriteId ≥ env.MAX_SPRITES ∨ a._spriteId = env.SPRITE_INDEX_NULL
    · rw [if_pos h1]; exact ⟨rfl, rfl⟩
    · rw [if_neg h1]
      cases hg : getPeep env w a._spriteId with
      | none => exact ⟨rfl, rfl⟩
      | some peep =>
        have h3 : a._type ≠ PeepPickupType.Pickup ∧ a._type ≠ PeepPickupType.Cancel ∧
            a._type ≠ PeepPickupType.Place := by
          rcases h with h | h | h | h
          · exact absurd (Or.inl h) h1
          · exact absurd (Or.inr h) h1
          · rw [hg] at h; cases h
          · exact h
        simp only [dif_neg h3.1, if_neg h3.2.1, if_neg h3.2.2]
        exact ⟨rfl, rfl⟩
  · intro loc
    rw [PeepPickupAction.Query]
    simp [PeepPickupAction.default, invalidPeepResult, MakeResult2]

/-- C6 at the sample world: a Pickup action whose sprite id is 20000, beyond
`MAX_SPRITES`. -/
theorem C6_query_invalid_parameters_witness :
    (PeepPickupAction.Query sampleEnv 0 ⟨PeepPickupType.Pickup, 20000, ⟨0, 0, 0⟩⟩
        sampleWorld).result.Error = GA_ERROR.INVALID_PARAMETERS :=
  ((C6_query_invalid_parameters sampleEnv 0 sampleWorld).1
    ⟨PeepPickupType.Pickup, 20000, ⟨0, 0, 0⟩⟩ (Or.inl (by decide))).1

/-- C7: for every sprite id at which `GET_PEEP` finds no peep (no entity, or an
entity that is not a peep; ids beyond `MAX_SPRITES` and `SPRITE_INDEX_NULL`
included) and every pickup type, `Execute` returns `InvalidParameters`, makes no
call on any peep and leaves the whole world unchanged. -/
theorem C7_execute_revalidates_target (env : PeepEnv) (player : Int) (a : PeepPickupAction)
    (w : World) (h : getPeep env w a._spriteId = none) :
    (PeepPickupAction.Execute env player a w).result.Error = GA_ERROR.INVALID_PARAMETERS ∧
    (PeepPickupAction.Execute env player a w).world = w ∧
    (PeepPickupAction.Execute env player a w).calls = [] := by
  rw [PeepPickupAction.Execute, h]
  exact ⟨rfl, rfl, rfl⟩

/-- C7 at the sample world: a Cancel action naming sprite id 65535
(`SPRITE_INDEX_NULL`) while player 0 holds peep 2. -/
theorem C7_execute_revalidates_target_witness :
    (PeepPickupAction.Execute sampleEnv 0 ⟨PeepPickupType.Cancel, 65535, ⟨0, 0, 0⟩⟩
        sampleHolding2).world = sampleHolding2 :=
  (C7_execute_revalidates_target sampleEnv 0 ⟨PeepPickupType.Cancel, 65535, ⟨0, 0, 0⟩⟩
    sampleHolding2 (by rw [sampleHolding2_eq]; rfl)).2.1

/-- The outcome of `Query` of a Cancel action leaves the world as it is. -/
theorem Query_cancel_world (env : PeepEnv) (player : Int) (id : Nat) (loc : CoordsXYZ)
    (w : World) :
    (PeepPickupAction.Query env player ⟨PeepPickupType.Cancel, id, loc⟩ w).world = w := by
  rw [PeepPickupAction.Query]
  simp only [PeepPickupType.Cancel, PeepPickupType.Pickup]
  split
  · rfl
  · split
    · rfl
    · simp

/-- C8: `Query` never mutates state.  For every world, player and action (Pickup,
Cancel, Place or an invalid type) the world after `Query` is the world before
it: the held-peep record and recorded old-x of every player and every entity
of the sprite list are the same, also when `Query` issues the nested Cancel query
for an already held peep. -/
theorem C8_query_is_read_only (env : PeepEnv) (player : Int) (a : PeepPickupAction)
    (w : World) :
    (PeepPickupAction.Query env player a w).world = w := by
  rw [PeepPickupAction.Query]
  split
  · rfl
  · cases hg : getPeep env w a._spriteId with
    | none => rfl
    | some peep =>
      simp only []
      split
      · split
        · rfl
        · cases hp : w.pickup_peep player with
          | none => rfl
          | some existing =>
            simp only [QueryNested_eq]
            split <;> exact Query_cancel_world env player existing _ w
      · split
        · rfl
        · split
          · split
            · rfl
            · have hs : setPeep w a._spriteId
                  (Peep.Place env peep ⟨a._loc.x.tdiv 32, a._loc.y.tdiv 32, a._loc.z⟩ false).2
                  = w := by
                have : (Peep.Place env peep
                    ⟨a._loc.x.tdiv 32, a._loc.y.tdiv 32, a._loc.z⟩ false).2 = peep := by
                  unfold Peep.Place; split <;> simp
                rw [this]
                exact setPeep_same env w a._spriteId peep hg
              split <;> exact hs
          · rfl

/-! ### The exclusive-pickup invariant -/

theorem isSome_getPeep_setPeep (env : PeepEnv) (w : World) (id : Nat) (q : Peep) (i : Nat) :
    (getPeep env (setPeep w id q) i).isSome = (getPeep env w i).isSome := by
  by_cases hi : i = id
  · subst hi
    unfold getPeep setPeep
    cases hs : w.sprites i with
    | none => simp
    | some e =>
      by_cases hk : e.sprite_identifier = env.SPRITE_IDENTIFIER_PEEP <;> simp [hk]
  · rw [getPeep_setPeep_other env w id i q hi]

theorem getPeep_tool (env : PeepEnv) (w : World) (c : Prop) [Decidable c] (i : Nat) :
    getPeep env (if c then { w with tool_active := false } else w) i = getPeep env w i := by
  split <;> rfl

theorem pickup_peep_tool (w : World) (c : Prop) [Decidable c] :
    (if c then { w with tool_active := false } else w).pickup_peep = w.pickup_peep := by
  split <;> rfl

/-- The outcome of `Execute` of an action whose type is none of Pickup, Cancel, Place. -/
theorem Execute_bad_type (env : PeepEnv) (player : Int) (a : PeepPickupAction) (w : World)
    (h0 : a._type ≠ PeepPickupType.Pickup) (h1 : a._type ≠ PeepPickupType.Cancel)
    (h2 : a._type ≠ PeepPickupType.Place) :
    PeepPickupAction.Execute env player a w = ⟨invalidPeepResult, w, []⟩ := by
  rw [PeepPickupAction.Execute]
  cases hg : getPeep env w a._spriteId with
  | none => rfl
  | some peep => simp only [dif_neg h0, if_neg h1, if_neg h2]

/-- The shape of every `Execute` outcome: entity kinds and the records of other
players are kept, and the calls made and the acting player's record are one of
five combinations. -/
theorem Execute_shape (env : PeepEnv) (q : Int) (a : PeepPickupAction) (w : World) :
    (∀ i, (getPeep env (PeepPickupAction.Execute env q a w).world i).isSome
      = (getPeep env w i).isSome) ∧
    (∀ p, p ≠ q → (PeepPickupAction.Execute env q a w).world.pickup_peep p = w.pickup_peep p) ∧
    (((PeepPickupAction.Execute env q a w).calls = [] ∧
        (PeepPickupAction.Execute env q a w).world.pickup_peep q = w.pickup_peep q) ∨
     (∃ l ap, (PeepPickupAction.Execute env q a w).calls = [PeepCall.Place a._spriteId l ap] ∧
        (PeepPickupAction.Execute env q a w).world.pickup_peep q = w.pickup_peep q) ∨
     (∃ b x, w.pickup_peep q = some b ∧
        (PeepPickupAction.Execute env q a w).calls = [PeepCall.PickupAbort b x] ∧
        (PeepPickupAction.Execute env q a w).world.pickup_peep q = none) ∨
     ((PeepPickupAction.Execute env q a w).calls = [PeepCall.Pickup a._spriteId] ∧
        (∀ b, w.pickup_peep q = some b → getPeep env w b = none) ∧
        (PeepPickupAction.Execute env q a w).world.pickup_peep q = some a._spriteId ∧
        (getPeep env w a._spriteId).isSome = true) ∨
     (∃ b x, w.pickup_peep q = some b ∧
        (PeepPickupAction.Execute env q a w).calls
          = [PeepCall.PickupAbort b x, PeepCall.Pickup a._spriteId] ∧
        (PeepPickupAction.Execute env q a w).world.pickup_peep q = some a._spriteId ∧
        (getPeep env w a._spriteId).isSome = true)) := by
  obtain ⟨t, id, loc⟩ := a
  cases hg : getPeep env w id with
  | none =>
    rw [Execute_no_peep env q ⟨t, id, loc⟩ w hg]
    exact ⟨fun _ => rfl, fun _ _ => rfl, Or.inl ⟨rfl, rfl⟩⟩
  | some pa =>
    by_cases ht0 : t = PeepPickupType.Pickup
    · subst ht0
      cases hh : w.pickup_peep q with
      | none =>
        rw [Execute_pickup_none env q w id loc pa hg hh]
        refine ⟨fun i => ?_, fun p hp => ?_, Or.inr (Or.inr (Or.inr (Or.inl ⟨rfl, ?_, ?_, ?_⟩)))⟩
        · simp only [isSome_getPeep_setPeep, getPeep_set_old_x, getPeep_set_pickup]
        · simp [setPeep, network_set_pickup_peep_old_x, network_set_pickup_peep, hp]
        · intro b hb; simp at hb
        · simp [setPeep, network_set_pickup_peep_old_x, network_set_pickup_peep]
        · simp
      | some b =>
        by_cases hb : b = id
        · subst hb
          rw [Execute_pickup_same env q w b loc pa hg hh,
            Execute_cancel_some env q b b _ w pa hg hh]
          refine ⟨fun i => ?_, fun p hp => ?_, Or.inr (Or.inr (Or.inl ⟨b, _, rfl, rfl, ?_⟩))⟩
          · simp only [isSome_getPeep_setPeep, getPeep_set_pickup]
          · simp [setPeep, network_set_pickup_peep, hp, hh]
          · simp [network_set_pickup_peep]
        · rw [Execute_pickup_other env q w id b loc pa hg hh (Ne.symm hb)]
          cases hgb : getPeep env w b with
          | none =>
            rw [Execute_no_peep env q ⟨PeepPickupType.Cancel, b, _⟩ w hgb]
            refine ⟨fun i => ?_, fun p hp => ?_,
              Or.inr (Or.inr (Or.inr (Or.inl ⟨rfl, ?_, ?_, ?_⟩)))⟩
            · simp only [isSome_getPeep_setPeep, getPeep_set_old_x, getPeep_set_pickup,
                getPeep_tool]
            · simp [setPeep, network_set_pickup_peep_old_x, network_set_pickup_peep, hp,
                pickup_peep_tool]
            · intro b' hb'
              cases hb'
              exact hgb
            · simp [setPeep, network_set_pickup_peep_old_x, network_set_pickup_peep]
            · simp
          | some pb =>
            rw [Execute_cancel_some env q b b _ w pb hgb hh]
            refine ⟨fun i => ?_, fun p hp => ?_,
              Or.inr (Or.inr (Or.inr (Or.inr ⟨b, _, rfl, rfl, ?_, ?_⟩)))⟩
            · simp only [isSome_getPeep_setPeep, getPeep_set_old_x, getPeep_set_pickup,
                getPeep_tool]
            · by_cases hc : q = w.current_player_id
              · subst hc
                simp [setPeep, network_set_pickup_peep_old_x, network_set_pickup_peep, hp]
              · simp [setPeep, network_set_pickup_peep_old_x, network_set_pickup_peep, hp, hc]
            · simp [setPeep, network_set_pickup_peep_old_x, network_set_pickup_peep]
            · simp
    · by_cases ht1 : t = PeepPickupType.Cancel
      · subst ht1
        cases hh : w.pickup_peep q with
        | none =>
          rw [Execute_cancel_none env q id loc w pa hg hh]
          refine ⟨fun i => ?_, fun p hp => ?_, Or.inl ⟨rfl, ?_⟩⟩
          · simp only [getPeep_set_pickup]
          · simp [network_set_pickup_peep, hp]
          · simp [network_set_pickup_peep, hh]
        | some b =>
          rw [Execute_cancel_some env q id b loc w pa hg hh]
          refine ⟨fun i => ?_, fun p hp => ?_, Or.inr (Or.inr (Or.inl ⟨b, _, rfl, rfl, ?_⟩))⟩
          · simp only [isSome_getPeep_setPeep, getPeep_set_pickup]
          · simp [setPeep, network_set_pickup_peep, hp]
          · simp [network_set_pickup_peep]
      · by_cases ht2 : t = PeepPickupType.Place
        · subst ht2
          rw [Execute_place env q w id loc pa hg]
          simp only []
          split
          · exact ⟨fun i => isSome_getPeep_setPeep env w id _ i, fun _ _ => rfl,
              Or.inr (Or.inl ⟨_, _, rfl, rfl⟩)⟩
          · exact ⟨fun i => isSome_getPeep_setPeep env w id _ i, fun _ _ => rfl,
              Or.inr (Or.inl ⟨_, _, rfl, rfl⟩)⟩
        · rw [Execute_bad_type env q ⟨t, id, loc⟩ w ht0 ht1 ht2]
          exact ⟨fun _ => rfl, fun _ _ => rfl, Or.inl ⟨rfl, rfl⟩⟩

theorem PickupInv_step (env : PeepEnv) (s : Sys) (pa : Int × PeepPickupAction)
    (hInv : PickupInv env s) : PickupInv env (execStep env s pa) := by
  obtain ⟨q, a⟩ := pa
  obtain ⟨hKind, hOther, hShape⟩ := Execute_shape env q a s.world
  intro p i h
  simp only [execStep, pickedFor, List.foldl_append] at h
  change List.foldl (pickedStep p i) (pickedFor p i s.log) _ = true at h
  simp only [execStep]
  rw [hKind]
  rcases hShape with ⟨hc, hr⟩ | ⟨l, ap, hc, hr⟩ | ⟨b, x, hb, hc, hr⟩ | ⟨hc, hb, hr, hp⟩ |
    ⟨b, x, hb, hc, hr, hp⟩
  · rw [hc] at h
    simp only [List.map_nil, List.foldl_nil] at h
    obtain ⟨h1, h2⟩ := hInv p i h
    refine ⟨?_, h2⟩
    by_cases hpq : p = q
    · subst hpq; rw [hr]; exact h1
    · rw [hOther p hpq]; exact h1
  · rw [hc] at h
    simp only [List.map_cons, List.map_nil, List.foldl_cons, List.foldl_nil, pickedStep] at h
    obtain ⟨h1, h2⟩ := hInv p i h
    refine ⟨?_, h2⟩
    by_cases hpq : p = q
    · subst hpq; rw [hr]; exact h1
    · rw [hOther p hpq]; exact h1
  · rw [hc] at h
    simp only [List.map_cons, List.map_nil, List.foldl_cons, List.foldl_nil, pickedStep] at h
    by_cases hbi : b = i
    · simp [hbi] at h
    · rw [if_neg hbi] at h
      obtain ⟨h1, h2⟩ := hInv p i h
      refine ⟨?_, h2⟩
      by_cases hpq : p = q
      · subst hpq
        rw [hb] at h1
        exact absurd (Option.some.inj h1) hbi
      · rw [hOther p hpq]; exact h1
  · rw [hc] at h
    simp only [List.map_cons, List.map_nil, List.foldl_cons, List.foldl_nil, pickedStep] at h
    by_cases hqi : q = p ∧ a._spriteId = i
    · obtain ⟨hq, hi⟩ := hqi
      subst hq; subst hi
      exact ⟨hr, hp⟩
    · rw [if_neg hqi] at h
      obtain ⟨h1, h2⟩ := hInv p i h
      refine ⟨?_, h2⟩
      by_cases hpq : p = q
      · subst hpq
        rw [hb i h1] at h2
        simp at h2
      · rw [hOther p hpq]; exact h1
  · rw [hc] at h
    simp only [List.map_cons, List.map_nil, List.foldl_cons, List.foldl_nil, pickedStep] at h
    by_cases hqi : q = p ∧ a._spriteId = i
    · obtain ⟨hq, hi⟩ := hqi
      subst hq; subst hi
      exact ⟨hr, hp⟩
    · rw [if_neg hqi] at h
      by_cases hbi : b = i
      · simp [hbi] at h
      · rw [if_neg hbi] at h
        obtain ⟨h1, h2⟩ := hInv p i h
        refine ⟨?_, h2⟩
        by_cases hpq : p = q
        · subst hpq
          rw [hb] at h1
          exact absurd (Option.some.inj h1) hbi
        · rw [hOther p hpq]; exact h1

theorem PickupInv_run (env : PeepEnv) (actions : List (Int × PeepPickupAction)) :
    ∀ s : Sys, PickupInv env s → PickupInv env (execRun env s actions) := by
  induction actions with
  | nil => intro s h; exact h
  | cons pa rest ih =>
    intro s h
    exact ih (execStep env s pa) (PickupInv_step env s pa h)

/-- The converse invariant: the peep recorded as held by a player was picked up
by a `Pickup` call of that player. -/
theorem HeldInv_step (env : PeepEnv) (s : Sys) (pa : Int × PeepPickupAction)
    (hInv : ∀ p i, s.world.pickup_peep p = some i → (p, PeepCall.Pickup i) ∈ s.log) :
    ∀ p i, (execStep env s pa).world.pickup_peep p = some i →
      (p, PeepCall.Pickup i) ∈ (execStep env s pa).log := by
  obtain ⟨q, a⟩ := pa
  obtain ⟨_, hOther, hShape⟩ := Execute_shape env q a s.world
  intro p i h
  simp only [execStep] at h ⊢
  rw [List.mem_append]
  by_cases hpq : p = q
  · subst hpq
    rcases hShape with ⟨_, hr⟩ | ⟨l, ap, _, hr⟩ | ⟨b, x, _, _, hr⟩ | ⟨hc, _, hr, _⟩ |
      ⟨b, x, _, hc, hr, _⟩
    · rw [hr] at h; exact Or.inl (hInv p i h)
    · rw [hr] at h; exact Or.inl (hInv p i h)
    · rw [hr] at h; cases h
    · rw [hr] at h
      cases h
      exact Or.inr (by rw [hc]; simp)
    · rw [hr] at h
      cases h
      exact Or.inr (by rw [hc]; simp)
  · rw [hOther p hpq] at h
    exact Or.inl (hInv p i h)

theorem HeldInv_run (env : PeepEnv) (actions : List (Int × PeepPickupAction)) :
    ∀ s : Sys, (∀ p i, s.world.pickup_peep p = some i → (p, PeepCall.Pickup i) ∈ s.log) →
      ∀ p i, (execRun env s actions).world.pickup_peep p = some i →
        (p, PeepCall.Pickup i) ∈ (execRun env s actions).log := by
  induction actions with
  | nil => intro s h; exact h
  | cons pa rest ih =>
    intro s h
    exact ih (execStep env s pa) (HeldInv_step env s pa h)

/-- C5: in every state reached from a state where nobody holds a peep (and no
peep-method call has been made yet) by any sequence of `Execute` calls of any
players, types and targets, each player has at most one peep in picked-up state
on that player's behalf, and that peep is the one recorded as held by the
player: a Pickup of a new peep has first aborted the pickup of the one held
before.  Conversely the peep recorded as held by a player is one that
player's own Pickup call picked up. -/
theorem C5_exclusive_pickup (env : PeepEnv) (w0 : World)
    (hStart : ∀ p, w0.pickup_peep p = none)
    (actions : List (Int × PeepPickupAction)) (p : Int) :
    (∀ i, pickedFor p i (execRun env ⟨w0, []⟩ actions).log = true →
      (execRun env ⟨w0, []⟩ actions).world.pickup_peep p = some i) ∧
    (∀ i j, pickedFor p i (execRun env ⟨w0, []⟩ actions).log = true →
      pickedFor p j (execRun env ⟨w0, []⟩ actions).log = true → i = j) ∧
    (∀ i, (execRun env ⟨w0, []⟩ actions).world.pickup_peep p = some i →
      (p, PeepCall.Pickup i) ∈ (execRun env ⟨w0, []⟩ actions).log) := by
  have hInv : PickupInv env (execRun env ⟨w0, []⟩ actions) := by
    apply PickupInv_run
    intro p i h
    simp [pickedFor] at h
  refine ⟨fun i hi => (hInv p i hi).1, fun i j hi hj => ?_, fun i hi => ?_⟩
  · have h1 := (hInv p i hi).1
    have h2 := (hInv p j hj).1
    rw [h1] at h2
    exact Option.some.inj h2
  · refine HeldInv_run env actions ⟨w0, []⟩ ?_ p i hi
    intro p' i' h'
    rw [hStart p'] at h'
    cases h'

theorem sampleActions_log :
    (execRun sampleEnv ⟨sampleWorld, []⟩ sampleActions).log =
      [(0, PeepCall.Pickup 2), (0, PeepCall.PickupAbort 2 300), (0, PeepCall.Pickup 1)] := by
  have h2 : getPeep sampleEnv sampleWorld 2 = some ⟨300, 400, 32, 0⟩ := rfl
  have c1 : (PeepPickupAction.Execute sampleEnv 0 ⟨PeepPickupType.Pickup, 2, ⟨0, 0, 0⟩⟩
      sampleWorld).calls = [PeepCall.Pickup 2] := by
    rw [Execute_pickup_none sampleEnv 0 sampleWorld 2 _ _ h2 rfl]
  have c2 : (PeepPickupAction.Execute sampleEnv 0 ⟨PeepPickupType.Pickup, 1, ⟨0, 0, 0⟩⟩
      sampleHolding2).calls = [PeepCall.PickupAbort 2 300, PeepCall.Pickup 1] := by
    rw [Execute_pickup_other sampleEnv 0 sampleHolding2 1 2 _ _ sampleHolding2_peep1
      sampleHolding2_held (by decide),
      Execute_cancel_some sampleEnv 0 2 2 _ sampleHolding2 _ sampleHolding2_peep2
        sampleHolding2_held, sampleHolding2_old_x]
    rfl
  have w1 : (PeepPickupAction.Execute sampleEnv 0 ⟨PeepPickupType.Pickup, 2, ⟨0, 0, 0⟩⟩
      sampleWorld).world = sampleHolding2 := rfl
  simp only [execRun, sampleActions, List.foldl_cons, List.foldl_nil, execStep, c1, w1, c2]
  rfl

/-- C5 on the sample run: after player 0 has picked up peep 2 and then peep 1,
peep 1 is the one in picked-up state for player 0 and the one recorded as held. -/
theorem C5_exclusive_pickup_witness :
    pickedFor 0 1 (execRun sampleEnv ⟨sampleWorld, []⟩ sampleActions).log = true ∧
    pickedFor 0 2 (execRun sampleEnv ⟨sampleWorld, []⟩ sampleActions).log = false ∧
    (execRun sampleEnv ⟨sampleWorld, []⟩ sampleActions).world.pickup_peep 0 = some 1 :=
  have h1 : pickedFor 0 1 (execRun sampleEnv ⟨sampleWorld, []⟩ sampleActions).log = true := by
    rw [sampleActions_log]; decide
  ⟨h1, by rw [sampleActions_log]; decide,
    (C5_exclusive_pickup sampleEnv sampleWorld (fun _ => rfl) sampleActions 0).1 1 h1⟩

/-! ## Track placement: the claims -/

/-- C9: `TrackPlaceAction::Query` does mutate persisted state.  With the command
flags holding `GAME_COMMAND_FLAG_APPLY`, the query for an on-ride photo section
sets `RIDE_LIFECYCLE_ON_RIDE_PHOTO` and the overall view in the ride record,
removes litter and walls and inserts a track element; with no flag set, the
query for a station piece removes the walls on the two tiles next to the
entrance sides. -/
theorem C9_query_mutates_world :
    (sampleTrackState.rides 0).map (fun r => (r.lifecycle_flags, r.overall_view_x)) = some (0, 255) ∧
    ((TrackPlaceAction.Query sampleTrackEnv sampleTrackEnv.GAME_COMMAND_FLAG_APPLY
        samplePhotoAction sampleTrackState).2.rides 0).map
      (fun r => (r.lifecycle_flags, r.overall_view_x)) = some (0x20, 2) ∧
    (TrackPlaceAction.Query sampleTrackEnv sampleTrackEnv.GAME_COMMAND_FLAG_APPLY
        samplePhotoAction sampleTrackState).2.calls.filter TrackCall.insertsElement =
      [TrackCall.tile_element_insert
        { x := 2, y := 2, base_height := 2, quadrants := 15, clearance_height := 5, type := 8,
          direction := 0, has_chain := false, sequence_index := 0, ride_index := 0,
          track_type := 114, ghost := false, brake_booster_speed := none,
          seat_rotation := some 4, inverted := false, colour_scheme := 0 }] ∧
    (TrackPlaceAction.Query sampleTrackEnv sampleTrackEnv.GAME_COMMAND_FLAG_APPLY
        samplePhotoAction sampleTrackState).2.calls.filter TrackCall.removesElement =
      [TrackCall.footpath_remove_litter 64 64 16,
       TrackCall.wall_remove_intersecting_walls 64 64 2 5 0,
       TrackCall.wall_remove_intersecting_walls 64 64 2 5 2] ∧
    (TrackPlaceAction.Query sampleTrackEnv 0 sampleStationAction sampleTrackState).1
      = QueryReturn.money 350 ∧
    (TrackPlaceAction.Query sampleTrackEnv 0 sampleStationAction
        sampleTrackState).2.calls.filter TrackCall.removesElement =
      [TrackCall.wall_remove_intersecting_walls 64 96 2 5 3,
       TrackCall.wall_remove_intersecting_walls 64 32 2 5 1] := by
  refine ⟨by decide, by decide, by decide, by decide, by decide, by decide⟩

/-- C10: for every origin direction that is not one of the cardinal directions
0 to 3, whatever the state and the other parameters, `Query` returns the failure
`InvalidParameters` by an early return that leaves the state as it was: no
command-position or ground-flag global is written, no call is made, and the
return comes before both walks over the sub-elements of the piece. -/
theorem C10_invalid_direction_rejected (env : TrackEnv) (flags : Nat) (a : TrackPlaceAction)
    (s : TrackState) (hDir : ¬ (0 ≤ a._origin.direction ∧ a._origin.direction < 4)) :
    TrackPlaceAction.QueryBody env flags a s =
      Except.error (failResult s GA_ERROR.INVALID_PARAMETERS rct_string_id.STR_NONE) ∧
    (TrackPlaceAction.Query env flags a s).1 =
      QueryReturn.result (MakeResult2 GA_ERROR.INVALID_PARAMETERS rct_string_id.STR_NONE) ∧
    (MakeResult2 GA_ERROR.INVALID_PARAMETERS rct_string_id.STR_NONE).Error
      = GA_ERROR.INVALID_PARAMETERS ∧
    (TrackPlaceAction.Query env flags a s).2 = s := by
  have hv : direction_valid a._origin.direction = false := by
    simp only [direction_valid, decide_eq_false_iff_not]
    exact hDir
  have hb : TrackPlaceAction.QueryBody env flags a s =
      Except.error (failResult s GA_ERROR.INVALID_PARAMETERS rct_string_id.STR_NONE) := by
    unfold TrackPlaceAction.QueryBody
    cases hr : s.rides a._rideIndex with
    | none => rfl
    | some ride =>
      simp only []
      split
      · rfl
      · cases he : env.get_ride_entry ride.subtype with
        | none => rfl
        | some rideEntry =>
          simp only []
          rw [if_pos (by rw [hv]; decide)]
  refine ⟨hb, ?_, rfl, ?_⟩
  · unfold TrackPlaceAction.Query
    rw [hb]
    rfl
  · unfold TrackPlaceAction.Query
    rw [hb]
    rfl

/-- C10 at the sample state: the on-ride photo section with direction 4. -/
theorem C10_invalid_direction_rejected_witness :
    (TrackPlaceAction.Query sampleTrackEnv 0
        { samplePhotoAction with _origin := ⟨64, 64, 16, 4⟩ } sampleTrackState).1 =
      QueryReturn.result (MakeResult2 GA_ERROR.INVALID_PARAMETERS rct_string_id.STR_NONE) ∧
    (TrackPlaceAction.Query sampleTrackEnv 0
        { samplePhotoAction with _origin := ⟨64, 64, 16, 4⟩ } sampleTrackState).2
      = sampleTrackState :=
  have h := C10_invalid_direction_rejected sampleTrackEnv 0
    { samplePhotoAction with _origin := ⟨64, 64, 16, 4⟩ } sampleTrackState (by decide)
  ⟨h.2.1, h.2.2.2⟩

/-! ## Track placement: `Execute`, the constructor and registration -/

/-- C11: `Query` followed by `Execute` does not give the same cost.  For the valid
sample placement (existing ride, direction 0, owned and clear land) `Query`
returns the cost 350, while `Execute`, whose body is empty, returns no result
at all and leaves the state as it is, for every action and state. -/
theorem C11_execute_returns_nothing :
    (TrackPlaceAction.Query sampleTrackEnv 0 samplePhotoAction sampleTrackState).1
      = QueryReturn.money 350 ∧
    (TrackPlaceAction.Execute sampleTrackEnv 0 samplePhotoAction
      (TrackPlaceAction.Query sampleTrackEnv 0 samplePhotoAction sampleTrackState).2).1 = none ∧
    (∀ (env : TrackEnv) (flags : Nat) (a : TrackPlaceAction) (s : TrackState),
      TrackPlaceAction.Execute env flags a s = (none, s)) := by
  refine ⟨by decide, rfl, fun _ _ _ _ => rfl⟩

/-- C12: a `TrackPlaceAction` constructed from (rideIndex 3, trackType 114, origin,
brakeSpeed 5, colour 2, seatRotation 4, flags 1) does not hold those values: the
ride index, track type, brake speed and seat rotation are whatever the storage
held before (here -1), whatever arguments are passed; only the origin, the
colour and the flags are the arguments. -/
theorem C12_constructor_self_initialises :
    TrackPlaceAction.construct ⟨-1, -1, ⟨0, 0, 0, 0⟩, -1, -1, -1, 0⟩ 3 114 ⟨64, 64, 16, 0⟩ 5 2 4 1
      = ⟨-1, -1, ⟨64, 64, 16, 0⟩, -1, 2, -1, 1⟩ ∧
    (∀ (u : TrackPlaceAction) (rideIndex trackType : Int) (origin : CoordsXYZD)
        (brakeSpeed colour seatRotation : Int) (flags : Nat),
      (TrackPlaceAction.construct u rideIndex trackType origin brakeSpeed colour seatRotation
          flags)._rideIndex = u._rideIndex ∧
      (TrackPlaceAction.construct u rideIndex trackType origin brakeSpeed colour seatRotation
          flags)._trackType = u._trackType ∧
      (TrackPlaceAction.construct u rideIndex trackType origin brakeSpeed colour seatRotation
          flags)._brakeSpeed = u._brakeSpeed ∧
      (TrackPlaceAction.construct u rideIndex trackType origin brakeSpeed colour seatRotation
          flags)._seatRotation = u._seatRotation) := by
  refine ⟨rfl, fun _ _ _ _ _ _ _ _ => ⟨rfl, rfl, rfl, rfl⟩⟩

/-- C14: `GameActions::Register()` registers 26 action types, none of them twice,
but neither `PeepPickupAction` nor `TrackPlaceAction` is among them. -/
theorem C14_registration_misses_actions :
    GameActions.Register.Nodup ∧ GameActions.Register.length = 26 ∧
    ActionType.PeepPickupAction ∉ GameActions.Register ∧
    ActionType.TrackPlaceAction ∉ GameActions.Register := by
  refine ⟨by decide, by decide, by decide, by decide⟩

/-! ## Path graph: the claims -/

/-- C19: `GetHash` does collide inside the map.  Whatever `COORDS_Z_STEP` is, tile
(0, 32) and tile (1, 0) get the same key at every height; with
`COORDS_Z_STEP = 8`, tile (0, 0) at height step 8 and tile (0, 1) at height
step 0 get the same key too.  In the sample world, with three path elements,
`ResetNodes` leaves three nodes but only two entries in the node map. -/
theorem C19_hash_collides :
    (∀ (env : PathEnv) (z : Int), GetHash env ⟨0 * 32, 32 * 32, z⟩ = GetHash env ⟨1 * 32, 0 * 32, z⟩) ∧
    GetHash samplePathEnv ⟨0 * 32, 0 * 32, 8 * 8⟩ = GetHash samplePathEnv ⟨0 * 32, 1 * 32, 0 * 8⟩ ∧
    (ResetNodes samplePathEnv samplePathWorld emptyGraph).nodes.length = 3 ∧
    (ResetNodes samplePathEnv samplePathWorld emptyGraph).nodesMap = [(258, 2), (514, 1)] := by
  refine ⟨fun env z => ?_, by decide, by decide, by decide⟩
  have h1 : ((0 : Int) * 32).tdiv 32 = 0 := by decide
  have h2 : ((32 : Int) * 32).tdiv 32 = 32 := by decide
  have h3 : ((1 : Int) * 32).tdiv 32 = 1 := by decide
  simp only [GetHash, h1, h2, h3]
  congr 2
  ring

/-- C18: in the sample world the flat path elements A on tile (1, 0) and B on tile
(2, 0) are neighbours at the same height with the edges towards each other
open, yet after `InitMapPathing` node A (index 0) has no direct connection at
all, and the one direct connection of node B (index 1) targets node 2, the
path element on tile (0, 32) whose key collides with that of A. -/
theorem C18_adjacent_paths_not_connected :
    (InitMapPathing samplePathEnv samplePathWorld emptyGraph).map
        (fun g => g.nodes.map fun n => (n.loc, n.directConnections)) =
      some [(⟨32, 0, 16⟩, []), (⟨64, 0, 16⟩, [⟨1, some 2⟩]), (⟨0, 1024, 16⟩, [])] ∧
    GetHash samplePathEnv ⟨32, 0, 16⟩ = GetHash samplePathEnv ⟨0, 1024, 16⟩ := by
  refine ⟨by decide, by decide⟩

/-- The builder does not read the old globals: `ResetNodes` clears them. -/
theorem InitMapPathing_old (env : PathEnv) (w : PathWorld) (g g' : PathGraph) :
    InitMapPathing env w g = InitMapPathing env w g' := rfl

/-- C20: running `InitMapPathing` again on an unchanged world gives the graph of
the first run: the same nodes, the same node map and for every node the same
direct and indirect connections, none of them twice. -/
theorem C20_rebuild_is_idempotent (env : PathEnv) (w : PathWorld) (g g1 : PathGraph)
    (h : InitMapPathing env w g = some g1) :
    InitMapPathing env w g1 = some g1 := by
  rw [InitMapPathing_old env w g1 g]
  exact h

/-- C20 at the sample world, starting from empty globals. -/
theorem C20_rebuild_is_idempotent_witness :
    InitMapPathing samplePathEnv samplePathWorld sampleBuiltGraph = some sampleBuiltGraph :=
  C20_rebuild_is_idempotent samplePathEnv samplePathWorld emptyGraph sampleBuiltGraph
    (by decide)

/-! ## Serialisation: the round trip -/

theorem length_encodeBytes (width value : Nat) : (encodeBytes width value).length = width := by
  induction width with
  | zero => rfl
  | succ n ih => simp [encodeBytes, ih]

theorem decodeBytes_encodeBytes (width value : Nat) :
    decodeBytes (encodeBytes width value) = value % 256 ^ width := by
  induction width with
  | zero => simp [encodeBytes, decodeBytes, Nat.mod_one]
  | succ n ih =>
    simp only [encodeBytes, decodeBytes, length_encodeBytes, ih]
    rw [pow_succ, Nat.mod_mul]
    ring

/-- Loading an unsigned field from a stream that starts with its encoding. -/
theorem unsignedField_load (width value field : Nat) (rest : List Nat) :
    DataSerialiser.unsignedField ⟨false, encodeBytes width value ++ rest⟩ width field
      = some (value % 256 ^ width, ⟨false, rest⟩) := by
  have hl := length_encodeBytes width value
  simp only [DataSerialiser.unsignedField, Bool.false_eq_true, if_false, List.length_append, hl]
  rw [if_neg (by omega)]
  rw [List.take_left' hl, List.drop_left' hl, decodeBytes_encodeBytes]

/-- Loading a signed field from a stream that starts with its encoding. -/
theorem signedField_load (width value : Nat) (field : Int) (rest : List Nat) :
    DataSerialiser.signedField ⟨false, encodeBytes width value ++ rest⟩ width field
      = some (toSigned width (value % 256 ^ width), ⟨false, rest⟩) := by
  have hl := length_encodeBytes width value
  simp only [DataSerialiser.signedField, Bool.false_eq_true, if_false, List.length_append, hl]
  rw [if_neg (by omega)]
  rw [List.take_left' hl, List.drop_left' hl, decodeBytes_encodeBytes]

/-- A 32-bit signed value survives the encoding. -/
theorem toSigned_ofSigned_32 (v : Int) (hlo : -2147483648 ≤ v) (hhi : v < 2147483648) :
    toSigned 4 (ofSigned 4 v % 256 ^ 4) = v := by
  have hp : (256 : Nat) ^ 4 = 4294967296 := by norm_num
  simp only [toSigned, ofSigned, hp]
  push_cast
  split <;> omega

/-- C13: for every peep pickup action whose fields fit their C++ types (`uint8_t`
type, `uint32_t` sprite id, 32-bit coordinates, 32-bit base-class flags),
`Serialise` on a saving stream writes the base-class field, then the type byte,
the sprite id and the location triple, in that order, and leaves the action as
it is; the same `Serialise` on a loading stream with these bytes, called on any
other action (the default-constructed one included), ends with the identical
(type, spriteId, loc) and base-class field and with the stream used up. -/
theorem C13_peep_pickup_round_trip (base : GameActionBase) (a : PeepPickupAction)
    (hFlags : base._flags < 4294967296) (hType : a._type < 256)
    (hId : a._spriteId < 4294967296)
    (hx : -2147483648 ≤ a._loc.x ∧ a._loc.x < 2147483648)
    (hy : -2147483648 ≤ a._loc.y ∧ a._loc.y < 2147483648)
    (hz : -2147483648 ≤ a._loc.z ∧ a._loc.z < 2147483648) :
    PeepPickupAction.Serialise base a ⟨true, []⟩
      = some ((base, a), ⟨true, PeepPickupAction.wireBytes base a⟩) ∧
    (∀ (base0 : GameActionBase) (a0 : PeepPickupAction),
      PeepPickupAction.Serialise base0 a0 ⟨false, PeepPickupAction.wireBytes base a⟩
        = some ((base, a), ⟨false, []⟩)) := by
  obtain ⟨flags⟩ := base
  obtain ⟨t, id, ⟨x, y, z⟩⟩ := a
  simp only at hFlags hType hId hx hy hz
  constructor
  · simp [PeepPickupAction.Serialise, GameAction.Serialise, DataSerialiser.unsignedField,
      DataSerialiser.signedField, PeepPickupAction.wireBytes]
  · intro base0 a0
    have h4 : (256 : Nat) ^ 4 = 4294967296 := by norm_num
    have h1 : (256 : Nat) ^ 1 = 256 := by norm_num
    have e1 : flags % 256 ^ 4 = flags := by rw [h4]; exact Nat.mod_eq_of_lt hFlags
    have e2 : t % 256 ^ 1 = t := by rw [h1]; exact Nat.mod_eq_of_lt hType
    have e3 : id % 256 ^ 4 = id := by rw [h4]; exact Nat.mod_eq_of_lt hId
    have ex := toSigned_ofSigned_32 x hx.1 hx.2
    have ey := toSigned_ofSigned_32 y hy.1 hy.2
    have ez := toSigned_ofSigned_32 z hz.1 hz.2
    have hlast : ∀ v : Nat, encodeBytes 4 v = encodeBytes 4 v ++ [] := fun v => by simp
    simp only [PeepPickupAction.Serialise, GameAction.Serialise, PeepPickupAction.wireBytes,
      unsignedField_load, signedField_load, e1, e2, e3, ex, ey]
    rw [hlast (ofSigned 4 z), signedField_load, ez]

/-- C13 for the action (Pickup, sprite 2, location (64, -96, 16)) with flags 0: the
21 bytes written, and the default-constructed action reading them back. -/
theorem C13_peep_pickup_round_trip_witness :
    PeepPickupAction.wireBytes ⟨0⟩ ⟨PeepPickupType.Pickup, 2, ⟨64, -96, 16⟩⟩
      = [0, 0, 0, 0, 0, 0, 0, 0, 2, 0, 0, 0, 64, 255, 255, 255, 160, 0, 0, 0, 16] ∧
    PeepPickupAction.Serialise ⟨7⟩ (PeepPickupAction.default sampleEnv ⟨0, 0, 0⟩)
        ⟨false, PeepPickupAction.wireBytes ⟨0⟩ ⟨PeepPickupType.Pickup, 2, ⟨64, -96, 16⟩⟩⟩
      = some ((⟨0⟩, ⟨PeepPickupType.Pickup, 2, ⟨64, -96, 16⟩⟩), ⟨false, []⟩) :=
  ⟨by decide,
    (C13_peep_pickup_round_trip ⟨0⟩ ⟨PeepPickupType.Pickup, 2, ⟨64, -96, 16⟩⟩ (by decide)
      (by decide) (by decide) (by decide) (by decide) (by decide)).2 ⟨7⟩
      (PeepPickupAction.default sampleEnv ⟨0, 0, 0⟩)⟩

/-! ## Track placement: running `Query` to its end -/

/-- An `if` whose first branch is an early return has gone to its second branch
when the whole has not returned early. -/
theorem ite_error_eq_ok {ε α : Type} {c : Prop} [Decidable c] {e : ε} {x : Except ε α} {y : α}
    (h : (if c then Except.error e else x) = Except.ok y) : ¬ c ∧ x = Except.ok y := by
  by_cases hc : c
  · rw [if_pos hc] at h
    exact Except.noConfusion h
  · rw [if_neg hc] at h
    exact ⟨hc, h⟩

/-- The ride type is not changed by the apply section. -/
theorem applyBlock_type (env : TrackEnv) (flags : Nat) (a : TrackPlaceAction)
    (rideTypeFlags : Nat) (trackBlock : rct_preview_track) (x y baseZ clearanceZ : Int) (bl : Nat)
    (ride : Ride) (s : TrackState) :
    (applyBlock env flags a rideTypeFlags trackBlock x y baseZ clearanceZ bl ride s).1.type
      = ride.type := by
  unfold applyBlock
  lift_lets
  extract_lets s1 ride1 ride2 undefinedView flat properties entranceDirections ride3
  show ride3.type = ride.type
  have h1 : ride1.type = ride.type := by
    simp only [ride1]
    split
    · rfl
    · split
      · split <;> rfl
      · split <;> rfl
  have h2 : ride2.type = ride1.type := by
    simp only [ride2]
    split
    · split
      · split <;> rfl
      · split <;> rfl
    · rfl
  have h3 : ride3.type = ride2.type := by
    simp only [ride3]
    split <;> rfl
  rw [h3, h2, h1]

/-- A sub-element that passes all checks of the second walk leaves in `cost` the
value the clearance test left there plus its support cost, in 32-bit
arithmetic, and keeps the ride type. -/
theorem blockStep_ok (env : TrackEnv) (flags : Nat) (a : TrackPlaceAction)
    (rideEntry : rct_ride_entry) (rideTypeFlags : Nat) (wallEdges : Nat → Nat)
    (trackBlock : rct_preview_track) (blockIndex : Nat) (st st1 : LoopState)
    (h : blockStep env flags a rideEntry rideTypeFlags wallEdges trackBlock blockIndex st
      = Except.ok st1) :
    st1.cost = wrap32 ((blockMid env flags a rideTypeFlags wallEdges trackBlock blockIndex st).2
      + wrap32 (wrap32 ((if supportHeight env flags a rideTypeFlags wallEdges trackBlock
            blockIndex st < 0 then 10
          else supportHeight env flags a rideTypeFlags wallEdges trackBlock blockIndex st).tdiv 2
        * env.RideTrackCosts_support_price st.ride.type) * 5)) ∧
    st1.ride.type = st.ride.type := by
  unfold blockStep at h
  lift_lets at h
  extract_lets ride xy x y bl z s0 baseZ cz0 clearanceZ s1 crossingMode doClear clear src1 sClear
    s2 cost1 s3 s4 bh s5 flatRide trackFlags surfaceW water_height cornerSlope entranceDirections
    addStation station src2 sStation s6 s7 surface ride_height maxHeight sh0 sh cost2 applied at h
  replace h := (ite_error_eq_ok h).2
  replace h := (ite_error_eq_ok h).2
  replace h := (ite_error_eq_ok h).2
  replace h := (ite_error_eq_ok h).2
  replace h := (ite_error_eq_ok h).2
  replace h := (ite_error_eq_ok h).2
  replace h := (ite_error_eq_ok h).2
  replace h := (ite_error_eq_ok h).2
  replace h := (ite_error_eq_ok h).2
  replace h := (ite_error_eq_ok h).2
  by_cases hApply : ¬ hasFlag flags env.GAME_COMMAND_FLAG_APPLY = true
  · rw [if_pos hApply] at h
    injection h with h
    subst h
    exact ⟨rfl, rfl⟩
  · rw [if_neg hApply] at h
    injection h with h
    subst h
    exact ⟨rfl, applyBlock_type env flags a rideTypeFlags trackBlock x y baseZ clearanceZ bl ride s7⟩

theorem ownershipPass_count (env : TrackEnv) (a : TrackPlaceAction) (s : TrackState) :
    ∀ (blocks : List rct_preview_track) (n m : Nat),
      ownershipPass env a s blocks n = Except.ok m → m = n + blocks.length := by
  intro blocks
  induction blocks with
  | nil =>
    intro n m h
    simp only [ownershipPass] at h
    injection h with h
    simp [h]
  | cons tb rest ih =>
    intro n m h
    rw [ownershipPass] at h
    replace h := (ite_error_eq_ok h).2
    have := ih (n + 1) m h
    simp only [List.length_cons]
    omega

/-- The first walk stops with `STR_LAND_NOT_OWNED_BY_PARK` when sandbox mode is off
and some sub-element lies on a tile that is not owned. -/
theorem ownershipPass_not_owned (env : TrackEnv) (a : TrackPlaceAction) (s : TrackState)
    (hSandbox : env.gCheatsSandboxMode = false) :
    ∀ (blocks : List rct_preview_track) (n : Nat) (tb : rct_preview_track), tb ∈ blocks →
      env.map_is_location_owned s.calls
        (rotateOffset a._origin.direction a._origin.x a._origin.y tb.x tb.y).1
        (rotateOffset a._origin.direction a._origin.x a._origin.y tb.x tb.y).2 a._origin.z
        = false →
      ownershipPass env a s blocks n =
        Except.error (failResult s GA_ERROR.DISALLOWED rct_string_id.STR_LAND_NOT_OWNED_BY_PARK) := by
  intro blocks
  induction blocks with
  | nil => intro n tb hm; cases hm
  | cons b rest ih =>
    intro n tb hm hno
    rw [ownershipPass]
    by_cases hb : env.map_is_location_owned s.calls
        (rotateOffset a._origin.direction a._origin.x a._origin.y b.x b.y).1
        (rotateOffset a._origin.direction a._origin.x a._origin.y b.x b.y).2 a._origin.z = true
    · have htb : tb ∈ rest := by
        rcases List.mem_cons.mp hm with h | h
        · subst h
          rw [hb] at hno
          cases hno
        · exact h
      simp only [hb, not_true_eq_false, false_and, if_false]
      exact ih (n + 1) tb htb hno
    · simp only [hb, hSandbox, not_false_eq_true, Bool.false_eq_true, and_self, if_true]

theorem wrap32_add_left (x y : Int) : wrap32 (wrap32 x + y) = wrap32 (x + y) := by
  unfold wrap32; omega

theorem wrap32_add_right (x y : Int) : wrap32 (x + wrap32 y) = wrap32 (x + y) := by
  unfold wrap32; omega

theorem wrap32_mul5 (x : Int) : wrap32 (wrap32 x * 5) = wrap32 (x * 5) := by
  unfold wrap32; omega

theorem wrap32_idem (x : Int) : wrap32 (wrap32 x) = wrap32 x := by
  unfold wrap32; omega

theorem wrap32_congr_add (x y z : Int) (h : wrap32 x = wrap32 y) :
    wrap32 (x + z) = wrap32 (y + z) := by
  unfold wrap32 at h ⊢; omega

/-- The cost left by the second walk is, in 32-bit arithmetic, the cost it started
with plus the clearance and support costs of the specification; the ride type is
kept. -/
theorem blocksPass_cost (env : TrackEnv) (flags : Nat) (a : TrackPlaceAction)
    (rideEntry : rct_ride_entry) (rideTypeFlags : Nat) (wallEdges : Nat → Nat) :
    ∀ (blocks : List rct_preview_track) (blockIndex : Nat) (st stf : LoopState),
      blocksPass env flags a rideEntry rideTypeFlags wallEdges blocks blockIndex st
        = Except.ok stf →
      wrap32 stf.cost = wrap32 (st.cost
        + specBlocksCost env flags a rideEntry rideTypeFlags wallEdges blocks blockIndex st) ∧
      stf.ride.type = st.ride.type := by
  intro blocks
  induction blocks with
  | nil =>
    intro i st stf h
    simp only [blocksPass] at h
    injection h with h
    subst h
    simp [specBlocksCost]
  | cons tb rest ih =>
    intro i st stf h
    rw [blocksPass] at h
    cases hb : blockStep env flags a rideEntry rideTypeFlags wallEdges tb i st with
    | error e =>
      rw [hb] at h
      exact Except.noConfusion h
    | ok st1 =>
      rw [hb] at h
      obtain ⟨hc, ht⟩ := ih (i + 1) st1 stf h
      obtain ⟨hc1, ht1⟩ := blockStep_ok env flags a rideEntry rideTypeFlags wallEdges tb i st st1 hb
      refine ⟨?_, by rw [ht, ht1]⟩
      rw [hc, hc1]
      simp only [specBlocksCost, hb, clearanceAdded, specSupportCost]
      generalize (blockMid env flags a rideTypeFlags wallEdges tb i st).2 = m
      generalize specBlocksCost env flags a rideEntry rideTypeFlags wallEdges rest (i + 1) st1 = R
      generalize (if supportHeight env flags a rideTypeFlags wallEdges tb i st < 0 then 10
          else supportHeight env flags a rideTypeFlags wallEdges tb i st).tdiv 2
        * env.RideTrackCosts_support_price st.ride.type = P
      unfold wrap32
      omega

/-- When the walks of `Query` come to their end, the first walk has counted the
sub-elements, the second walk has passed, and the result is the price. -/
theorem QueryWalks_ok (env : TrackEnv) (flags : Nat) (a : TrackPlaceAction) (ride : Ride)
    (rideEntry : rct_ride_entry) (rideTypeFlags : Nat) (position : CoordsXYZ) (s : TrackState)
    (r : QueryReturn × TrackState)
    (h : TrackPlaceAction.QueryWalks env flags a ride rideEntry rideTypeFlags position s
      = Except.ok r) :
    ∃ st : LoopState,
      blocksPass env flags a rideEntry rideTypeFlags
        (if hasFlag rideTypeFlags env.RIDE_TYPE_FLAG_FLAT_RIDE then
          env.FlatRideTrackSequenceElementAllowedWallEdges a._trackType
         else env.TrackSequenceElementAllowedWallEdges a._trackType)
        (env.get_track_def_from_ride ride a._trackType) 0
        { cost := 0, trackpieceZ := a._origin.z, ride := ride,
          state := s.call (TrackCall.map_check_free_elements_and_reorganise
            (env.get_track_def_from_ride ride a._trackType).length) } = Except.ok st ∧
      r = TrackPlaceAction.QueryPrice env a (hasFlag rideTypeFlags env.RIDE_TYPE_FLAG_FLAT_RIDE)
        position st := by
  unfold TrackPlaceAction.QueryWalks at h
  simp only [] at h
  cases ho : ownershipPass env a s (env.get_track_def_from_ride ride a._trackType) 0 with
  | error e =>
    rw [ho] at h
    exact Except.noConfusion h
  | ok n =>
    rw [ho] at h
    simp only [] at h
    have hn := ownershipPass_count env a s _ 0 n ho
    rw [Nat.zero_add] at hn
    subst hn
    replace h := (ite_error_eq_ok h).2
    replace h := (ite_error_eq_ok h).2
    cases hb : blocksPass env flags a rideEntry rideTypeFlags
        (if hasFlag rideTypeFlags env.RIDE_TYPE_FLAG_FLAT_RIDE then
          env.FlatRideTrackSequenceElementAllowedWallEdges a._trackType
         else env.TrackSequenceElementAllowedWallEdges a._trackType)
        (env.get_track_def_from_ride ride a._trackType) 0
        { cost := 0, trackpieceZ := a._origin.z, ride := ride,
          state := s.call (TrackCall.map_check_free_elements_and_reorganise
            (env.get_track_def_from_ride ride a._trackType).length) } with
    | error e =>
      rw [hb] at h
      exact Except.noConfusion h
    | ok st =>
      rw [hb] at h
      injection h with h
      exact ⟨st, rfl, h.symm⟩

/-- When `Query` comes to its end, the ride and its entry exist, the second walk
has passed from its start state, and the result is the price. -/
theorem QueryBody_ok (env : TrackEnv) (flags : Nat) (a : TrackPlaceAction) (s : TrackState)
    (r : QueryReturn × TrackState)
    (h : TrackPlaceAction.QueryBody env flags a s = Except.ok r) :
    ∃ (ride : Ride) (rideEntry : rct_ride_entry) (st : LoopState),
      s.rides a._rideIndex = some ride ∧ env.get_ride_entry ride.subtype = some rideEntry ∧
      blocksPass env flags a rideEntry (env.RideProperties_flags ride.type)
        (if hasFlag (env.RideProperties_flags ride.type) env.RIDE_TYPE_FLAG_FLAT_RIDE then
          env.FlatRideTrackSequenceElementAllowedWallEdges a._trackType
         else env.TrackSequenceElementAllowedWallEdges a._trackType)
        (env.get_track_def_from_ride ride a._trackType) 0
        (walkStart env a ride (env.get_track_def_from_ride ride a._trackType).length s)
        = Except.ok st ∧
      r = TrackPlaceAction.QueryPrice env a
        (hasFlag (env.RideProperties_flags ride.type) env.RIDE_TYPE_FLAG_FLAT_RIDE)
        ⟨a._origin.x + 16, a._origin.y + 16, a._origin.z⟩ st := by
  unfold TrackPlaceAction.QueryBody at h
  cases hr : s.rides a._rideIndex with
  | none =>
    rw [hr] at h
    exact Except.noConfusion h
  | some ride =>
    rw [hr] at h
    simp only [] at h
    replace h := (ite_error_eq_ok h).2
    cases he : env.get_ride_entry ride.subtype with
    | none =>
      rw [he] at h
      exact Except.noConfusion h
    | some rideEntry =>
      rw [he] at h
      simp only [] at h
      replace h := (ite_error_eq_ok h).2
      unfold TrackPlaceAction.QueryRules at h
      simp only [] at h
      replace h := (ite_error_eq_ok h).2
      replace h := (ite_error_eq_ok h).2
      replace h := (ite_error_eq_ok h).2
      replace h := (ite_error_eq_ok h).2
      replace h := (ite_error_eq_ok h).2
      obtain ⟨st, hst, hrr⟩ := QueryWalks_ok env flags a ride rideEntry _ _ _ r h
      exact ⟨ride, rideEntry, st, rfl, he, hst, hrr⟩

/-- C16: whenever `Query` runs to its end with the park's no-money flag set, the
cost it returns is zero, whatever the ride type, the track type, the support
heights and the cost the clearance tests added. -/
theorem C16_no_money_costs_nothing (env : TrackEnv) (flags : Nat) (a : TrackPlaceAction)
    (s : TrackState) (r : QueryReturn × TrackState)
    (hEnd : TrackPlaceAction.QueryBody env flags a s = Except.ok r)
    (hNoMoney : hasFlag env.gParkFlags env.PARK_FLAGS_NO_MONEY = true) :
    r.1 = QueryReturn.money 0 ∧
    (TrackPlaceAction.Query env flags a s).1 = QueryReturn.money 0 := by
  obtain ⟨ride, rideEntry, st, _, _, _, hr⟩ := QueryBody_ok env flags a s r hEnd
  have h1 : r.1 = QueryReturn.money 0 := by
    rw [hr]
    unfold TrackPlaceAction.QueryPrice
    simp only [hNoMoney, if_true]
  refine ⟨h1, ?_⟩
  unfold TrackPlaceAction.Query
  rw [hEnd]
  exact h1

/-- C16 at the sample placement with the no-money flag set: `Query` runs to its end
and returns the cost 0 (350 with money). -/
theorem C16_no_money_costs_nothing_witness :
    TrackPlaceAction.QueryBody sampleTrackEnvNoMoney 0 samplePhotoAction sampleTrackState
      = Except.ok (TrackPlaceAction.Query sampleTrackEnvNoMoney 0 samplePhotoAction
          sampleTrackState) ∧
    (TrackPlaceAction.Query sampleTrackEnvNoMoney 0 samplePhotoAction sampleTrackState).1
      = QueryReturn.money 0 :=
  have h : TrackPlaceAction.QueryBody sampleTrackEnvNoMoney 0 samplePhotoAction sampleTrackState
      = Except.ok (TrackPlaceAction.Query sampleTrackEnvNoMoney 0 samplePhotoAction
          sampleTrackState) := rfl
  ⟨h, (C16_no_money_costs_nothing sampleTrackEnvNoMoney 0 samplePhotoAction sampleTrackState _ h
    (by decide)).2⟩

/-- C17: whenever `Query` runs to its end with money enabled, the cost it returns
is the cost of the specification: the cost added by the clearance tests plus,
summed over the sub-elements, `((h / 2) * support_price) * 5` with `h` the base
height of the sub-element minus that of the surface (10 when negative), plus
`(((track_price * pricing[trackType]) >> 16) / 2) * 10` with the flat-ride table
for flat rides and the track table otherwise, in 32-bit arithmetic with
truncating division. -/
theorem C17_query_cost (env : TrackEnv) (flags : Nat) (a : TrackPlaceAction) (s : TrackState)
    (r : QueryReturn × TrackState) (ride : Ride) (rideEntry : rct_ride_entry)
    (hRide : s.rides a._rideIndex = some ride)
    (hEntry : env.get_ride_entry ride.subtype = some rideEntry)
    (hEnd : TrackPlaceAction.QueryBody env flags a s = Except.ok r)
    (hMoney : hasFlag env.gParkFlags env.PARK_FLAGS_NO_MONEY = false) :
    r.1 = QueryReturn.money (specQueryCost env flags a ride rideEntry s) ∧
    (TrackPlaceAction.Query env flags a s).1
      = QueryReturn.money (specQueryCost env flags a ride rideEntry s) := by
  obtain ⟨ride1, rideEntry1, st, hr1, he1, hPass, hr⟩ := QueryBody_ok env flags a s r hEnd
  rw [hRide] at hr1
  cases hr1
  rw [hEntry] at he1
  cases he1
  obtain ⟨hc, ht⟩ := blocksPass_cost env flags a rideEntry _ _ _ 0 _ st hPass
  have hc0 : wrap32 st.cost = wrap32 (specBlocksCost env flags a rideEntry
      (env.RideProperties_flags ride.type)
      (if hasFlag (env.RideProperties_flags ride.type) env.RIDE_TYPE_FLAG_FLAT_RIDE then
        env.FlatRideTrackSequenceElementAllowedWallEdges a._trackType
       else env.TrackSequenceElementAllowedWallEdges a._trackType)
      (env.get_track_def_from_ride ride a._trackType) 0
      (walkStart env a ride (env.get_track_def_from_ride ride a._trackType).length s)) := by
    rw [hc]
    simp [walkStart]
  have ht0 : st.ride.type = ride.type := by
    rw [ht]
    rfl
  have h1 : r.1 = QueryReturn.money (specQueryCost env flags a ride rideEntry s) := by
    rw [hr]
    unfold TrackPlaceAction.QueryPrice
    simp only [hMoney, Bool.false_eq_true, if_false, ht0]
    unfold specQueryCost specPriceTerm
    simp only []
    rw [wrap32_add_right]
    congr 1
    exact wrap32_congr_add _ _ _ hc0
  refine ⟨h1, ?_⟩
  unfold TrackPlaceAction.Query
  rw [hEnd]
  exact h1

/-- C17 at the sample placement: `Query` runs to its end and returns 350, the cost
of the specification (no clearance or support cost, price term 350). -/
theorem C17_query_cost_witness :
    specQueryCost sampleTrackEnv 0 samplePhotoAction ⟨1, 0, 0, 0, 0, 0, 0, 0, 0, 255, 255⟩ ⟨0⟩
      sampleTrackState = 350 ∧
    (TrackPlaceAction.Query sampleTrackEnv 0 samplePhotoAction sampleTrackState).1
      = QueryReturn.money (specQueryCost sampleTrackEnv 0 samplePhotoAction
          ⟨1, 0, 0, 0, 0, 0, 0, 0, 0, 255, 255⟩ ⟨0⟩ sampleTrackState) :=
  ⟨by decide,
    (C17_query_cost sampleTrackEnv 0 samplePhotoAction sampleTrackState
      (TrackPlaceAction.Query sampleTrackEnv 0 samplePhotoAction sampleTrackState)
      ⟨1, 0, 0, 0, 0, 0, 0, 0, 0, 255, 255⟩ ⟨0⟩ rfl rfl rfl (by decide)).2⟩

/-- C15: when the ride, its type, its entry and the direction are valid and none of
the rule checks before the walks fails, sandbox mode is off and some sub-element
of the piece lies, after rotation by the origin direction, on a tile that is
not owned by the park, `Query` returns the failure `Disallowed` with
`STR_LAND_NOT_OWNED_BY_PARK`; it has made no call at all by then (no
free-element check, no clearance test, no insertion) and has left the ride
list as it was. -/
theorem C15_land_not_owned (env : TrackEnv) (flags : Nat) (a : TrackPlaceAction)
    (s : TrackState) (ride : Ride) (rideEntry : rct_ride_entry) (tb : rct_preview_track)
    (hRide : s.rides a._rideIndex = some ride) (hType : ride.type ≠ env.RIDE_TYPE_NULL)
    (hEntry : env.get_ride_entry ride.subtype = some rideEntry)
    (hDir : direction_valid a._origin.direction = true)
    (hStation : ¬ (hasFlag ride.lifecycle_flags env.RIDE_LIFECYCLE_INDESTRUCTIBLE_TRACK = true
      ∧ a._trackType = env.TRACK_ELEM_END_STATION))
    (hPause : ¬ (¬ hasFlag env.GetActionFlags env.GA_FLAGS_ALLOW_WHILE_PAUSED = true
      ∧ env.game_is_paused = true ∧ ¬ env.gCheatsBuildInPauseMode = true))
    (hPhoto : ¬ (¬ hasFlag (env.RideProperties_flags ride.type) env.RIDE_TYPE_FLAG_FLAT_RIDE = true
      ∧ a._trackType = env.TRACK_ELEM_ON_RIDE_PHOTO
      ∧ hasFlag ride.lifecycle_flags env.RIDE_LIFECYCLE_ON_RIDE_PHOTO = true))
    (hCable : ¬ (¬ hasFlag (env.RideProperties_flags ride.type) env.RIDE_TYPE_FLAG_FLAT_RIDE = true
      ∧ a._trackType ≠ env.TRACK_ELEM_ON_RIDE_PHOTO
      ∧ a._trackType = env.TRACK_ELEM_CABLE_LIFT_HILL
      ∧ hasFlag ride.lifecycle_flags env.RIDE_LIFECYCLE_CABLE_LIFT_HILL_COMPONENT_USED = true))
    (hSteep : ¬ (¬ hasFlag (env.RideProperties_flags ride.type) env.RIDE_TYPE_FLAG_FLAT_RIDE = true
      ∧ hasFlag a._trackPlaceFlags env.CONSTRUCTION_LIFT_HILL_SELECTED = true
      ∧ ¬ hasFlag (env.RideTypePossibleTrackConfigurations ride.type)
          (1 <<< env.TRACK_LIFT_HILL_STEEP) = true
      ∧ ¬ env.gCheatsEnableChainLiftOnAllTrack = true
      ∧ hasFlag (env.TrackFlags a._trackType) env.TRACK_ELEM_FLAG_IS_STEEP_UP = true))
    (hSandbox : env.gCheatsSandboxMode = false)
    (hBlock : tb ∈ env.get_track_def_from_ride ride a._trackType)
    (hNotOwned : env.map_is_location_owned s.calls
      (rotateOffset a._origin.direction a._origin.x a._origin.y tb.x tb.y).1
      (rotateOffset a._origin.direction a._origin.x a._origin.y tb.x tb.y).2 a._origin.z
      = false) :
    (TrackPlaceAction.Query env flags a s).1 =
      QueryReturn.result (MakeResult2 GA_ERROR.DISALLOWED
        rct_string_id.STR_LAND_NOT_OWNED_BY_PARK) ∧
    (MakeResult2 GA_ERROR.DISALLOWED rct_string_id.STR_LAND_NOT_OWNED_BY_PARK).Error
      = GA_ERROR.DISALLOWED ∧
    (TrackPlaceAction.Query env flags a s).2.calls = s.calls ∧
    (TrackPlaceAction.Query env flags a s).2.rides = s.rides := by
  have hb : TrackPlaceAction.QueryBody env flags a s =
      Except.error (failResult
        { s with
          gCommandExpenditureType := env.RCT_EXPENDITURE_TYPE_RIDE_CONSTRUCTION,
          gCommandPosition := ⟨a._origin.x + 16, a._origin.y + 16, a._origin.z⟩,
          gTrackGroundFlags := 0 }
        GA_ERROR.DISALLOWED rct_string_id.STR_LAND_NOT_OWNED_BY_PARK) := by
    unfold TrackPlaceAction.QueryBody
    rw [hRide]
    simp only []
    rw [if_neg hType, hEntry]
    simp only []
    rw [if_neg (by rw [hDir]; decide)]
    unfold TrackPlaceAction.QueryRules
    simp only []
    rw [if_neg hStation, if_neg hPause, if_neg hPhoto, if_neg hCable, if_neg hSteep]
    unfold TrackPlaceAction.QueryWalks
    simp only []
    rw [ownershipPass_not_owned env a
      { s with
        gCommandExpenditureType := env.RCT_EXPENDITURE_TYPE_RIDE_CONSTRUCTION,
        gCommandPosition := ⟨a._origin.x + 16, a._origin.y + 16, a._origin.z⟩,
        gTrackGroundFlags := 0 } hSandbox _ 0 tb hBlock hNotOwned]
  unfold TrackPlaceAction.Query
  rw [hb]
  exact ⟨rfl, rfl, rfl, rfl⟩

/-- C15 at the sample placement in the environment where no tile is owned. -/
theorem C15_land_not_owned_witness :
    (TrackPlaceAction.Query sampleTrackEnvNotOwned 0 samplePhotoAction sampleTrackState).1 =
      QueryReturn.result (MakeResult2 GA_ERROR.DISALLOWED
        rct_string_id.STR_LAND_NOT_OWNED_BY_PARK) ∧
    (TrackPlaceAction.Query sampleTrackEnvNotOwned 0 samplePhotoAction sampleTrackState).2.calls
      = [] :=
  have h := C15_land_not_owned sampleTrackEnvNotOwned 0 samplePhotoAction sampleTrackState
    ⟨1, 0, 0, 0, 0, 0, 0, 0, 0, 255, 255⟩ ⟨0⟩ ⟨0, 0, 0, 0, 0, 0x0F, 0⟩ rfl (by decide) rfl rfl
    (by decide) (by decide) (by decide) (by decide) (by decide) rfl (by decide) rfl
  ⟨h.1, h.2.2.1⟩

/-! ## Path graph: the node map -/

theorem mapFind_mapAssign (m : List (Nat × Nat)) (k v k' : Nat) :
    mapFind (mapAssign m k v) k' = if k' = k then some v else mapFind m k' := by
  induction m with
  | nil =>
    simp only [mapAssign, mapFind]
    by_cases h : k = k'
    · simp [h]
    · simp [h, Ne.symm h]
  | cons p rest ih =>
    obtain ⟨a, b⟩ := p
    simp only [mapAssign]
    by_cases hak : a = k
    · simp only [hak, if_true, mapFind]
      by_cases h : k = k'
      · simp [h]
      · simp [h, Ne.symm h]
    · simp only [hak, if_false, mapFind, ih]
      by_cases h : a = k'
      · have : k' ≠ k := fun e => hak (h.trans e)
        simp [h, this]
      · simp [h]

theorem mem_mapAssign (m : List (Nat × Nat)) (k v : Nat) (p : Nat × Nat)
    (h : p ∈ mapAssign m k v) : p = (k, v) ∨ p ∈ m := by
  induction m with
  | nil => simpa [mapAssign] using h
  | cons q rest ih =>
    obtain ⟨a, b⟩ := q
    simp only [mapAssign] at h
    by_cases hak : a = k
    · simp only [hak, if_true, List.mem_cons] at h
      rcases h with h | h
      · exact Or.inl h
      · exact Or.inr (List.mem_cons_of_mem _ h)
    · simp only [hak, if_false, List.mem_cons] at h
      rcases h with h | h
      · exact Or.inr (h ▸ List.mem_cons_self _ _)
      · rcases ih h with h | h
        · exact Or.inl h
        · exact Or.inr (List.mem_cons_of_mem _ h)

theorem mapFind_mem (m : List (Nat × Nat)) (k v : Nat) (h : mapFind m k = some v) :
    (k, v) ∈ m := by
  induction m with
  | nil => simp [mapFind] at h
  | cons q rest ih =>
    obtain ⟨a, b⟩ := q
    simp only [mapFind] at h
    by_cases hak : a = k
    · simp only [hak, if_true, Option.some.injEq] at h
      simp [hak, h]
    · simp only [hak, if_false] at h
      exact List.mem_cons_of_mem _ (ih h)

/-- In a map with distinct keys every entry is found under its key. -/
theorem mapFind_of_mem (m : List (Nat × Nat)) (k v : Nat) (hn : (m.map Prod.fst).Nodup)
    (h : (k, v) ∈ m) : mapFind m k = some v := by
  induction m with
  | nil => simp at h
  | cons q rest ih =>
    obtain ⟨a, b⟩ := q
    simp only [List.map_cons, List.nodup_cons, List.mem_map, not_exists, not_and] at hn
    simp only [List.mem_cons, Prod.mk.injEq] at h
    simp only [mapFind]
    rcases h with ⟨h1, h2⟩ | h
    · simp [h1, h2]
    · have hak : a ≠ k := fun e => hn.1 (k, v) h e.symm
      simp only [hak, if_false]
      exact ih hn.2 h

theorem keys_mapAssign (m : List (Nat × Nat)) (k v : Nat) :
    (mapAssign m k v).map Prod.fst
      = if k ∈ m.map Prod.fst then m.map Prod.fst else m.map Prod.fst ++ [k] := by
  induction m with
  | nil => simp [mapAssign]
  | cons q rest ih =>
    obtain ⟨a, b⟩ := q
    simp only [mapAssign]
    by_cases hak : a = k
    · simp [hak]
    · simp only [hak, if_false, List.map_cons, ih, List.mem_cons]
      have hka : ¬ k = a := fun e => hak e.symm
      by_cases hm : k ∈ rest.map Prod.fst
      · simp [hm]
      · simp [hm, hka]

theorem nodup_keys_mapAssign (m : List (Nat × Nat)) (k v : Nat)
    (hn : (m.map Prod.fst).Nodup) : ((mapAssign m k v).map Prod.fst).Nodup := by
  rw [keys_mapAssign]
  split
  · exact hn
  · rename_i hk
    rw [List.nodup_append]
    refine ⟨hn, List.nodup_singleton k, ?_⟩
    intro a ha hb
    simp only [List.mem_singleton] at hb
    exact hk (hb ▸ ha)

theorem drop_eq_cons {α : Type} (l : List α) (i : Nat) (a : α) (rest : List α)
    (h : l.drop i = a :: rest) : l.get? i = some a ∧ l.drop (i + 1) = rest := by
  induction l generalizing i with
  | nil => simp at h
  | cons b l ih =>
    cases i with
    | zero =>
      simp only [List.drop_zero, List.cons.injEq] at h
      simp [h.1, h.2]
    | succ i =>
      simp only [List.drop_succ_cons] at h
      simpa using ih i h

/-- What `ResetNodes` establishes for the node map: the keys are distinct, every
entry holds the index of a node with that key, and the key of every node has
an entry. -/
theorem fillNodesMap_inv (env : PathEnv) (N : List Node) :
    ∀ (rest : List Node) (idx : Nat) (m : List (Nat × Nat)), N.drop idx = rest →
      (m.map Prod.fst).Nodup →
      (∀ p ∈ m, ∃ n, N.get? p.2 = some n ∧ GetHash env n.loc = p.1) →
      (∀ i n, i < idx → N.get? i = some n → ∃ v, mapFind m (GetHash env n.loc) = some v) →
      ((fillNodesMap env rest idx m).map Prod.fst).Nodup ∧
      (∀ p ∈ fillNodesMap env rest idx m,
        ∃ n, N.get? p.2 = some n ∧ GetHash env n.loc = p.1) ∧
      (∀ i n, N.get? i = some n →
        ∃ v, mapFind (fillNodesMap env rest idx m) (GetHash env n.loc) = some v) := by
  intro rest
  induction rest with
  | nil =>
    intro idx m hd hn he hc
    refine ⟨hn, he, fun i n hi => hc i n ?_ hi⟩
    have hlen : N.length ≤ idx := by
      by_contra hlt
      have : (N.drop idx).length = N.length - idx := List.length_drop idx N
      rw [hd] at this
      simp at this
      omega
    have := List.get?_eq_some.1 hi
    obtain ⟨h1, _⟩ := this
    omega
  | cons node rest ih =>
    intro idx m hd hn he hc
    obtain ⟨hget, hdrop⟩ := drop_eq_cons N idx node rest hd
    simp only [fillNodesMap]
    refine ih (idx + 1) _ hdrop (nodup_keys_mapAssign m _ _ hn) ?_ ?_
    · intro p hp
      rcases mem_mapAssign m _ _ p hp with h | h
      · exact ⟨node, by rw [h]; exact hget, by rw [h]⟩
      · exact he p h
    · intro i n hi hin
      rw [mapFind_mapAssign]
      by_cases hk : GetHash env n.loc = GetHash env node.loc
      · exact ⟨idx, by simp [hk]⟩
      · simp only [hk, if_false]
        have hne : i ≠ idx := by
          intro e
          rw [e, hget] at hin
          simp only [Option.some.injEq] at hin
          exact hk (by rw [hin])
        exact hc i n (by omega) hin

/-- When no two nodes share a key, `ResetNodes` stores every node under its key. -/
theorem fillNodesMap_injective (env : PathEnv) (N : List Node)
    (hKeys : ∀ i j ni nj, N.get? i = some ni → N.get? j = some nj →
      GetHash env ni.loc = GetHash env nj.loc → i = j) :
    ∀ (rest : List Node) (idx : Nat) (m : List (Nat × Nat)), N.drop idx = rest →
      (∀ i n, i < idx → N.get? i = some n → mapFind m (GetHash env n.loc) = some i) →
      (∀ i n, N.get? i = some n →
        mapFind (fillNodesMap env rest idx m) (GetHash env n.loc) = some i) := by
  intro rest
  induction rest with
  | nil =>
    intro idx m hd hc i n hi
    refine hc i n ?_ hi
    have hlen : N.length ≤ idx := by
      by_contra hlt
      have : (N.drop idx).length = N.length - idx := List.length_drop idx N
      rw [hd] at this
      simp at this
      omega
    obtain ⟨h1, _⟩ := List.get?_eq_some.1 hi
    omega
  | cons node rest ih =>
    intro idx m hd hc
    obtain ⟨hget, hdrop⟩ := drop_eq_cons N idx node rest hd
    simp only [fillNodesMap]
    refine ih (idx + 1) _ hdrop ?_
    intro i n hi hin
    rw [mapFind_mapAssign]
    by_cases hk : GetHash env n.loc = GetHash env node.loc
    · have := hKeys i idx n node hin hget hk
      simp [hk, this]
    · simp only [hk, if_false]
      have hne : i ≠ idx := by
        intro e
        rw [e, hget] at hin
        simp only [Option.some.injEq] at hin
        exact hk (by rw [hin])
      exact hc i n (by omega) hin

/-- The node map of `ResetNodes`: distinct keys, entries that hold the index of a
node with that key, and an entry for the key of every node. -/
theorem ResetNodes_map (env : PathEnv) (w : PathWorld) (old : PathGraph) :
    (((ResetNodes env w old).nodesMap).map Prod.fst).Nodup ∧
    (∀ p ∈ (ResetNodes env w old).nodesMap,
      ∃ n, (ResetNodes env w old).nodes.get? p.2 = some n ∧ GetHash env n.loc = p.1) ∧
    (∀ i n, (ResetNodes env w old).nodes.get? i = some n →
      ∃ v, mapFind (ResetNodes env w old).nodesMap (GetHash env n.loc) = some v) := by
  have h := fillNodesMap_inv env (scanNodes env w.tiles) (scanNodes env w.tiles) 0 []
    (by simp) (by simp) (by simp) (by intro i n hi; omega)
  exact h

/-- The values of the node map of `ResetNodes` are distinct: no node is stored
under two keys. -/
theorem ResetNodes_values_nodup (env : PathEnv) (w : PathWorld) (old : PathGraph) :
    (((ResetNodes env w old).nodesMap).map Prod.snd).Nodup := by
  obtain ⟨hn, he, _⟩ := ResetNodes_map env w old
  generalize (ResetNodes env w old).nodesMap = m at hn he
  generalize (ResetNodes env w old).nodes = N at he
  induction m with
  | nil => simp
  | cons p rest ih =>
    simp only [List.map_cons, List.nodup_cons, List.mem_map, not_exists, not_and] at hn ⊢
    refine ⟨?_, ih hn.2 (fun q hq => he q (List.mem_cons_of_mem _ hq))⟩
    intro q hq hv
    obtain ⟨n1, hn1, hh1⟩ := he p (List.mem_cons_self _ _)
    obtain ⟨n2, hn2, hh2⟩ := he q (List.mem_cons_of_mem _ hq)
    rw [hv, hn1] at hn2
    simp only [Option.some.injEq] at hn2
    rw [← hn2, hh1] at hh2
    exact hn.1 q hq hh2.symm

/-! ## Path graph: what the connecting passes write -/

theorem length_pushConnections (nodes : List Node) (index : Nat)
    (direct indirect : List NodeConnection) :
    (pushConnections nodes index direct indirect).length = nodes.length := by
  simp [pushConnections]

theorem get?_pushConnections (nodes : List Node) (index : Nat)
    (direct indirect : List NodeConnection) (i : Nat) :
    (pushConnections nodes index direct indirect).get? i
      = (nodes.get? i).map fun n =>
          if index = i then
            { n with directConnections := n.directConnections ++ direct,
                     indirectConnections := n.indirectConnections ++ indirect }
          else n := by
  unfold pushConnections
  rw [List.get?_eq_getElem?, List.get?_eq_getElem?, List.getElem?_modify]
  cases nodes[i]? with
  | none => rfl
  | some n =>
    by_cases h : index = i
    · simp [h]
    · simp [h]

/-- The direct connections `ConnectNodes` has pushed once its loop is over: the
node with index `i` has got the connections of its edge-scanning loop when the
node map has an entry for it, and is as it was otherwise. -/
theorem foldl_direct_get? (N : List Node) (D : Node → List NodeConnection) :
    ∀ (m : List (Nat × Nat)) (acc : List Node), (m.map Prod.snd).Nodup → ∀ i,
      (m.foldl
        (fun nodes nd =>
          match N.get? nd.2 with
          | none => nodes
          | some node => pushConnections nodes nd.2 (D node) [])
        acc).get? i
      = (acc.get? i).map fun n =>
          match N.get? i with
          | none => n
          | some node =>
            if i ∈ m.map Prod.snd then
              { n with directConnections := n.directConnections ++ D node }
            else n := by
  intro m
  induction m with
  | nil =>
    intro acc _ i
    simp only [List.foldl_nil]
    cases acc.get? i with
    | none => rfl
    | some n => cases N.get? i <;> simp
  | cons p rest ih =>
    intro acc hn i
    simp only [List.map_cons, List.nodup_cons] at hn
    simp only [List.foldl_cons]
    rw [ih _ hn.2 i]
    cases hNp : N.get? p.2 with
    | none =>
      simp only []
      cases acc.get? i with
      | none => rfl
      | some n =>
        simp only [Option.map_some', Option.some.injEq]
        cases hNi : N.get? i with
        | none => rfl
        | some node =>
          have hne : i ≠ p.2 := by
            intro e
            rw [e, hNp] at hNi
            exact Option.noConfusion hNi
          simp only [List.map_cons, List.mem_cons, hne, false_or]
    | some nodep =>
      simp only [get?_pushConnections]
      cases acc.get? i with
      | none => rfl
      | some n =>
        simp only [Option.map_some', Option.some.injEq]
        cases hNi : N.get? i with
        | none =>
          have hne : p.2 ≠ i := by
            intro e
            rw [e, hNi] at hNp
            exact Option.noConfusion hNp
          simp only [hne, if_false]
        | some node =>
          by_cases hpi : p.2 = i
          · have hnot : i ∉ rest.map Prod.snd := hpi ▸ hn.1
            have hnode : nodep = node := by
              rw [hpi, hNi] at hNp
              exact (Option.some.inj hNp).symm
            simp only [hpi, if_true, hnot, if_false, hnode, List.map_cons, List.mem_cons,
              true_or, List.append_nil]
          · have hne : ¬ i = p.2 := fun e => hpi e.symm
            simp only [hpi, if_false, List.map_cons, List.mem_cons, hne, false_or]

theorem foldl_direct_length (N : List Node) (D : Node → List NodeConnection) :
    ∀ (m : List (Nat × Nat)) (acc : List Node),
      (m.foldl
        (fun nodes nd =>
          match N.get? nd.2 with
          | none => nodes
          | some node => pushConnections nodes nd.2 (D node) [])
        acc).length = acc.length := by
  intro m
  induction m with
  | nil => intro acc; rfl
  | cons p rest ih =>
    intro acc
    simp only [List.foldl_cons]
    rw [ih]
    cases N.get? p.2 with
    | none => rfl
    | some node => simp [length_pushConnections]

/-- The loop of `ConnectRides`: when it returns, the node with index `i` has got
the indirect connections of its station loop when the node map has an entry
for it, and is as it was otherwise. -/
theorem foldl_indirect_get? (G : List Node) (I : Node → Option (List NodeConnection)) :
    ∀ (m : List (Nat × Nat)) (acc r : List Node), (m.map Prod.snd).Nodup →
      m.foldl
        (fun acc nd =>
          match acc with
          | none => none
          | some nodes =>
            match G.get? nd.2 with
            | none => some nodes
            | some node =>
              match I node with
              | none => none
              | some indirect => some (pushConnections nodes nd.2 [] indirect))
        (some acc) = some r →
      r.length = acc.length ∧
      ∀ i, r.get? i
        = (acc.get? i).map fun n =>
            match G.get? i with
            | none => n
            | some node =>
              if i ∈ m.map Prod.snd then
                match I node with
                | none => n
                | some indirect =>
                  { n with indirectConnections := n.indirectConnections ++ indirect }
              else n := by
  intro m
  induction m with
  | nil =>
    intro acc r _ h
    simp only [List.foldl_nil, Option.some.injEq] at h
    subst h
    refine ⟨rfl, fun i => ?_⟩
    cases acc.get? i with
    | none => rfl
    | some n => cases G.get? i <;> simp
  | cons p rest ih =>
    intro acc r hn h
    simp only [List.map_cons, List.nodup_cons] at hn
    simp only [List.foldl_cons] at h
    have hnone : ∀ l : List (Nat × Nat), l.foldl
        (fun acc nd =>
          match acc with
          | none => none
          | some nodes =>
            match G.get? nd.2 with
            | none => some nodes
            | some node =>
              match I node with
              | none => none
              | some indirect => some (pushConnections nodes nd.2 [] indirect))
        (none : Option (List Node)) = none := by
      intro l
      induction l with
      | nil => rfl
      | cons q l ihl => simpa using ihl
    cases hGp : G.get? p.2 with
    | none =>
      simp only [hGp] at h
      obtain ⟨hl, hg⟩ := ih acc r hn.2 h
      refine ⟨hl, fun i => ?_⟩
      rw [hg i]
      cases acc.get? i with
      | none => rfl
      | some n =>
        simp only [Option.map_some', Option.some.injEq]
        cases hGi : G.get? i with
        | none => rfl
        | some node =>
          have hne : i ≠ p.2 := by
            intro e
            rw [e, hGp] at hGi
            exact Option.noConfusion hGi
          simp only [List.map_cons, List.mem_cons, hne, false_or]
    | some nodep =>
      simp only [hGp] at h
      cases hI : I nodep with
      | none =>
        simp only [hI] at h
        rw [hnone] at h
        exact Option.noConfusion h
      | some L =>
        simp only [hI] at h
        obtain ⟨hl, hg⟩ := ih _ r hn.2 h
        refine ⟨by rw [hl, length_pushConnections], fun i => ?_⟩
        rw [hg i, get?_pushConnections]
        cases acc.get? i with
        | none => rfl
        | some n =>
          simp only [Option.map_some', Option.some.injEq]
          cases hGi : G.get? i with
          | none =>
            have hne : p.2 ≠ i := by
              intro e
              rw [e, hGi] at hGp
              exact Option.noConfusion hGp
            simp only [hne, if_false]
          | some node =>
            by_cases hpi : p.2 = i
            · have hnot : i ∉ rest.map Prod.snd := hpi ▸ hn.1
              have hnode : nodep = node := by
                rw [hpi, hGi] at hGp
                exact (Option.some.inj hGp).symm
              rw [hnode] at hI
              simp only [hpi, if_true, hnot, if_false, List.map_cons, List.mem_cons,
                true_or, List.append_nil, hI]
            · have hne : ¬ i = p.2 := fun e => hpi e.symm
              simp only [hpi, if_false, List.map_cons, List.mem_cons, hne, false_or]

/-- The loop of `ConnectRides` returns when the ride of every visited node is
found. -/
theorem foldl_indirect_isSome (G : List Node) (I : Node → Option (List NodeConnection)) :
    ∀ (m : List (Nat × Nat)) (acc : List Node),
      (∀ nd ∈ m, ∀ node, G.get? nd.2 = some node → (I node).isSome = true) →
      (m.foldl
        (fun acc nd =>
          match acc with
          | none => none
          | some nodes =>
            match G.get? nd.2 with
            | none => some nodes
            | some node =>
              match I node with
              | none => none
              | some indirect => some (pushConnections nodes nd.2 [] indirect))
        (some acc)).isSome = true := by
  intro m
  induction m with
  | nil => intro acc _; rfl
  | cons p rest ih =>
    intro acc h
    simp only [List.foldl_cons]
    cases hGp : G.get? p.2 with
    | none =>
      simp only []
      exact ih acc fun nd hnd => h nd (List.mem_cons_of_mem _ hnd)
    | some nodep =>
      have hI := h p (List.mem_cons_self _ _) nodep hGp
      cases hIn : I nodep with
      | none =>
        rw [hIn] at hI
        exact Bool.noConfusion hI
      | some L =>
        simp only [hIn]
        exact ih _ fun nd hnd => h nd (List.mem_cons_of_mem _ hnd)

/-! ## Path graph: the nodes and the neighbour lookup -/

theorem mem_scanNodes (env : PathEnv) (tiles : List Tile) (n : Node) :
    n ∈ scanNodes env tiles ↔
      ∃ t ∈ tiles, ∃ e ∈ t.elements, e.type = env.TILE_ELEMENT_TYPE_PATH ∧
        n = { loc := ⟨t.x * 32, t.y * 32, e.baseZ⟩, directConnections := [],
              indirectConnections := [], type := e.type, element := e } := by
  unfold scanNodes
  simp only [List.mem_flatMap, List.mem_map, List.mem_filter, decide_eq_true_eq]
  constructor
  · rintro ⟨t, ht, e, ⟨he, hty⟩, rfl⟩
    exact ⟨t, ht, e, he, hty, rfl⟩
  · rintro ⟨t, ht, e, he, hty, rfl⟩
    exact ⟨t, ht, e, ⟨he, hty⟩, rfl⟩

/-- The key depends on the tile of a position only. -/
theorem GetHash_tile (env : PathEnv) (x y x' y' z : Int) (hx : x.tdiv 32 = x'.tdiv 32)
    (hy : y.tdiv 32 = y'.tdiv 32) : GetHash env ⟨x, y, z⟩ = GetHash env ⟨x', y', z⟩ := by
  simp only [GetHash, hx, hy]

/-- What a successful neighbour lookup has found: a tile of the map at the target
position and on it a non-ghost path element that passes the validity test;
the result is the node map's entry for the key of that element. -/
theorem footpath_some (env : PathEnv) (w : PathWorld) (g : PathGraph) (node : Node)
    (d : Int) (res : Option Nat)
    (h : footpath_element_next_in_direction env w g node d = some res) :
    ∃ t ∈ w.tiles, ∃ e ∈ t.elements,
      t.x = (node.loc.x + (env.CoordsDirectionDelta d).1).tdiv 32 ∧
      t.y = (node.loc.y + (env.CoordsDirectionDelta d).2).tdiv 32 ∧
      e.ghost = false ∧ e.type = env.TILE_ELEMENT_TYPE_PATH ∧
      is_valid_path_z_and_direction env e
        (if node.element.sloped = true ∧ node.element.slopeDirection = d then
          node.loc.z + 2 * env.COORDS_Z_STEP
        else node.loc.z) d = true ∧
      res = mapFind g.nodesMap (GetHash env ⟨t.x * 32, t.y * 32, e.baseZ⟩) := by
  unfold footpath_element_next_in_direction at h
  simp only [] at h
  cases hm : map_get_first_element_at w (node.loc.x + (env.CoordsDirectionDelta d).1)
      (node.loc.y + (env.CoordsDirectionDelta d).2) with
  | none =>
    rw [hm] at h
    exact Option.noConfusion h
  | some elements =>
    rw [hm] at h
    simp only [] at h
    unfold map_get_first_element_at at hm
    cases ht : w.tiles.find? (fun tile =>
        decide (tile.x = (node.loc.x + (env.CoordsDirectionDelta d).1).tdiv 32
          ∧ tile.y = (node.loc.y + (env.CoordsDirectionDelta d).2).tdiv 32)) with
    | none =>
      rw [ht] at hm
      exact Option.noConfusion hm
    | some t =>
      rw [ht] at hm
      simp only [Option.map_some', Option.some.injEq] at hm
      have htm := List.mem_of_find?_eq_some ht
      have htp := List.find?_some ht
      simp only [decide_eq_true_eq] at htp
      cases he : elements.find? (fun e =>
          decide (¬ e.ghost = true ∧ e.type = env.TILE_ELEMENT_TYPE_PATH
            ∧ is_valid_path_z_and_direction env e
              (if node.element.sloped = true ∧ node.element.slopeDirection = d then
                node.loc.z + 2 * env.COORDS_Z_STEP
              else node.loc.z) d = true)) with
      | none =>
        rw [he] at h
        exact Option.noConfusion h
      | some e =>
        rw [he] at h
        simp only [Option.some.injEq] at h
        have hem := List.mem_of_find?_eq_some he
        have hep := List.find?_some he
        simp only [decide_eq_true_eq, Bool.not_eq_true] at hep
        refine ⟨t, htm, e, hm ▸ hem, htp.1, htp.2, hep.1, hep.2.1, hep.2.2, ?_⟩
        rw [← h]
        congr 1
        apply GetHash_tile
        · rw [htp.1, Int.mul_tdiv_cancel _ (by decide)]
        · rw [htp.2, Int.mul_tdiv_cancel _ (by decide)]

/-- A neighbour lookup that has a result yields a node of the node list, never a
null pointer: every path element of the map has its key in the node map. -/
theorem footpath_target (env : PathEnv) (w : PathWorld) (old : PathGraph) (node : Node)
    (d : Int) (res : Option Nat)
    (h : footpath_element_next_in_direction env w (ResetNodes env w old) node d = some res) :
    ∃ t, res = some t ∧ t < (ResetNodes env w old).nodes.length := by
  obtain ⟨t, ht, e, he, _, _, _, hty, _, hres⟩ := footpath_some env w _ node d res h
  obtain ⟨_, hent, hcov⟩ := ResetNodes_map env w old
  have hmem : _ ∈ (ResetNodes env w old).nodes :=
    (mem_scanNodes env w.tiles _).2 ⟨t, ht, e, he, hty, rfl⟩
  obtain ⟨j, hj⟩ := List.get?_of_mem hmem
  obtain ⟨v, hv⟩ := hcov j _ hj
  simp only [] at hv
  refine ⟨v, by rw [hres, hv], ?_⟩
  obtain ⟨n, hn, _⟩ := hent _ (mapFind_mem _ _ _ hv)
  exact (List.get?_eq_some.1 hn).1

/-! ## Path graph: the passes on the graph of `ResetNodes` -/

theorem scanNodes_connections (env : PathEnv) (tiles : List Tile) (n : Node)
    (h : n ∈ scanNodes env tiles) :
    n.directConnections = [] ∧ n.indirectConnections = [] ∧ n.loc.z = n.element.baseZ := by
  obtain ⟨t, _, e, _, _, rfl⟩ := (mem_scanNodes env tiles n).1 h
  exact ⟨rfl, rfl, rfl⟩

/-- The nodes after `ConnectNodes`: a node that has an entry in the node map has
got the connections of its edge-scanning loop, every other node is as
`ResetNodes` made it. -/
theorem ConnectNodes_get? (env : PathEnv) (w : PathWorld) (old : PathGraph) (i : Nat) :
    (ConnectNodes env w (ResetNodes env w old)).nodes.get? i
      = ((ResetNodes env w old).nodes.get? i).map fun n =>
          if i ∈ (ResetNodes env w old).nodesMap.map Prod.snd then
            { n with directConnections := directConnectionsOf env w (ResetNodes env w old) n }
          else n := by
  unfold ConnectNodes
  simp only []
  rw [foldl_direct_get? _ _ _ _ (ResetNodes_values_nodup env w old) i]
  cases hN : (ResetNodes env w old).nodes.get? i with
  | none => rfl
  | some n =>
    simp only [Option.map_some', Option.some.injEq]
    have hd := (scanNodes_connections env w.tiles n (List.get?_mem hN)).1
    split
    · rw [hd, List.nil_append]
    · rfl

theorem ConnectNodes_length (env : PathEnv) (w : PathWorld) (g : PathGraph) :
    (ConnectNodes env w g).nodes.length = g.nodes.length := by
  unfold ConnectNodes
  exact foldl_direct_length _ _ _ _

/-- The body of the station loop as a function of the station. -/
theorem indirectConnectionsOf_eq (env : PathEnv) (w : PathWorld) (g : PathGraph) (node : Node) :
    indirectConnectionsOf env w g node =
      if ¬ node.element.queue then some []
      else if node.element.rideIndex = env.RIDE_ID_NULL then some []
      else
        match w.get_ride node.element.rideIndex with
        | none => none
        | some ride =>
          if ¬ hasFlag (env.RideTypeDescriptors_Flags ride.type)
              env.RIDE_TYPE_FLAG_TRANSPORT_RIDE then
            some []
          else
            some ((List.range env.MAX_STATIONS).filterMap
              (stationConnection env g node ride)) := rfl

/-- What a pushed indirect connection is: the station is not the node's own, its
exit is not null, the cost is the Manhattan distance between the position in
front of the exit and the node divided by 50, and the target is the node map's
entry for the key of that position. -/
theorem stationConnection_some (env : PathEnv) (g : PathGraph) (node : Node) (ride : PathRide)
    (i : Nat) (c : NodeConnection) (h : stationConnection env g node ride i = some c) :
    i ≠ node.element.stationIndex ∧ (ride.stationExit i).isNull = false ∧
    c.cost = (manhattanDistance (stationExitPathOf env (ride.stationExit i)) node.loc).tdiv 50 ∧
    ∃ t, c.node = some t ∧
      mapFind g.nodesMap (GetHash env (stationExitPathOf env (ride.stationExit i))) = some t := by
  unfold stationConnection at h
  by_cases hi : i = node.element.stationIndex
  · rw [if_pos hi] at h
    exact Option.noConfusion h
  · rw [if_neg hi] at h
    simp only [] at h
    by_cases hnull : (ride.stationExit i).isNull = true
    · rw [if_pos hnull] at h
      exact Option.noConfusion h
    · rw [if_neg hnull] at h
      cases hf : mapFind g.nodesMap (GetHash env (stationExitPathOf env (ride.stationExit i))) with
      | none =>
        unfold stationExitPathOf at hf
        simp only [] at hf
        rw [hf] at h
        exact Option.noConfusion h
      | some t =>
        have hf2 := hf
        unfold stationExitPathOf at hf2
        simp only [] at hf2
        rw [hf2] at h
        simp only [Option.some.injEq] at h
        refine ⟨hi, by simpa using hnull, ?_, t, ?_, rfl⟩
        · rw [← h]
          rfl
        · rw [← h]

/-- The targets of the indirect connections of one node are entries of the node
map. -/
theorem indirect_target (env : PathEnv) (w : PathWorld) (g : PathGraph) (node : Node)
    (L : List NodeConnection) (h : indirectConnectionsOf env w g node = some L) :
    ∀ c ∈ L, ∃ t k, c.node = some t ∧ (k, t) ∈ g.nodesMap := by
  rw [indirectConnectionsOf_eq] at h
  intro c hc
  split at h
  · simp only [Option.some.injEq] at h
    rw [← h] at hc
    simp at hc
  · split at h
    · simp only [Option.some.injEq] at h
      rw [← h] at hc
      simp at hc
    · split at h
      · exact Option.noConfusion h
      · rename_i ride _
        split at h
        · simp only [Option.some.injEq] at h
          rw [← h] at hc
          simp at hc
        · simp only [Option.some.injEq] at h
          rw [← h, List.mem_filterMap] at hc
          obtain ⟨i, _, hi⟩ := hc
          obtain ⟨_, _, _, t, ht, hf⟩ := stationConnection_some env g node ride i c hi
          exact ⟨t, _, ht, mapFind_mem _ _ _ hf⟩

/-- When the station loop dereferences a null ride, the node is a queue with a
ride index other than `RIDE_ID_NULL` whose ride is not found. -/
theorem indirect_none (env : PathEnv) (w : PathWorld) (g : PathGraph) (node : Node)
    (h : indirectConnectionsOf env w g node = none) :
    node.element.queue = true ∧ node.element.rideIndex ≠ env.RIDE_ID_NULL ∧
    w.get_ride node.element.rideIndex = none := by
  rw [indirectConnectionsOf_eq] at h
  split at h
  · exact Option.noConfusion h
  · rename_i hq
    split at h
    · exact Option.noConfusion h
    · rename_i hr
      split at h
      · rename_i hg
        exact ⟨by simpa using hq, hr, hg⟩
      · split at h <;> exact Option.noConfusion h

/-- The nodes after `ConnectRides`, when it returns: the direct connections, the
position and the element of every node are as `ConnectNodes` left them, and the
indirect connections are those of `ResetNodes` (none) or what the station loop
of the node has pushed. -/
theorem ConnectRides_get? (env : PathEnv) (w : PathWorld) (old g2 : PathGraph)
    (h : ConnectRides env w (ConnectNodes env w (ResetNodes env w old)) = some g2) :
    g2.nodes.length = (ResetNodes env w old).nodes.length ∧
    ∀ i n2, g2.nodes.get? i = some n2 →
      ∃ n1, (ConnectNodes env w (ResetNodes env w old)).nodes.get? i = some n1 ∧
        n2.loc = n1.loc ∧ n2.element = n1.element ∧
        n2.directConnections = n1.directConnections ∧
        (n2.indirectConnections = n1.indirectConnections ∨
          ∃ L, indirectConnectionsOf env w (ConnectNodes env w (ResetNodes env w old)) n1
              = some L ∧
            n2.indirectConnections = n1.indirectConnections ++ L) := by
  unfold ConnectRides at h
  cases hf : (ConnectNodes env w (ResetNodes env w old)).nodesMap.foldl
      (fun acc nd =>
        match acc with
        | none => none
        | some nodes =>
          match (ConnectNodes env w (ResetNodes env w old)).nodes.get? nd.2 with
          | none => some nodes
          | some node =>
            match indirectConnectionsOf env w (ConnectNodes env w (ResetNodes env w old)) node with
            | none => none
            | some indirect => some (pushConnections nodes nd.2 [] indirect))
      (some (ConnectNodes env w (ResetNodes env w old)).nodes) with
  | none =>
    rw [hf] at h
    exact Option.noConfusion h
  | some r =>
    rw [hf] at h
    simp only [Option.map_some', Option.some.injEq] at h
    subst h
    obtain ⟨hl, hg⟩ := foldl_indirect_get? _ _ _ _ r (ResetNodes_values_nodup env w old) hf
    refine ⟨by rw [hl, ConnectNodes_length], fun i n2 hn2 => ?_⟩
    simp only [] at hn2
    rw [hg i] at hn2
    cases hn1 : (ConnectNodes env w (ResetNodes env w old)).nodes.get? i with
    | none =>
      rw [hn1] at hn2
      exact Option.noConfusion hn2
    | some n1 =>
      rw [hn1] at hn2
      simp only [Option.map_some', Option.some.injEq] at hn2
      refine ⟨n1, rfl, ?_⟩
      split at hn2
      · cases hI : indirectConnectionsOf env w (ConnectNodes env w (ResetNodes env w old)) n1 with
        | none =>
          rw [hI] at hn2
          simp only [] at hn2
          subst hn2
          exact ⟨rfl, rfl, rfl, Or.inl rfl⟩
        | some L =>
          rw [hI] at hn2
          simp only [] at hn2
          subst hn2
          exact ⟨rfl, rfl, rfl, Or.inr ⟨L, rfl, rfl⟩⟩
      · subst hn2
        exact ⟨rfl, rfl, rfl, Or.inl rfl⟩

/-! ## Path graph: the edge-scanning loop -/

theorem edgeScanLoop_eq (env : PathEnv) (w : PathWorld) (g : PathGraph) (node : Node) :
    ∀ (fuel edges : Nat) (acc : List NodeConnection),
      edgeScanLoop env w g node fuel edges acc =
        ⟨acc ++ (scanOrder fuel edges).1.filterMap (fun t =>
            (footpath_element_next_in_direction env w g node t).map fun res =>
              { cost := 1, node := res }),
          (scanOrder fuel edges).1.length, (scanOrder fuel edges).2⟩ := by
  intro fuel
  induction fuel with
  | zero =>
    intro edges acc
    simp [edgeScanLoop, scanOrder]
  | succ fuel ih =>
    intro edges acc
    simp only [edgeScanLoop, scanOrder]
    by_cases hb : bitscanforward edges = -1
    · simp [hb]
    · simp only [hb, if_false, ih, List.filterMap_cons, List.length_cons]
      cases footpath_element_next_in_direction env w g node (bitscanforward edges) with
      | none => simp
      | some res => simp

set_option maxRecDepth 100000 in
theorem scanOrder_byte : ∀ e < 256, scanOrder 8 e
    = (([0, 1, 2, 3, 4, 5, 6, 7].filter fun i => hasFlag e (1 <<< i)).map fun i : Nat => (i : Int),
        true) := by
  decide

theorem directConnectionsOf_eq (env : PathEnv) (w : PathWorld) (g : PathGraph) (node : Node) :
    directConnectionsOf env w g node =
      (([0, 1, 2, 3, 4, 5, 6, 7].filter fun i => hasFlag (node.element.edges % 256) (1 <<< i)).map
        fun i : Nat => (i : Int)).filterMap fun t =>
          (footpath_element_next_in_direction env w g node t).map fun res =>
            { cost := 1, node := res } := by
  unfold directConnectionsOf
  congr 1
  generalize ([0, 1, 2, 3, 4, 5, 6, 7].filter fun i => hasFlag (node.element.edges % 256) (1 <<< i)) = l
  induction l with
  | nil => rfl
  | cons a l ih =>
    simp only [List.map_cons]
    rw [← ih]
    rfl

/-- The edge-scanning loop of `ConnectNodes` on the edge byte of a node: it ends
because `bitscanforward` returns -1, after as many iterations as the byte has
set bits, and has pushed the connections of the open edges in increasing
order. -/
theorem edgeScanLoop_byte (env : PathEnv) (w : PathWorld) (g : PathGraph) (node : Node) :
    edgeScanLoop env w g node 8 (node.element.edges % 256) []
      = ⟨directConnectionsOf env w g node, popcount8 node.element.edges, true⟩ := by
  rw [edgeScanLoop_eq, scanOrder_byte _ (Nat.mod_lt _ (by decide)), directConnectionsOf_eq]
  simp only [List.nil_append, List.length_map]
  rfl

theorem directConnectionsOf_length (env : PathEnv) (w : PathWorld) (g : PathGraph)
    (node : Node) : (directConnectionsOf env w g node).length ≤ popcount8 node.element.edges := by
  rw [directConnectionsOf_eq]
  unfold popcount8
  refine le_trans (List.length_filterMap_le _ _) ?_
  rw [List.length_map]

theorem directConnectionsOf_mem (env : PathEnv) (w : PathWorld) (g : PathGraph)
    (node : Node) (c : NodeConnection) (h : c ∈ directConnectionsOf env w g node) :
    c.cost = 1 ∧ ∃ d : Nat, d < 8 ∧ hasFlag (node.element.edges % 256) (1 <<< d) = true ∧
      footpath_element_next_in_direction env w g node d = some c.node := by
  rw [directConnectionsOf_eq, List.mem_filterMap] at h
  obtain ⟨t, ht, hc⟩ := h
  rw [List.mem_map] at ht
  obtain ⟨d, hd, rfl⟩ := ht
  rw [List.mem_filter] at hd
  cases hf : footpath_element_next_in_direction env w g node d with
  | none =>
    rw [hf] at hc
    exact Option.noConfusion hc
  | some res =>
    rw [hf] at hc
    simp only [Option.map_some', Option.some.injEq] at hc
    subst hc
    refine ⟨rfl, d, ?_, hd.2, hf⟩
    have := hd.1
    simp only [List.mem_cons, List.mem_singleton, List.not_mem_nil, or_false] at this
    omega

theorem directConnectionsOf_of_open (env : PathEnv) (w : PathWorld) (g : PathGraph)
    (node : Node) (d : Nat) (res : Option Nat) (hd : d < 8)
    (hopen : hasFlag (node.element.edges % 256) (1 <<< d) = true)
    (h : footpath_element_next_in_direction env w g node d = some res) :
    ({ cost := 1, node := res } : NodeConnection) ∈ directConnectionsOf env w g node := by
  rw [directConnectionsOf_eq, List.mem_filterMap]
  refine ⟨d, ?_, by rw [h]; rfl⟩
  rw [List.mem_map]
  refine ⟨d, ?_, rfl⟩
  rw [List.mem_filter]
  refine ⟨?_, hopen⟩
  have : d = 0 ∨ d = 1 ∨ d = 2 ∨ d = 3 ∨ d = 4 ∨ d = 5 ∨ d = 6 ∨ d = 7 := by omega
  simpa using this

theorem directConnectionsOf_no_edge (env : PathEnv) (w : PathWorld) (g : PathGraph)
    (node : Node) (h : node.element.edges % 256 = 0) : directConnectionsOf env w g node = [] := by
  rw [directConnectionsOf_eq, h]
  rfl

/-! ## Path graph: the claims about connections -/

/-- C21: the cost `ConnectRides` gives an indirect connection is the Manhattan
distance between the path position in front of the exit and the queue node,
divided by 50 with truncation, and so it does not decrease with that distance:
of two pushed connections the one with the smaller or equal distance has the
smaller or equal cost. -/
theorem C21_cost_monotone (env : PathEnv) (g1 g2 : PathGraph) (node1 node2 : Node)
    (ride1 ride2 : PathRide) (i1 i2 : Nat) (c1 c2 : NodeConnection)
    (h1 : stationConnection env g1 node1 ride1 i1 = some c1)
    (h2 : stationConnection env g2 node2 ride2 i2 = some c2)
    (hd : manhattanDistance (stationExitPathOf env (ride1.stationExit i1)) node1.loc
        ≤ manhattanDistance (stationExitPathOf env (ride2.stationExit i2)) node2.loc) :
    c1.cost = (manhattanDistance (stationExitPathOf env (ride1.stationExit i1))
        node1.loc).tdiv 50 ∧
    c2.cost = (manhattanDistance (stationExitPathOf env (ride2.stationExit i2))
        node2.loc).tdiv 50 ∧
    c1.cost ≤ c2.cost := by
  obtain ⟨_, _, hc1, _⟩ := stationConnection_some env g1 node1 ride1 i1 c1 h1
  obtain ⟨_, _, hc2, _⟩ := stationConnection_some env g2 node2 ride2 i2 c2 h2
  refine ⟨hc1, hc2, ?_⟩
  rw [hc1, hc2]
  have hn : ∀ a b : CoordsXYZ, 0 ≤ manhattanDistance a b := by
    intro a b
    unfold manhattanDistance
    positivity
  rw [Int.tdiv_eq_ediv (hn _ _) (by decide), Int.tdiv_eq_ediv (hn _ _) (by decide)]
  exact Int.ediv_le_ediv (by decide) hd

/-- C21 at the sample world with a transport ride: the connection of the queue at
distance 128 from the position in front of the exit costs 2 and that of a
queue at distance 288 costs 5. -/
theorem C21_cost_monotone_witness :
    (⟨2, some 2⟩ : NodeConnection).cost = (128 : Int).tdiv 50 ∧
    (⟨5, some 2⟩ : NodeConnection).cost = (288 : Int).tdiv 50 ∧
    (⟨2, some 2⟩ : NodeConnection).cost ≤ (⟨5, some 2⟩ : NodeConnection).cost :=
  C21_cost_monotone sampleTransportEnv
    (ResetNodes sampleTransportEnv sampleRideWorld emptyGraph)
    (ResetNodes sampleTransportEnv sampleRideWorld emptyGraph)
    ⟨⟨160, 0, 16⟩, [], [], 1, sampleQueue⟩ ⟨⟨320, 0, 16⟩, [], [], 1, sampleQueue⟩
    sampleTransportRide sampleTransportRide 1 1 ⟨2, some 2⟩ ⟨5, some 2⟩
    (by decide) (by decide) (by decide)

/-- C24: after `ConnectNodes` every node has at most as many direct connections as
its edge byte has set bits, every direct connection has cost 1, and a node
without an open edge has no direct connection; the connections of a node are
those its edge-scanning loop pushes, a loop that clears one bit per iteration
and ends after as many iterations as the byte has set bits. -/
theorem C24_direct_connections (env : PathEnv) (w : PathWorld) (old : PathGraph) :
    ∀ n ∈ (ConnectNodes env w (ResetNodes env w old)).nodes,
      n.directConnections.length ≤ popcount8 n.element.edges ∧
      (∀ c ∈ n.directConnections, c.cost = 1) ∧
      (n.element.edges % 256 = 0 → n.directConnections = []) ∧
      (n.directConnections = [] ∨ n.directConnections
        = (edgeScanLoop env w (ResetNodes env w old) n 8 (n.element.edges % 256) []).connections) ∧
      (edgeScanLoop env w (ResetNodes env w old) n 8 (n.element.edges % 256) []).iterations
        = popcount8 n.element.edges ∧
      (edgeScanLoop env w (ResetNodes env w old) n 8 (n.element.edges % 256) []).finished
        = true := by
  intro n hn
  obtain ⟨i, hi⟩ := List.get?_of_mem hn
  rw [ConnectNodes_get?] at hi
  cases hN : (ResetNodes env w old).nodes.get? i with
  | none =>
    rw [hN] at hi
    exact Option.noConfusion hi
  | some n0 =>
    rw [hN] at hi
    simp only [Option.map_some', Option.some.injEq] at hi
    have hd := (scanNodes_connections env w.tiles n0 (List.get?_mem hN)).1
    rw [edgeScanLoop_byte]
    split at hi
    · subst hi
      refine ⟨directConnectionsOf_length env w _ n0,
        fun c hc => (directConnectionsOf_mem env w _ n0 c hc).1,
        fun h0 => directConnectionsOf_no_edge env w _ n0 h0, Or.inr rfl, rfl, rfl⟩
    · subst hi
      rw [hd]
      exact ⟨Nat.zero_le _, fun c hc => by simp at hc, fun _ => rfl, Or.inl rfl, rfl, rfl⟩

/-- C24 at the sample world: node B, whose edge byte has one set bit, has one
direct connection, of cost 1, and its loop ends after one iteration. -/
theorem C24_direct_connections_witness :
    (edgeScanLoop samplePathEnv samplePathWorld
        (ResetNodes samplePathEnv samplePathWorld emptyGraph)
        ⟨⟨64, 0, 16⟩, [⟨1, some 2⟩], [], 1, samplePath 1⟩ 8 (1 % 256) []).iterations = 1 ∧
    (∀ c ∈ [(⟨1, some 2⟩ : NodeConnection)], c.cost = 1) :=
  have h := C24_direct_connections samplePathEnv samplePathWorld emptyGraph
    ⟨⟨64, 0, 16⟩, [⟨1, some 2⟩], [], 1, samplePath 1⟩ (by decide)
  ⟨h.2.2.2.2.1, h.2.1⟩

/-- The builder never produces a dangling edge.  When `InitMapPathing` returns,
every direct and every indirect connection of every node targets a node of the
node list, never a null pointer; a neighbour that is not there only means that
no connection is pushed.  The one way for the build not to return is the
dereference of a ride that `get_ride` does not find, for a queue element whose
ride index is not `RIDE_ID_NULL`. -/
theorem InitMapPathing_edges (env : PathEnv) (w : PathWorld) (old : PathGraph) :
    (∀ g, InitMapPathing env w old = some g →
      g.nodes.length = (scanNodes env w.tiles).length ∧
      ∀ n ∈ g.nodes, ∀ c ∈ n.directConnections ++ n.indirectConnections,
        ∃ t, c.node = some t ∧ t < g.nodes.length) ∧
    (InitMapPathing env w old = none →
      ∃ n ∈ scanNodes env w.tiles, n.element.queue = true ∧
        n.element.rideIndex ≠ env.RIDE_ID_NULL ∧ w.get_ride n.element.rideIndex = none) ∧
    ((∀ n ∈ scanNodes env w.tiles, n.element.queue = true →
        n.element.rideIndex ≠ env.RIDE_ID_NULL → w.get_ride n.element.rideIndex ≠ none) →
      (InitMapPathing env w old).isSome = true) := by
  have hNone : InitMapPathing env w old = none →
      ∃ n ∈ scanNodes env w.tiles, n.element.queue = true ∧
        n.element.rideIndex ≠ env.RIDE_ID_NULL ∧ w.get_ride n.element.rideIndex = none := by
    intro h
    by_contra hcon
    have hall : ∀ nd ∈ (ConnectNodes env w (ResetNodes env w old)).nodesMap, ∀ node,
        (ConnectNodes env w (ResetNodes env w old)).nodes.get? nd.2 = some node →
        (indirectConnectionsOf env w (ConnectNodes env w (ResetNodes env w old)) node).isSome
          = true := by
      intro nd _ node hnode
      cases hI : indirectConnectionsOf env w (ConnectNodes env w (ResetNodes env w old)) node with
      | some L => rfl
      | none =>
        exfalso
        apply hcon
        obtain ⟨hq, hr, hg⟩ := indirect_none env w _ node hI
        rw [ConnectNodes_get?] at hnode
        cases hN : (ResetNodes env w old).nodes.get? nd.2 with
        | none =>
          rw [hN] at hnode
          exact Option.noConfusion hnode
        | some n0 =>
          rw [hN] at hnode
          simp only [Option.map_some', Option.some.injEq] at hnode
          have he : node.element = n0.element := by
            rw [← hnode]
            split <;> rfl
          rw [he] at hq hr hg
          exact ⟨n0, List.get?_mem hN, hq, hr, hg⟩
    have hs := foldl_indirect_isSome _ _ _
      (ConnectNodes env w (ResetNodes env w old)).nodes hall
    unfold InitMapPathing ConnectRides at h
    cases hf : (ConnectNodes env w (ResetNodes env w old)).nodesMap.foldl
        (fun acc nd =>
          match acc with
          | none => none
          | some nodes =>
            match (ConnectNodes env w (ResetNodes env w old)).nodes.get? nd.2 with
            | none => some nodes
            | some node =>
              match indirectConnectionsOf env w (ConnectNodes env w (ResetNodes env w old))
                  node with
              | none => none
              | some indirect => some (pushConnections nodes nd.2 [] indirect))
        (some (ConnectNodes env w (ResetNodes env w old)).nodes) with
    | none =>
      rw [hf] at hs
      exact Bool.noConfusion hs
    | some r =>
      rw [hf] at h
      exact Option.noConfusion h
  refine ⟨?_, hNone, ?_⟩
  · intro g hg
    unfold InitMapPathing at hg
    cases h2 : ConnectRides env w (ConnectNodes env w (ResetNodes env w old)) with
    | none =>
      rw [h2] at hg
      exact Option.noConfusion hg
    | some g2 =>
      rw [h2] at hg
      simp only [Option.map_some', Option.some.injEq, ConnectTwoEdges] at hg
      subst hg
      obtain ⟨hlen, hget⟩ := ConnectRides_get? env w old g2 h2
      refine ⟨hlen, fun n hn c hc => ?_⟩
      obtain ⟨i, hi⟩ := List.get?_of_mem hn
      obtain ⟨n1, hn1, _, _, hdir, hind⟩ := hget i n hi
      rw [ConnectNodes_get?] at hn1
      cases hN : (ResetNodes env w old).nodes.get? i with
      | none =>
        rw [hN] at hn1
        exact Option.noConfusion hn1
      | some n0 =>
        rw [hN] at hn1
        simp only [Option.map_some', Option.some.injEq] at hn1
        obtain ⟨hd0, hi0, _⟩ := scanNodes_connections env w.tiles n0 (List.get?_mem hN)
        have hi1 : n1.indirectConnections = [] := by
          rw [← hn1]
          split <;> exact hi0
        have hd1 : n1.directConnections = []
            ∨ n1.directConnections = directConnectionsOf env w (ResetNodes env w old) n0 := by
          rw [← hn1]
          split
          · exact Or.inr rfl
          · exact Or.inl hd0
        rw [hlen]
        rw [List.mem_append] at hc
        rcases hc with hc | hc
        · rw [hdir] at hc
          rcases hd1 with hd1 | hd1
          · rw [hd1] at hc
            simp at hc
          · rw [hd1] at hc
            obtain ⟨_, d, _, _, hf⟩ := directConnectionsOf_mem env w _ n0 c hc
            exact footpath_target env w old n0 d c.node hf
        · rcases hind with hind | ⟨L, hL, hind⟩
          · rw [hind, hi1] at hc
            simp at hc
          · rw [hind, hi1, List.nil_append] at hc
            obtain ⟨t, k, ht, hmem⟩ := indirect_target env w _ n1 L hL c hc
            refine ⟨t, ht, ?_⟩
            obtain ⟨_, hent, _⟩ := ResetNodes_map env w old
            obtain ⟨n, hn', _⟩ := hent (k, t) hmem
            exact (List.get?_eq_some.1 hn').1
  · intro hall
    cases h : InitMapPathing env w old with
    | some g => rfl
    | none =>
      obtain ⟨n, hn, hq, hr, hg⟩ := hNone h
      exact absurd hg (hall n hn hq hr)

/-- The sample world: the build returns and the one connection of its graph
targets node 2 of its three nodes. -/
theorem InitMapPathing_edges_sample :
    sampleBuiltGraph.nodes.length = 3 ∧
    ∀ n ∈ sampleBuiltGraph.nodes, ∀ c ∈ n.directConnections ++ n.indirectConnections,
      ∃ t, c.node = some t ∧ t < sampleBuiltGraph.nodes.length :=
  (InitMapPathing_edges samplePathEnv samplePathWorld emptyGraph).1 sampleBuiltGraph
    (by decide)

/-- C25: the build does not complete on every world state.  In the sample world
whose only path element is a queue of ride 7, a ride index other than
`RIDE_ID_NULL` for which `get_ride` finds no ride, `ResetNodes` and
`ConnectNodes` leave one node without a connection, and `ConnectRides` then
dereferences the null ride: `InitMapPathing` does not return, whether the ride
types are transport rides or not. -/
theorem C25_stale_ride_stops_build :
    (ConnectNodes samplePathEnv sampleStaleQueueWorld
        (ResetNodes samplePathEnv sampleStaleQueueWorld emptyGraph)).nodes.map
        (fun n => (n.loc, n.element.queue, n.element.rideIndex, n.directConnections)) =
      [(⟨160, 0, 16⟩, true, 7, [])] ∧
    samplePathEnv.RIDE_ID_NULL = 255 ∧
    (sampleStaleQueueWorld.get_ride 7).isSome = false ∧
    InitMapPathing samplePathEnv sampleStaleQueueWorld emptyGraph = none ∧
    InitMapPathing sampleTransportEnv sampleStaleQueueWorld emptyGraph = none := by
  refine ⟨by decide, by decide, rfl, by decide, by decide⟩

/-! ## Path graph: the validity test and the return connection -/

/-- What the validity test accepts. -/
theorem is_valid_iff (env : PathEnv) (tileElement : TileElement)
    (currentZ currentDirection : Int) :
    is_valid_path_z_and_direction env tileElement currentZ currentDirection = true ↔
      (tileElement.sloped = true ∧
        ((tileElement.slopeDirection = currentDirection ∧ currentZ = tileElement.baseZ) ∨
         (tileElement.slopeDirection ≠ currentDirection ∧
          env.direction_reverse tileElement.slopeDirection = currentDirection ∧
          currentZ = tileElement.baseZ + 2 * env.COORDS_Z_STEP))) ∨
      (tileElement.sloped = false ∧ currentZ = tileElement.baseZ) := by
  unfold is_valid_path_z_and_direction
  cases hs : tileElement.sloped
  · by_cases hz : currentZ = tileElement.baseZ
    · simp [hz]
    · simp [hz]
  · simp only [if_true]
    by_cases hd : tileElement.slopeDirection = currentDirection
    · by_cases hz : currentZ = tileElement.baseZ
      · simp [hd, hz]
      · simp [hd, hz]
    · by_cases hr : env.direction_reverse tileElement.slopeDirection = currentDirection
      · by_cases hz : currentZ = tileElement.baseZ + 2 * env.COORDS_Z_STEP
        · simp [hd, hr, hz]
        · simp [hd, hr, hz]
      · simp [hd, hr]

/-- C22 as stated fails.  For a neighbour that slopes in the travel direction
(direction 0, base height 16) and the target height 16 the code accepts, while
the claim asks for a height difference of one step, whether a step is
`COORDS_Z_STEP` or the `2 * COORDS_Z_STEP` of a slope; for a neighbour that
slopes against the travel direction (slope direction 2) and the target height
16 the code rejects, while the claim accepts. -/
theorem C22_counterexample :
    is_valid_path_z_and_direction samplePathEnv
      { samplePath 0 with sloped := true, slopeDirection := 0 } 16 0 = true ∧
    claimedValidPath samplePathEnv 8
      { samplePath 0 with sloped := true, slopeDirection := 0 } 16 0 = false ∧
    claimedValidPath samplePathEnv 16
      { samplePath 0 with sloped := true, slopeDirection := 0 } 16 0 = false ∧
    is_valid_path_z_and_direction samplePathEnv
      { samplePath 0 with sloped := true, slopeDirection := 2 } 16 0 = false ∧
    claimedValidPath samplePathEnv 8
      { samplePath 0 with sloped := true, slopeDirection := 2 } 16 0 = true := by
  decide

/-- C22 (amended): `is_valid_path_z_and_direction` accepts a sloped neighbour exactly
when its slope direction is the travel direction and the target height is its
base height, or its slope direction is not the travel direction, the reverse of
its slope direction is, and the target height is its base height plus
`2 * COORDS_Z_STEP`; it accepts a flat neighbour exactly when the target height
is its base height. -/
theorem C22_valid_path (env : PathEnv) (tileElement : TileElement)
    (currentZ currentDirection : Int) :
    is_valid_path_z_and_direction env tileElement currentZ currentDirection = true ↔
      (tileElement.sloped = true ∧
        ((tileElement.slopeDirection = currentDirection ∧ currentZ = tileElement.baseZ) ∨
         (tileElement.slopeDirection ≠ currentDirection ∧
          env.direction_reverse tileElement.slopeDirection = currentDirection ∧
          currentZ = tileElement.baseZ + 2 * env.COORDS_Z_STEP))) ∨
      (tileElement.sloped = false ∧ currentZ = tileElement.baseZ) :=
  is_valid_iff env tileElement currentZ currentDirection

/-- C23: in the sample world with a transport ride, the exit of station 1 has the
path A on tile (1, 0) in front of it, yet the indirect connection of the queue
of station 0 targets node 2, the path on tile (0, 32) whose key is that of A;
and in the world without A, where no path element lies in front of the exit,
the queue still gets an indirect connection, to that same path (node 1
there). -/
theorem C23_indirect_connection_to_wrong_node :
    stationExitPathOf sampleTransportEnv (sampleTransportRide.stationExit 1) = ⟨32, 0, 16⟩ ∧
    (InitMapPathing sampleTransportEnv sampleRideWorld emptyGraph).map
        (fun g => g.nodes.map fun n => (n.loc, n.indirectConnections)) =
      some [(⟨32, 0, 16⟩, []), (⟨160, 0, 16⟩, [⟨2, some 2⟩]), (⟨0, 1024, 16⟩, [])] ∧
    (InitMapPathing sampleTransportEnv sampleRideWorldNoPath emptyGraph).map
        (fun g => g.nodes.map fun n => (n.loc, n.indirectConnections)) =
      some [(⟨160, 0, 16⟩, [⟨2, some 1⟩]), (⟨0, 1024, 16⟩, [])] ∧
    GetHash sampleTransportEnv ⟨32, 0, 16⟩ = GetHash sampleTransportEnv ⟨0, 1024, 16⟩ := by
  refine ⟨by decide, by decide, by decide, by decide⟩

/-- The validity test on the way back.  When stepping in direction `d` from an
element `a` onto `b` is valid, `a` does not slope across the direction of
travel and `k` is the reverse of `d`, stepping in direction `k` from `b` onto
`a` is valid. -/
theorem valid_return (env : PathEnv) (a b : TileElement) (d k : Int) (hdk : d ≠ k)
    (hInv : ∀ x, env.direction_reverse (env.direction_reverse x) = x)
    (hRev : env.direction_reverse d = k)
    (hSlope : a.sloped = true → a.slopeDirection = d ∨ a.slopeDirection = k)
    (hv : is_valid_path_z_and_direction env b
      (if a.sloped = true ∧ a.slopeDirection = d then a.baseZ + 2 * env.COORDS_Z_STEP
       else a.baseZ) d = true) :
    is_valid_path_z_and_direction env a
      (if b.sloped = true ∧ b.slopeDirection = k then b.baseZ + 2 * env.COORDS_Z_STEP
       else b.baseZ) k = true := by
  rw [is_valid_iff] at hv ⊢
  have hb : env.direction_reverse b.slopeDirection = d → b.slopeDirection = k := fun h => by
    rw [← hInv b.slopeDirection, h, hRev]
  have hz : (if b.sloped = true ∧ b.slopeDirection = k then b.baseZ + 2 * env.COORDS_Z_STEP
      else b.baseZ)
      = (if a.sloped = true ∧ a.slopeDirection = d then a.baseZ + 2 * env.COORDS_Z_STEP
        else a.baseZ) := by
    rcases hv with ⟨hbs, ⟨h1, h2⟩ | ⟨_, h1, h2⟩⟩ | ⟨hbs, h2⟩
    · rw [if_neg (fun c => hdk (h1.symm.trans c.2))]
      exact h2.symm
    · rw [if_pos ⟨hbs, hb h1⟩]
      exact h2.symm
    · rw [if_neg (fun c => by rw [hbs] at c; exact Bool.noConfusion c.1)]
      exact h2.symm
  rw [hz]
  by_cases has : a.sloped = true
  · rcases hSlope has with h | h
    · rw [if_pos ⟨has, h⟩]
      exact Or.inl ⟨has, Or.inr ⟨by rw [h]; exact hdk, by rw [h, hRev], rfl⟩⟩
    · rw [if_neg (fun c => hdk (c.2.symm.trans h))]
      exact Or.inl ⟨has, Or.inl ⟨h, rfl⟩⟩
  · rw [if_neg (fun c => has c.1)]
    exact Or.inr ⟨by simpa using has, rfl⟩

theorem find?_tile (tiles : List Tile) (hn : (tiles.map fun t => (t.x, t.y)).Nodup)
    (t : Tile) (ht : t ∈ tiles) (x y : Int) (hx : t.x = x) (hy : t.y = y) :
    tiles.find? (fun tile => decide (tile.x = x ∧ tile.y = y)) = some t := by
  induction tiles with
  | nil => simp at ht
  | cons t0 rest ih =>
    simp only [List.map_cons, List.nodup_cons, List.mem_map, not_exists, not_and] at hn
    rcases List.mem_cons.1 ht with h | h
    · subst h
      rw [List.find?_cons_of_pos _ (by simp [hx, hy])]
    · have hne : ¬ (t0.x = x ∧ t0.y = y) := by
        intro c
        exact hn.1 t h (by rw [hx, hy, c.1, c.2])
      rw [List.find?_cons_of_neg _ (by simpa using hne)]
      exact ih hn.2 h

/-- The neighbour lookup, given the tile and the element it finds. -/
theorem footpath_of_find (env : PathEnv) (w : PathWorld) (g : PathGraph) (node : Node)
    (d : Int) (elements : List TileElement) (e : TileElement)
    (hm : map_get_first_element_at w (node.loc.x + (env.CoordsDirectionDelta d).1)
      (node.loc.y + (env.CoordsDirectionDelta d).2) = some elements)
    (he : elements.find? (fun e =>
        decide (¬ e.ghost = true ∧ e.type = env.TILE_ELEMENT_TYPE_PATH
          ∧ is_valid_path_z_and_direction env e
            (if node.element.sloped = true ∧ node.element.slopeDirection = d then
              node.loc.z + 2 * env.COORDS_Z_STEP
            else node.loc.z) d = true)) = some e) :
    footpath_element_next_in_direction env w g node d
      = some (mapFind g.nodesMap
          (GetHash env ⟨node.loc.x + (env.CoordsDirectionDelta d).1,
            node.loc.y + (env.CoordsDirectionDelta d).2, e.baseZ⟩)) := by
  unfold footpath_element_next_in_direction
  simp only []
  rw [hm]
  simp only []
  rw [he]

/-- When no two nodes share a key, the node map of `ResetNodes` holds every node
under its key. -/
theorem ResetNodes_find_self (env : PathEnv) (w : PathWorld) (old : PathGraph)
    (hKeys : ∀ i j ni nj, (scanNodes env w.tiles).get? i = some ni →
      (scanNodes env w.tiles).get? j = some nj →
      GetHash env ni.loc = GetHash env nj.loc → i = j)
    (i : Nat) (n : Node) (h : (scanNodes env w.tiles).get? i = some n) :
    mapFind (ResetNodes env w old).nodesMap (GetHash env n.loc) = some i :=
  fillNodesMap_injective env (scanNodes env w.tiles) hKeys (scanNodes env w.tiles) 0 []
    (by simp) (by intro i n hi; omega) i n h

/-- C29 as stated fails.  In the sample world A on tile (1, 0) slopes in direction 1
and has its edge in direction 2 open, B on tile (2, 0) is flat and has the
opposite edge (direction 0) open, neither is a ghost and their keys differ.
`ConnectNodes` gives A a direct connection to B (node 1), found in direction 2,
and gives B no direct connection. -/
theorem C29_counterexample :
    (ConnectNodes samplePathEnv sampleSlopeWorld
        (ResetNodes samplePathEnv sampleSlopeWorld emptyGraph)).nodes.map
        (fun n => (n.loc, n.element.ghost, n.element.edges, n.directConnections)) =
      [(⟨32, 0, 16⟩, false, 4, [⟨1, some 1⟩]), (⟨64, 0, 16⟩, false, 1, [])] ∧
    footpath_element_next_in_direction samplePathEnv sampleSlopeWorld
        (ResetNodes samplePathEnv sampleSlopeWorld emptyGraph)
        ⟨⟨32, 0, 16⟩, [], [], 1, { samplePath 4 with sloped := true, slopeDirection := 1 }⟩ 2
      = some (some 1) ∧
    samplePathEnv.direction_reverse 2 = 0 ∧ hasFlag (1 % 256) (1 <<< 0) = true ∧
    GetHash samplePathEnv ⟨32, 0, 16⟩ ≠ GetHash samplePathEnv ⟨64, 0, 16⟩ := by
  decide

/-- C29 (amended): direct connections are symmetric in a world whose tiles have
distinct coordinates and whose path elements have distinct keys, for
directions `d` and `k` that are each other's reverse with opposite whole-tile
deltas.  If the neighbour lookup of node A in its open direction `d` yields
node B, A is not a ghost and, when sloped, slopes in direction `d` or `k`, B
has its edge `k` open, and no other non-ghost path element of the tile of A is
a valid continuation of the step back, then after `ConnectNodes` A has a direct
connection of cost 1 to B and B has one to A. -/
theorem C29_return_connection (env : PathEnv) (w : PathWorld) (old : PathGraph)
    (d k iA iB : Nat) (A B : Node) (hd : d < 8) (hk : k < 8) (hdk : d ≠ k)
    (hInv : ∀ x, env.direction_reverse (env.direction_reverse x) = x)
    (hRev : env.direction_reverse d = k)
    (hDelta : env.CoordsDirectionDelta k
      = (-(env.CoordsDirectionDelta d).1, -(env.CoordsDirectionDelta d).2))
    (hWhole : (32 : Int) ∣ (env.CoordsDirectionDelta d).1
      ∧ (32 : Int) ∣ (env.CoordsDirectionDelta d).2)
    (hTiles : (w.tiles.map fun t => (t.x, t.y)).Nodup)
    (hKeys : ∀ i j ni nj, (scanNodes env w.tiles).get? i = some ni →
      (scanNodes env w.tiles).get? j = some nj →
      GetHash env ni.loc = GetHash env nj.loc → i = j)
    (hA : (scanNodes env w.tiles).get? iA = some A)
    (hB : (scanNodes env w.tiles).get? iB = some B)
    (hGhost : A.element.ghost = false)
    (hSlope : A.element.sloped = true →
      A.element.slopeDirection = d ∨ A.element.slopeDirection = k)
    (hOpenA : hasFlag (A.element.edges % 256) (1 <<< d) = true)
    (hAB : footpath_element_next_in_direction env w (ResetNodes env w old) A d
      = some (some iB))
    (hOpenB : hasFlag (B.element.edges % 256) (1 <<< k) = true)
    (hOnly : ∀ t ∈ w.tiles, ∀ e ∈ t.elements, t.x * 32 = A.loc.x → t.y * 32 = A.loc.y →
      e.ghost = false → e.type = env.TILE_ELEMENT_TYPE_PATH →
      is_valid_path_z_and_direction env e
        (if B.element.sloped = true ∧ B.element.slopeDirection = k then
          B.loc.z + 2 * env.COORDS_Z_STEP
        else B.loc.z) k = true →
      e.baseZ = A.element.baseZ) :
    (∃ nA, (ConnectNodes env w (ResetNodes env w old)).nodes.get? iA = some nA ∧
      ({ cost := 1, node := some iB } : NodeConnection) ∈ nA.directConnections) ∧
    (∃ nB, (ConnectNodes env w (ResetNodes env w old)).nodes.get? iB = some nB ∧
      ({ cost := 1, node := some iA } : NodeConnection) ∈ nB.directConnections) := by
  have hfindA := ResetNodes_find_self env w old hKeys iA A hA
  have hfindB := ResetNodes_find_self env w old hKeys iB B hB
  have hvisA : iA ∈ (ResetNodes env w old).nodesMap.map Prod.snd :=
    List.mem_map.2 ⟨_, mapFind_mem _ _ _ hfindA, rfl⟩
  have hvisB : iB ∈ (ResetNodes env w old).nodesMap.map Prod.snd :=
    List.mem_map.2 ⟨_, mapFind_mem _ _ _ hfindB, rfl⟩
  have hNA : (ResetNodes env w old).nodes.get? iA = some A := hA
  have hNB : (ResetNodes env w old).nodes.get? iB = some B := hB
  -- the connection of A
  refine ⟨⟨_, by rw [ConnectNodes_get?, hNA]; rfl, ?_⟩, ⟨_, by rw [ConnectNodes_get?, hNB]; rfl, ?_⟩⟩
  · simp only [if_pos hvisA]
    exact directConnectionsOf_of_open env w _ A d (some iB) hd hOpenA hAB
  · simp only [if_pos hvisB]
    refine directConnectionsOf_of_open env w _ B k (some iA) hk hOpenB ?_
    -- what the lookup from A has found is the element of B
    obtain ⟨tB, htB, eB, heB, hxB, hyB, _, hpB, hvB, hresB⟩ := footpath_some env w _ A d _ hAB
    have hmemB : _ ∈ scanNodes env w.tiles :=
      (mem_scanNodes env w.tiles _).2 ⟨tB, htB, eB, heB, hpB, rfl⟩
    obtain ⟨j, hj⟩ := List.get?_of_mem hmemB
    have hjB := ResetNodes_find_self env w old hKeys j _ hj
    simp only [] at hjB
    rw [hjB] at hresB
    have hjeq : j = iB := (Option.some.inj hresB).symm
    rw [hjeq, hB] at hj
    have hBeq := Option.some.inj hj
    -- the tile and the element of A
    obtain ⟨tA, htA, eA, heA, hpA, hAeq⟩ := (mem_scanNodes env w.tiles A).1 (List.get?_mem hA)
    obtain ⟨u, hu⟩ := hWhole.1
    obtain ⟨v, hv⟩ := hWhole.2
    have hAx : A.loc.x = tA.x * 32 := by rw [hAeq]
    have hAy : A.loc.y = tA.y * 32 := by rw [hAeq]
    have hAz : A.loc.z = A.element.baseZ := by rw [hAeq]
    have hAe : A.element = eA := by rw [hAeq]
    have hBx : B.loc.x = tB.x * 32 := by rw [hBeq]
    have hBy : B.loc.y = tB.y * 32 := by rw [hBeq]
    have hBz : B.loc.z = B.element.baseZ := by rw [hBeq]
    have hBe : B.element = eB := by rw [hBeq]
    have htBx : tB.x = tA.x + u := by
      rw [hxB, hAx, hu]
      have : tA.x * 32 + 32 * u = (tA.x + u) * 32 := by ring
      rw [this, Int.mul_tdiv_cancel _ (by decide)]
    have htBy : tB.y = tA.y + v := by
      rw [hyB, hAy, hv]
      have : tA.y * 32 + 32 * v = (tA.y + v) * 32 := by ring
      rw [this, Int.mul_tdiv_cancel _ (by decide)]
    have hbackx : B.loc.x + (env.CoordsDirectionDelta k).1 = A.loc.x := by
      rw [hDelta, hBx, htBx, hAx, hu]
      ring
    have hbacky : B.loc.y + (env.CoordsDirectionDelta k).2 = A.loc.y := by
      rw [hDelta, hBy, htBy, hAy, hv]
      ring
    -- the lookup from B reaches the tile of A
    have hm : map_get_first_element_at w (B.loc.x + (env.CoordsDirectionDelta k).1)
        (B.loc.y + (env.CoordsDirectionDelta k).2) = some tA.elements := by
      unfold map_get_first_element_at
      rw [find?_tile w.tiles hTiles tA htA _ _
        (by rw [hbackx, hAx, Int.mul_tdiv_cancel _ (by decide)])
        (by rw [hbacky, hAy, Int.mul_tdiv_cancel _ (by decide)])]
      rfl
    -- the element of A passes the test of the step back
    have hvalid : is_valid_path_z_and_direction env A.element
        (if B.element.sloped = true ∧ B.element.slopeDirection = k then
          B.loc.z + 2 * env.COORDS_Z_STEP
        else B.loc.z) k = true := by
      rw [hBz]
      refine valid_return env A.element B.element d k (by exact_mod_cast hdk) hInv hRev hSlope ?_
      rw [hBe, ← hAz]
      exact hvB
    have hsome : (tA.elements.find? (fun e =>
        decide (¬ e.ghost = true ∧ e.type = env.TILE_ELEMENT_TYPE_PATH
          ∧ is_valid_path_z_and_direction env e
            (if B.element.sloped = true ∧ B.element.slopeDirection = k then
              B.loc.z + 2 * env.COORDS_Z_STEP
            else B.loc.z) k = true))).isSome = true := by
      rw [List.find?_isSome]
      refine ⟨eA, heA, ?_⟩
      rw [← hAe]
      simp only [decide_eq_true_eq]
      exact ⟨by rw [hGhost]; decide, by rw [hAe]; exact hpA, hvalid⟩
    obtain ⟨e1, he1⟩ := Option.isSome_iff_exists.1 hsome
    have hp1 := List.find?_some he1
    simp only [decide_eq_true_eq, Bool.not_eq_true] at hp1
    have hz1 : e1.baseZ = A.element.baseZ :=
      hOnly tA htA e1 (List.mem_of_find?_eq_some he1) hAx.symm hAy.symm hp1.1 hp1.2.1 hp1.2.2
    rw [footpath_of_find env w _ B k tA.elements e1 hm he1, hbackx, hbacky, hz1, ← hAz]
    exact congrArg some hfindA

/-- C29 (amended) at the sample world with two flat paths, for the directions 2
and 0: A (node 0) and B (node 1) are connected both ways. -/
theorem C29_return_connection_witness :
    (∃ nA, (ConnectNodes sampleReverseEnv sampleStraightWorld
        (ResetNodes sampleReverseEnv sampleStraightWorld emptyGraph)).nodes.get? 0 = some nA ∧
      ({ cost := 1, node := some 1 } : NodeConnection) ∈ nA.directConnections) ∧
    (∃ nB, (ConnectNodes sampleReverseEnv sampleStraightWorld
        (ResetNodes sampleReverseEnv sampleStraightWorld emptyGraph)).nodes.get? 1 = some nB ∧
      ({ cost := 1, node := some 0 } : NodeConnection) ∈ nB.directConnections) :=
  C29_return_connection sampleReverseEnv sampleStraightWorld emptyGraph 2 0 0 1
    ⟨⟨32, 0, 16⟩, [], [], 1, samplePath 4⟩ ⟨⟨64, 0, 16⟩, [], [], 1, samplePath 1⟩
    (by decide) (by decide) (by decide)
    (by
      intro x
      simp only [sampleReverseEnv]
      split_ifs <;> omega)
    (by decide) (by decide) (by decide) (by decide)
    (by
      intro i j ni nj hi hj hh
      have hN : scanNodes sampleReverseEnv sampleStraightWorld.tiles
          = [⟨⟨32, 0, 16⟩, [], [], 1, samplePath 4⟩, ⟨⟨64, 0, 16⟩, [], [], 1, samplePath 1⟩] := by
        decide
      rw [hN] at hi hj
      have hi2 : i < 2 := (List.get?_eq_some.1 hi).1
      have hj2 : j < 2 := (List.get?_eq_some.1 hj).1
      interval_cases i <;> interval_cases j
      · rfl
      · obtain rfl := Option.some.inj hi
        obtain rfl := Option.some.inj hj
        revert hh
        decide
      · obtain rfl := Option.some.inj hi
        obtain rfl := Option.some.inj hj
        revert hh
        decide
      · rfl)
    (by decide) (by decide) (by decide) (by decide) (by decide) (by decide) (by decide)
    (by
      intro t ht e he hx hy _ _ _
      simp only [sampleStraightWorld, List.mem_cons, List.mem_singleton, List.not_mem_nil,
        or_false] at ht
      rcases ht with rfl | rfl
      · simp only [List.mem_singleton] at he
        subst he
        rfl
      · exact absurd hx (by decide))

/-! ## Track placement: the quadrant rotation -/

set_option maxRecDepth 100000 in
theorem rotateQuadrants_byte : ∀ d < 4, ∀ b < 256,
    rotateQuadrants ((d : Nat) : Int) b = rotl4 (b / 16) d * 16 + rotl4 (b % 16) d ∧
    rotateQuadrants 0 b = b ∧
    popcount4 (rotateQuadrants ((d : Nat) : Int) b / 16) = popcount4 (b / 16) ∧
    popcount4 (rotateQuadrants ((d : Nat) : Int) b % 16) = popcount4 (b % 16) := by
  decide

/-- C30: the `rol8` / `ror8` / mask sequence rotates the quadrant byte with the
piece.  For every byte `b` and direction `d` in 0..3 the result is the byte
whose high nibble is the high nibble of `b` rotated left by `d` within 4 bits
and whose low nibble is the low nibble of `b` rotated left by `d` within 4
bits; for `d = 0` the byte is unchanged, and the number of set bits of each
nibble is preserved. -/
theorem C30_quadrant_rotation (b d : Nat) (hb : b < 256) (hd : d < 4) :
    rotateQuadrants d b = rotl4 (b / 16) d * 16 + rotl4 (b % 16) d ∧
    rotateQuadrants 0 b = b ∧
    popcount4 (rotateQuadrants d b / 16) = popcount4 (b / 16) ∧
    popcount4 (rotateQuadrants d b % 16) = popcount4 (b % 16) :=
  rotateQuadrants_byte d hd b hb

/-- C30 for the byte 0x81 and direction 1: the nibbles 8 and 1 become 1 and 2. -/
theorem C30_quadrant_rotation_witness : rotateQuadrants 1 0x81 = 0x12 :=
  (C30_quadrant_rotation 0x81 1 (by decide) (by decide)).1.trans (by decide)

/-! ## Track placement: the rule conflicts -/

/-- C26: for a valid ride that is not a flat ride, a valid direction, and no
indestructible-station or pause failure, `Query` for an on-ride photo piece on a
ride whose lifecycle flags record an on-ride photo returns `Disallowed` with
`STR_ONLY_ONE_ON_RIDE_PHOTO_PER_RIDE`, and `Query` for a cable lift hill piece
on a ride whose lifecycle flags record a cable lift hill returns `Disallowed`
with `STR_ONLY_ONE_CABLE_LIFT_HILL_PER_RIDE`; in both cases it has made no call
by then (no ownership pass result is used, no element is inserted) and the
ride list is as it was. -/
theorem C26_rule_conflicts (env : TrackEnv) (flags : Nat) (a : TrackPlaceAction)
    (s : TrackState) (ride : Ride) (rideEntry : rct_ride_entry)
    (hRide : s.rides a._rideIndex = some ride) (hType : ride.type ≠ env.RIDE_TYPE_NULL)
    (hEntry : env.get_ride_entry ride.subtype = some rideEntry)
    (hDir : direction_valid a._origin.direction = true)
    (hStation : ¬ (hasFlag ride.lifecycle_flags env.RIDE_LIFECYCLE_INDESTRUCTIBLE_TRACK = true
      ∧ a._trackType = env.TRACK_ELEM_END_STATION))
    (hPause : ¬ (¬ hasFlag env.GetActionFlags env.GA_FLAGS_ALLOW_WHILE_PAUSED = true
      ∧ env.game_is_paused = true ∧ ¬ env.gCheatsBuildInPauseMode = true))
    (hFlat : hasFlag (env.RideProperties_flags ride.type) env.RIDE_TYPE_FLAG_FLAT_RIDE = false)
    (hDistinct : env.TRACK_ELEM_CABLE_LIFT_HILL ≠ env.TRACK_ELEM_ON_RIDE_PHOTO) :
    (a._trackType = env.TRACK_ELEM_ON_RIDE_PHOTO →
      hasFlag ride.lifecycle_flags env.RIDE_LIFECYCLE_ON_RIDE_PHOTO = true →
      (TrackPlaceAction.Query env flags a s).1 =
        QueryReturn.result (MakeResult2 GA_ERROR.DISALLOWED
          rct_string_id.STR_ONLY_ONE_ON_RIDE_PHOTO_PER_RIDE) ∧
      (TrackPlaceAction.Query env flags a s).2.calls = s.calls ∧
      (TrackPlaceAction.Query env flags a s).2.rides = s.rides) ∧
    (a._trackType = env.TRACK_ELEM_CABLE_LIFT_HILL →
      hasFlag ride.lifecycle_flags env.RIDE_LIFECYCLE_CABLE_LIFT_HILL_COMPONENT_USED = true →
      (TrackPlaceAction.Query env flags a s).1 =
        QueryReturn.result (MakeResult2 GA_ERROR.DISALLOWED
          rct_string_id.STR_ONLY_ONE_CABLE_LIFT_HILL_PER_RIDE) ∧
      (TrackPlaceAction.Query env flags a s).2.calls = s.calls ∧
      (TrackPlaceAction.Query env flags a s).2.rides = s.rides) := by
  have hb : TrackPlaceAction.QueryBody env flags a s =
      TrackPlaceAction.QueryRules env flags a ride rideEntry s := by
    unfold TrackPlaceAction.QueryBody
    rw [hRide]
    simp only []
    rw [if_neg hType, hEntry]
    simp only []
    rw [if_neg (by rw [hDir]; decide)]
  have hnf : ¬ hasFlag (env.RideProperties_flags ride.type) env.RIDE_TYPE_FLAG_FLAT_RIDE = true := by
    rw [hFlat]
    decide
  constructor
  · intro hT hF
    have hq : TrackPlaceAction.QueryBody env flags a s =
        Except.error (failResult
          { s with
            gCommandExpenditureType := env.RCT_EXPENDITURE_TYPE_RIDE_CONSTRUCTION,
            gCommandPosition := ⟨a._origin.x + 16, a._origin.y + 16, a._origin.z⟩,
            gTrackGroundFlags := 0 }
          GA_ERROR.DISALLOWED rct_string_id.STR_ONLY_ONE_ON_RIDE_PHOTO_PER_RIDE) := by
      rw [hb]
      unfold TrackPlaceAction.QueryRules
      simp only []
      rw [if_neg hStation, if_neg hPause, if_pos ⟨hnf, hT, hF⟩]
    unfold TrackPlaceAction.Query
    rw [hq]
    exact ⟨rfl, rfl, rfl⟩
  · intro hT hF
    have hne : a._trackType ≠ env.TRACK_ELEM_ON_RIDE_PHOTO := by
      rw [hT]
      exact hDistinct
    have hq : TrackPlaceAction.QueryBody env flags a s =
        Except.error (failResult
          { s with
            gCommandExpenditureType := env.RCT_EXPENDITURE_TYPE_RIDE_CONSTRUCTION,
            gCommandPosition := ⟨a._origin.x + 16, a._origin.y + 16, a._origin.z⟩,
            gTrackGroundFlags := 0 }
          GA_ERROR.DISALLOWED rct_string_id.STR_ONLY_ONE_CABLE_LIFT_HILL_PER_RIDE) := by
      rw [hb]
      unfold TrackPlaceAction.QueryRules
      simp only []
      rw [if_neg hStation, if_neg hPause, if_neg (fun c => hne c.2.1),
        if_pos ⟨hnf, hne, hT, hF⟩]
    unfold TrackPlaceAction.Query
    rw [hq]
    exact ⟨rfl, rfl, rfl⟩

/-- C26 at the sample state in which ride 0 has both an on-ride photo and a cable
lift hill: the photo piece and the cable lift hill piece are both refused. -/
theorem C26_rule_conflicts_witness :
    (TrackPlaceAction.Query sampleTrackEnv 0 samplePhotoAction sampleTrackStateUsed).1 =
      QueryReturn.result (MakeResult2 GA_ERROR.DISALLOWED
        rct_string_id.STR_ONLY_ONE_ON_RIDE_PHOTO_PER_RIDE) ∧
    (TrackPlaceAction.Query sampleTrackEnv 0 sampleCableAction sampleTrackStateUsed).1 =
      QueryReturn.result (MakeResult2 GA_ERROR.DISALLOWED
        rct_string_id.STR_ONLY_ONE_CABLE_LIFT_HILL_PER_RIDE) :=
  ⟨((C26_rule_conflicts sampleTrackEnv 0 samplePhotoAction sampleTrackStateUsed
      ⟨1, 0, 0x10020, 0, 0, 0, 0, 0, 0, 255, 255⟩ ⟨0⟩ rfl (by decide) rfl rfl (by decide)
      (by decide) (by decide) (by decide)).1 rfl (by decide)).1,
   ((C26_rule_conflicts sampleTrackEnv 0 sampleCableAction sampleTrackStateUsed
      ⟨1, 0, 0x10020, 0, 0, 0, 0, 0, 0, 255, 255⟩ ⟨0⟩ rfl (by decide) rfl rfl (by decide)
      (by decide) (by decide) (by decide)).2 rfl (by decide)).1⟩

/-! ## Peep pickup: Cancel and Place in `Execute` -/

/-- C27: for every existing peep the Cancel action names, `Execute` with type Cancel
returns Ok with the position of the named peep and leaves the acting player
holding nothing.  When the player held a peep `b`, the one call made is
`PickupAbort` with the action's `loc.x` on `b`, whether or not `b` is the named
peep, and every other sprite is unchanged; when the player held nothing, no
call is made and no sprite is changed. -/
theorem C27_cancel_aborts_held_peep (env : PeepEnv) (player : Int) (w : World) (id : Nat)
    (loc : CoordsXYZ) (peep : Peep) (h : getPeep env w id = some peep) :
    let o := PeepPickupAction.Execute env player ⟨PeepPickupType.Cancel, id, loc⟩ w
    o.result.Error = GA_ERROR.OK ∧ o.result.Position = some ⟨peep.x, peep.y, peep.z⟩ ∧
    o.world.pickup_peep player = none ∧
    (∀ b, w.pickup_peep player = some b →
      o.calls = [PeepCall.PickupAbort b loc.x] ∧
      (∀ p, getPeep env w b = some p →
        getPeep env o.world b = some (env.PickupAbort loc.x p)) ∧
      (∀ j, j ≠ b → o.world.sprites j = w.sprites j)) ∧
    (w.pickup_peep player = none → o.calls = [] ∧ o.world.sprites = w.sprites) := by
  intro o
  cases hb : w.pickup_peep player with
  | none =>
    have ho : o = _ := Execute_cancel_none env player id loc w peep h hb
    rw [ho]
    refine ⟨rfl, rfl, ?_, fun b hb' => Option.noConfusion hb', fun _ => ⟨rfl, rfl⟩⟩
    simp [network_set_pickup_peep]
  | some b =>
    have ho : o = _ := Execute_cancel_some env player id b loc w peep h hb
    rw [ho]
    refine ⟨rfl, rfl, ?_, ?_, fun hn => Option.noConfusion hn⟩
    · simp [network_set_pickup_peep]
    · intro b' hb'
      obtain rfl : b = b' := Option.some.inj hb'
      refine ⟨rfl, ?_, ?_⟩
      · intro p hp
        simp only []
        rw [getPeep_set_pickup, peepData_of_getPeep env w b p peep hp]
        exact getPeep_setPeep_same env w b p _ hp
      · intro j hj
        simp [network_set_pickup_peep, setPeep, hj]

/-- C27 at the sample world in which player 0 holds peep 2: a Cancel that names
peep 1 returns the position of peep 1 and aborts the pickup of peep 2. -/
theorem C27_cancel_aborts_held_peep_witness :
    (PeepPickupAction.Execute sampleEnv 0 ⟨PeepPickupType.Cancel, 1, ⟨300, 0, 0⟩⟩
        sampleHolding2).result.Position = some ⟨100, 200, 16⟩ ∧
    (PeepPickupAction.Execute sampleEnv 0 ⟨PeepPickupType.Cancel, 1, ⟨300, 0, 0⟩⟩
        sampleHolding2).calls = [PeepCall.PickupAbort 2 300] :=
  have h := C27_cancel_aborts_held_peep sampleEnv 0 sampleHolding2 1 ⟨300, 0, 0⟩
    ⟨100, 200, 16, 0⟩ sampleHolding2_peep1
  ⟨h.2.1, (h.2.2.2.1 2 sampleHolding2_held).1⟩

/-- C28: `Execute` with type Place never changes the held-peep record or the
recorded old-x of any player, whether the target exists or not and whether the
placement succeeds or fails.  So after a successful Place of the peep `P` the
acting player holds, `P` is still recorded as held, and a later Pickup of
another peep `Q` by that player first aborts the pickup of `P`, with the
recorded old-x, through the nested Cancel. -/
theorem C28_place_keeps_pickup_record (env : PeepEnv) (player : Int) (w : World) (P Q : Nat)
    (loc loc2 : CoordsXYZ) (pp q : Peep) (hP : getPeep env w P = some pp)
    (hHeld : w.pickup_peep player = some P)
    (hTest : env.PlaceTest ⟨loc.x.tdiv 32, loc.y.tdiv 32, loc.z⟩ pp = true)
    (hQ : getPeep env w Q = some q) (hne : Q ≠ P) :
    (∀ (player1 : Int) (w1 : World) (P1 : Nat) (loc1 : CoordsXYZ),
      (PeepPickupAction.Execute env player1 ⟨PeepPickupType.Place, P1, loc1⟩ w1).world.pickup_peep
        = w1.pickup_peep ∧
      (PeepPickupAction.Execute env player1
          ⟨PeepPickupType.Place, P1, loc1⟩ w1).world.pickup_peep_old_x
        = w1.pickup_peep_old_x) ∧
    (PeepPickupAction.Execute env player ⟨PeepPickupType.Place, P, loc⟩ w).result.Error
      = GA_ERROR.OK ∧
    (PeepPickupAction.Execute env player ⟨PeepPickupType.Place, P, loc⟩ w).world.pickup_peep
      player = some P ∧
    (PeepPickupAction.Execute env player ⟨PeepPickupType.Pickup, Q, loc2⟩
        (PeepPickupAction.Execute env player ⟨PeepPickupType.Place, P, loc⟩ w).world).calls
      = [PeepCall.PickupAbort P (w.pickup_peep_old_x player), PeepCall.Pickup Q] := by
  have hframe : ∀ (player1 : Int) (w1 : World) (P1 : Nat) (loc1 : CoordsXYZ),
      (PeepPickupAction.Execute env player1 ⟨PeepPickupType.Place, P1, loc1⟩ w1).world.pickup_peep
        = w1.pickup_peep ∧
      (PeepPickupAction.Execute env player1
          ⟨PeepPickupType.Place, P1, loc1⟩ w1).world.pickup_peep_old_x
        = w1.pickup_peep_old_x := by
    intro player1 w1 P1 loc1
    cases hg : getPeep env w1 P1 with
    | none =>
      rw [Execute_no_peep env player1 _ w1 hg]
      exact ⟨rfl, rfl⟩
    | some p1 =>
      rw [Execute_place env player1 w1 P1 loc1 p1 hg]
      simp only []
      split <;> exact ⟨rfl, rfl⟩
  have hw : (PeepPickupAction.Execute env player ⟨PeepPickupType.Place, P, loc⟩ w).world
      = setPeep w P (env.PlaceApply ⟨loc.x.tdiv 32, loc.y.tdiv 32, loc.z⟩ pp) := by
    rw [Execute_place env player w P loc pp hP]
    simp [Peep.Place, hTest]
  refine ⟨hframe, ?_, ?_, ?_⟩
  · rw [Execute_place env player w P loc pp hP]
    simp [Peep.Place, hTest, MakeResult]
  · rw [(hframe player w P loc).1]
    exact hHeld
  · rw [hw]
    have hQ1 : getPeep env (setPeep w P (env.PlaceApply ⟨loc.x.tdiv 32, loc.y.tdiv 32, loc.z⟩ pp)) Q
        = some q := by
      rw [getPeep_setPeep_other env w P Q _ hne]
      exact hQ
    have hP1 := getPeep_setPeep_same env w P pp
      (env.PlaceApply ⟨loc.x.tdiv 32, loc.y.tdiv 32, loc.z⟩ pp) hP
    have hH1 : (setPeep w P (env.PlaceApply ⟨loc.x.tdiv 32, loc.y.tdiv 32, loc.z⟩ pp)).pickup_peep
        player = some P := hHeld
    rw [Execute_pickup_other env player _ Q P loc2 q hQ1 hH1 hne]
    simp only []
    rw [Execute_cancel_some env player P P _ _ _ hP1 hH1]
    rfl

/-- C28 at the sample world in which player 0 holds peep 2: after peep 2 is placed
on tile (2, 3), player 0 still holds it, and the Pickup of peep 1 aborts the
pickup of peep 2 with the old-x 300. -/
theorem C28_place_keeps_pickup_record_witness :
    (PeepPickupAction.Execute sampleEnv 0 ⟨PeepPickupType.Place, 2, ⟨64, 96, 16⟩⟩
        sampleHolding2).world.pickup_peep 0 = some 2 ∧
    (PeepPickupAction.Execute sampleEnv 0 ⟨PeepPickupType.Pickup, 1, ⟨0, 0, 0⟩⟩
        (PeepPickupAction.Execute sampleEnv 0 ⟨PeepPickupType.Place, 2, ⟨64, 96, 16⟩⟩
          sampleHolding2).world).calls
      = [PeepCall.PickupAbort 2 300, PeepCall.Pickup 1] :=
  have h := C28_place_keeps_pickup_record sampleEnv 0 sampleHolding2 2 1 ⟨64, 96, 16⟩ ⟨0, 0, 0⟩
    ⟨-32768, 400, 32, 1⟩ ⟨100, 200, 16, 0⟩ sampleHolding2_peep2 sampleHolding2_held (by decide)
    sampleHolding2_peep1 (by decide)
  ⟨h.2.2.1, by rw [h.2.2.2, sampleHolding2_old_x]⟩

end OpenRCT2
